import Mathlib

/-!
Task management system: sharing and progress aggregation.

A shallow embedding of `src/backend/routes/tasks.js` (progress aggregation,
per-viewer payloads, sharing, progress updates, notification fan-out) and of
the parts of `src/backend/services/notificationService.js` they call.

JavaScript numbers are IEEE-754 binary64 values.  Identifiers and counts are
integer-valued doubles; identifiers are represented by `Int` and counts by
`Nat`.  The only place where a non-integer double appears is the percentage
computed by
`calculateOverallProgress`, for which binary64 division and multiplication
are modelled exactly (`F64`).
-/

namespace TaskManagement

/-! ## IEEE-754 binary64 arithmetic on non-negative finite values -/

/-- A finite non-negative binary64 value, standing for `mant * 2 ^ exp`. -/
structure F64 where
  mant : Nat
  exp : Int
  deriving DecidableEq, Repr

namespace F64

/-- Halving loop behind `log2`; `fuel` bounds the number of halvings. -/
def log2Aux : Nat → Nat → Nat
  | 0, _ => 0
  | fuel + 1, n => if 2 ≤ n then log2Aux fuel (n / 2) + 1 else 0

/-- The integer `floor (log2 n)` for positive `n` (and `0` for `n = 0`). -/
def log2 (n : Nat) : Nat := log2Aux n n

/-- The integer `floor (log2 (n / d))` for positive `n` and `d`. -/
def floorLog2 (n d : Nat) : Int :=
  let l : Int := (log2 n : Int) - (log2 d : Int)
  if 0 ≤ l then
    if d * 2 ^ l.toNat ≤ n then l else l - 1
  else
    if d ≤ n * 2 ^ (-l).toNat then l else l - 1

/-- Round-to-nearest, ties-to-even of the quotient `n / d` of two naturals to
an integer. -/
def roundHalfEven (n d : Nat) : Nat :=
  let m := n / d
  let r := n % d
  if 2 * r < d then m
  else if d < 2 * r then m + 1
  else if m % 2 = 0 then m else m + 1

/-- The binary64 value nearest to the rational `n / d` (`0 < d`), with the
default rounding mode of ECMAScript (round to nearest, ties to even): 53
significant bits, least exponent `-1074` (subnormals).  Overflow to
`Infinity` does not arise for the values computed in this development, which
are at most `100`. -/
def ofRat (n d : Nat) : F64 :=
  if n = 0 then ⟨0, 0⟩
  else
    let q : Int := max (floorLog2 n d - 52) (-1074)
    if 0 ≤ q then ⟨roundHalfEven n (d * 2 ^ q.toNat), q⟩
    else ⟨roundHalfEven (n * 2 ^ (-q).toNat) d, q⟩

/-- The JavaScript `a / b` for two integer-valued doubles `a`, `b` with
`b ≠ 0`: the exact quotient, rounded once. -/
def divNat (a b : Nat) : F64 := ofRat a b

/-- The JavaScript `x * k` for a double `x` and an integer-valued double `k`:
the exact product, rounded once. -/
def mulNat (x : F64) (k : Nat) : F64 :=
  if 0 ≤ x.exp then ofRat (x.mant * k * 2 ^ x.exp.toNat) 1
  else ofRat (x.mant * k) (2 ^ (-x.exp).toNat)

end F64

/-- The JavaScript `Math.round` on a non-negative finite double: the integer
nearest to `x`, a tie going towards `+∞`, that is `floor (x + 1/2)` computed
exactly. -/
def Math.round (x : F64) : Nat :=
  if 0 ≤ x.exp then x.mant * 2 ^ x.exp.toNat
  else (2 * x.mant + 2 ^ (-x.exp).toNat) / (2 * 2 ^ (-x.exp).toNat)

/-! ## JavaScript values -/

/-- A value of a request body field: what `JSON.parse` can hand to a route.
`other` stands for arrays and objects, which are truthy and are not strings. -/
inductive JsValue where
  | undefined
  | null
  | bool (b : Bool)
  | number (n : Int)
  | string (s : String)
  | other
  deriving DecidableEq, Repr

/-- JavaScript truthiness of a string: every string but the empty one. -/
def truthyString (s : String) : Bool := !(s == "")

/-- JavaScript truthiness (`!!v`). -/
def JsValue.truthy : JsValue → Bool
  | .undefined => false
  | .null => false
  | .bool b => b
  | .number n => !(n == 0)
  | .string s => truthyString s
  | .other => true

/-- The JavaScript `a || b` on nullable strings (`none` is `null` or
`undefined`): `a` when it is truthy, else `b`. -/
def orString (a b : Option String) : Option String :=
  match a with
  | some s => if truthyString s then some s else b
  | none => b

/-- The code points removed by `String.prototype.trim`: ECMAScript WhiteSpace
and LineTerminator. -/
def isTrimChar (c : Char) : Bool :=
  let n := c.toNat
  n == 0x09 || n == 0x0A || n == 0x0B || n == 0x0C || n == 0x0D || n == 0x20 ||
  n == 0xA0 || n == 0x1680 || (0x2000 ≤ n && n ≤ 0x200A) || n == 0x2028 ||
  n == 0x2029 || n == 0x202F || n == 0x205F || n == 0x3000 || n == 0xFEFF

/-- The JavaScript `s.trim()`. -/
def jsTrim (s : String) : String :=
  String.mk ((s.data.dropWhile isTrimChar).reverse.dropWhile isTrimChar).reverse

/-- The JavaScript `new Set(xs)`, `set.add(x)` and `set.delete(x)` on numbers;
a set is kept as the list of its elements in insertion order, which is the
order `Array.from` gives back. -/
def JsSet.add (s : List Int) (x : Int) : List Int :=
  if x ∈ s then s else s ++ [x]

def JsSet.ofArray (xs : List Int) : List Int := xs.foldl JsSet.add []

def JsSet.delete (s : List Int) (x : Int) : List Int := s.filter (fun y => !(y == x))

/-! ## Progress aggregation (`routes/tasks.js`) -/

def VALID_STATUSES : List String := ["Pending", "In Progress", "Completed"]

def VALID_ACCESS_LEVELS : List String := ["full", "limited"]

/-- An entry of the lists held by the participants map of
`getTaskParticipants`. -/
structure Participant where
  id : Int
  username : String
  email : String
  accessLevel : String
  status : String
  deriving DecidableEq, Repr

/-- A participant as it appears in a payload: the entry and `isCurrentUser`. -/
structure PayloadParticipant where
  id : Int
  username : String
  email : String
  accessLevel : String
  status : String
  isCurrentUser : Bool
  deriving DecidableEq, Repr

/-- The `Map` from task id to participant list; `none` is a missing key. -/
abbrev ParticipantsMap := Int → Option (List Participant)

/-- The record returned by `calculateOverallProgress`. -/
structure Progress where
  totalParticipants : Nat
  completedParticipants : Nat
  overallProgress : Nat
  deriving DecidableEq, Repr

/-- The function `calculateOverallProgress(ownerStatus, participants)`;
`participants` may be `null` or `undefined` (`none`). -/
def calculateOverallProgress (ownerStatus : String)
    (participants : Option (List Participant)) : Progress :=
  let totalParticipants :=
    (match participants with
      | some ps => ps.length
      | none => 0) + 1
  let ownerContribution := if ownerStatus = "Completed" then 1 else 0
  let participantContribution :=
    match participants with
    | some ps => (ps.filter (fun participant => participant.status = "Completed")).length
    | none => 0
  if totalParticipants = 0 then
    { totalParticipants := 0, completedParticipants := 0, overallProgress := 0 }
  else
    let completedParticipants := ownerContribution + participantContribution
    let overallProgress :=
      Math.round ((F64.divNat completedParticipants totalParticipants).mulNat 100)
    { totalParticipants, completedParticipants, overallProgress }

/-- A row of the query of `loadTasksForViewer`. -/
structure TaskRow where
  id : Int
  title : String
  description : JsValue
  status : String
  due_date : JsValue
  created_at : Nat
  updated_at : Nat
  user_id : Int
  owner_username : String
  owner_email : String
  viewer_access_level : Option String
  viewer_status : Option String
  deriving DecidableEq, Repr

structure Owner where
  id : Int
  username : String
  email : String
  status : String
  deriving DecidableEq, Repr

structure Permissions where
  canEdit : Bool
  canDelete : Bool
  canUpdateProgress : Bool
  canShare : Bool
  deriving DecidableEq, Repr

/-- The object returned by `buildTaskPayload`. -/
structure TaskPayload where
  id : Int
  title : String
  description : JsValue
  status : String
  viewerStatus : String
  ownerStatus : String
  due_date : JsValue
  created_at : Nat
  updated_at : Nat
  owner : Owner
  isOwner : Bool
  participants : List PayloadParticipant
  totalParticipants : Nat
  completedParticipants : Nat
  overallProgress : Nat
  permissions : Permissions
  viewerAccessLevel : Option String
  deriving DecidableEq, Repr

/-- The function `buildTaskPayload(row, participantsMap, viewerId)`. -/
def buildTaskPayload (row : TaskRow) (participantsMap : ParticipantsMap)
    (viewerId : Int) : TaskPayload :=
  let rawParticipants := (participantsMap row.id).getD []
  let participants : List PayloadParticipant := rawParticipants.map fun participant =>
    { id := participant.id, username := participant.username, email := participant.email,
      accessLevel := participant.accessLevel, status := participant.status,
      isCurrentUser := participant.id == viewerId }
  let viewerIsOwner : Bool := row.user_id == viewerId
  let viewerParticipant : Option PayloadParticipant :=
    if viewerIsOwner then none
    else participants.find? (fun participant => participant.id == viewerId)
  let owner : Owner :=
    { id := row.user_id, username := row.owner_username, email := row.owner_email,
      status := row.status }
  let viewerStatus : String :=
    if viewerIsOwner then row.status
    else (orString (orString (viewerParticipant.map (·.status)) row.viewer_status)
            (some "Pending")).getD "Pending"
  let viewerAccessLevel : Option String :=
    if viewerIsOwner then some "owner"
    else orString (orString (viewerParticipant.map (·.accessLevel)) row.viewer_access_level)
            none
  let permissions : Permissions :=
    { canEdit := viewerIsOwner || viewerAccessLevel == some "full",
      canDelete := viewerIsOwner || viewerAccessLevel == some "full",
      canUpdateProgress := viewerIsOwner || viewerParticipant.isSome,
      canShare := viewerIsOwner }
  let progress := calculateOverallProgress row.status (some rawParticipants)
  { id := row.id, title := row.title, description := row.description,
    status := viewerStatus, viewerStatus := viewerStatus, ownerStatus := row.status,
    due_date := row.due_date, created_at := row.created_at, updated_at := row.updated_at,
    owner := owner, isOwner := viewerIsOwner, participants := participants,
    totalParticipants := progress.totalParticipants,
    completedParticipants := progress.completedParticipants,
    overallProgress := progress.overallProgress,
    permissions := permissions, viewerAccessLevel := viewerAccessLevel }

/-! ## The storage: tables and the queries the routes issue -/

/-- A row of table `users` (the columns the task routes read). -/
structure UserRow where
  id : Int
  username : String
  email : String
  deriving DecidableEq, Repr

/-- A row of table `tasks`.  `description` and `due_date` hold the value the
route hands to the storage driver. -/
structure TaskRecord where
  id : Int
  title : String
  description : JsValue
  status : String
  due_date : JsValue
  created_at : Nat
  updated_at : Nat
  user_id : Int
  deriving DecidableEq, Repr

/-- A row of table `task_participants`. -/
structure ParticipationRow where
  id : Int
  task_id : Int
  user_id : Int
  access_level : String
  status : String
  invited_by : Int
  deriving DecidableEq, Repr

/-- A metadata value of a notification. -/
inductive MetaValue where
  | null
  | number (n : Int)
  | string (s : String)
  deriving DecidableEq, Repr

/-- The metadata object of a notification, as its list of keys and values.
The stored column is the JSON text of this object; it is represented by the
object itself. -/
abbrev Metadata := List (String × MetaValue)

/-- A row of table `notifications`; `is_read` is the flag column (`0`/`1`). -/
structure NotificationRow where
  id : Int
  user_id : Int
  task_id : Option Int
  type : String
  title : String
  message : String
  metadata : Option Metadata
  is_read : Bool
  created_at : Nat
  deriving DecidableEq, Repr

/-- The object built by `mapNotification`. -/
structure Notification where
  id : Int
  userId : Int
  taskId : Option Int
  type : String
  title : String
  message : String
  metadata : Option Metadata
  isRead : Bool
  createdAt : Nat
  deriving DecidableEq, Repr

/-- The `ids` field of a `notification:marked-read` event: the list of ids
marked, or the string `"all"`. -/
inductive MarkedIds where
  | list (ids : List Int)
  | all
  deriving DecidableEq, Repr

/-- An event sent by `emitToUser` to the room of user `userId`; `ids` is
present in `notification:marked-read` events only. -/
structure Emission where
  userId : Int
  event : String
  notification : Option Notification
  unreadCount : Nat
  ids : Option MarkedIds := none
  deriving DecidableEq, Repr

/-- The state the routes act on: the four tables with their auto-increment
counters, whether `init` has set `ioInstance`, and the log of emitted events. -/
structure Store where
  users : List UserRow
  tasks : List TaskRecord
  participants : List ParticipationRow
  notifications : List NotificationRow
  nextTaskId : Int
  nextParticipationId : Int
  nextNotificationId : Int
  ioInstance : Bool
  emitted : List Emission
  deriving DecidableEq, Repr

/-- What the routes do not control: the storage clock (the default of the
`created_at` columns), whether the `INSERT` of a notification for a given
recipient is rejected by the storage, and how the storage compares text. -/
structure Env where
  now : Nat
  notificationInsertFails : Int → Bool
  /-- The storage's equality on text columns (its collation). -/
  textEq : String → String → Bool

/-- The participant entry built from a row of `task_participants JOIN users`. -/
def participantOf (tp : ParticipationRow) (u : UserRow) : Participant :=
  { id := tp.user_id, username := u.username, email := u.email,
    accessLevel := tp.access_level, status := tp.status }

/-- The rows of the query of `getTaskParticipants`: `task_participants JOIN
users`, restricted to the tasks of `taskIds`, each paired with its `task_id`. -/
def participantRows (s : Store) (taskIds : List Int) : List (Int × Participant) :=
  (s.participants.filter (fun tp => decide (tp.task_id ∈ taskIds))).flatMap fun tp =>
    (s.users.filter (fun u => u.id == tp.user_id)).map fun u =>
      (tp.task_id, participantOf tp u)

/-- The `forEach` of `getTaskParticipants`: each row is pushed on the list of
its task id, which starts empty. -/
def groupByTask (rows : List (Int × Participant)) (map : ParticipantsMap) : ParticipantsMap :=
  rows.foldl
    (fun (map : ParticipantsMap) row => fun k =>
      if k = row.1 then some ((map row.1).getD [] ++ [row.2]) else map k)
    map

/-- The function `getTaskParticipants(taskIds)`. -/
def getTaskParticipants (s : Store) (taskIds : Option (List Int)) : ParticipantsMap :=
  match taskIds with
  | none => fun _ => none
  | some [] => fun _ => none
  | some ids => groupByTask (participantRows s ids) (fun _ => none)

/-- The row selected for task `t` joined with its owner's user row; `al` and
`st` are the columns of the viewer's participation (`NULL` when there is none). -/
def joinedRow (t : TaskRecord) (owner : UserRow) (al st : Option String) : TaskRow :=
  { id := t.id, title := t.title, description := t.description, status := t.status,
    due_date := t.due_date, created_at := t.created_at, updated_at := t.updated_at,
    user_id := t.user_id, owner_username := owner.username,
    owner_email := owner.email, viewer_access_level := al, viewer_status := st }

/-- The rows that the query of `loadTasksForViewer` yields for one task:
`JOIN users owner`, `LEFT JOIN task_participants viewerParticipation`, and
the condition that the viewer owns the task or takes part in it. -/
def taskRowsOf (s : Store) (viewerId : Int) (t : TaskRecord) : List TaskRow :=
  (s.users.filter (fun owner => owner.id == t.user_id)).flatMap fun owner =>
    match s.participants.filter (fun vp => vp.task_id == t.id && vp.user_id == viewerId) with
    | [] => if t.user_id = viewerId then [joinedRow t owner none none] else []
    | vps => vps.map fun vp => joinedRow t owner (some vp.access_level) (some vp.status)

/-- The rows of the query of `loadTasksForViewer(viewerId, taskIds)`,
restricted to `taskIds` when it is a non-empty array, most recently created
first (rows created at the same instant keep table order). -/
def loadTaskRows (s : Store) (viewerId : Int) (taskIds : Option (List Int)) : List TaskRow :=
  let joined : List TaskRow := s.tasks.flatMap (taskRowsOf s viewerId)
  let selected : List TaskRow :=
    match taskIds with
    | some (i :: is) => joined.filter (fun (r : TaskRow) => decide (r.id ∈ i :: is))
    | _ => joined
  selected.insertionSort (fun a b => b.created_at ≤ a.created_at)

/-- The function `loadTasksForViewer(viewerId, taskIds)`. -/
def loadTasksForViewer (s : Store) (viewerId : Int) (taskIds : Option (List Int)) :
    List TaskPayload :=
  let rows := loadTaskRows s viewerId taskIds
  match rows with
  | [] => []
  | _ =>
    let taskIdsFetched := rows.map (·.id)
    let participantsMap := getTaskParticipants s (some taskIdsFetched)
    rows.map fun row => buildTaskPayload row participantsMap viewerId

/-- The function `loadTaskForViewer(taskId, viewerId)`. -/
def loadTaskForViewer (s : Store) (taskId viewerId : Int) : Option TaskPayload :=
  (loadTasksForViewer s viewerId (some [taskId])).head?

/-- The object returned by `getTaskMeta`. -/
structure TaskMeta where
  taskId : Int
  title : String
  ownerId : Int
  participantIds : List Int
  deriving DecidableEq, Repr

/-- The function `getTaskMeta(taskId)`. -/
def getTaskMeta (s : Store) (taskId : Int) : Option TaskMeta :=
  match s.tasks.filter (fun t => t.id == taskId) with
  | [] => none
  | task :: _ =>
    some
      { taskId := task.id, title := task.title, ownerId := task.user_id,
        participantIds :=
          (s.participants.filter (fun row => row.task_id == taskId)).map (·.user_id) }

/-! ## Notification service (`services/notificationService.js`) -/

/-- The function `mapNotification(row)`. -/
def mapNotification (row : NotificationRow) : Notification :=
  { id := row.id, userId := row.user_id, taskId := row.task_id, type := row.type,
    title := row.title, message := row.message, metadata := row.metadata,
    isRead := row.is_read, createdAt := row.created_at }

/-- The function `getNotificationById(id)`. -/
def getNotificationById (s : Store) (id : Int) : Option Notification :=
  ((s.notifications.filter (fun row => row.id == id)).head?).map mapNotification

/-- The function `getUnreadCount(userId)`. -/
def getUnreadCount (s : Store) (userId : Int) : Nat :=
  (s.notifications.filter (fun row => row.user_id == userId && !row.is_read)).length

/-- The function `emitToUser(userId, event, payload)`: nothing is sent
before `init` has set `ioInstance`. -/
def emitToUser (s : Store) (e : Emission) : Store :=
  if s.ioInstance then { s with emitted := s.emitted ++ [e] } else s

/-- The argument object of `createNotification`. -/
structure NotificationArgs where
  userId : Int
  taskId : Option Int
  type : String
  title : String
  message : String
  metadata : Option Metadata
  deriving DecidableEq, Repr

/-- The function `createNotification(args)`: the new store, and the
notification read back, or `Except.error` when the `INSERT` is rejected (the
promise rejects and nothing is written or emitted). -/
def createNotification (env : Env) (s : Store) (args : NotificationArgs) :
    Store × Except Unit (Option Notification) :=
  if env.notificationInsertFails args.userId then (s, .error ())
  else
    let insertId := s.nextNotificationId
    let row : NotificationRow :=
      { id := insertId, user_id := args.userId, task_id := args.taskId, type := args.type,
        title := args.title, message := args.message, metadata := args.metadata,
        is_read := false, created_at := env.now }
    let s1 : Store :=
      { s with notifications := s.notifications ++ [row],
               nextNotificationId := s.nextNotificationId + 1 }
    let notification := getNotificationById s1 insertId
    let unreadCount := getUnreadCount s1 args.userId
    let s2 := emitToUser s1
      { userId := args.userId, event := "notification:new", notification := notification,
        unreadCount := unreadCount }
    (s2, .ok notification)

/-- The second argument of `notifyUsers`. -/
structure NotifyPayload where
  taskId : Option Int
  type : String
  title : String
  message : String
  metadata : Metadata
  deriving DecidableEq, Repr

/-- The jobs of `notifyUsers`, one `createNotification` per recipient.  Every
job runs whether or not another one is rejected; the jobs are taken in the
order in which their queries reach the storage connection. -/
def notifyJobs (env : Env) (s : Store) (payload : NotifyPayload) :
    List Int → Store × List (Except Unit (Option Notification))
  | [] => (s, [])
  | userId :: rest =>
    let r := createNotification env s
      { userId := userId, taskId := payload.taskId, type := payload.type,
        title := payload.title, message := payload.message,
        metadata := some payload.metadata }
    let rs := notifyJobs env r.1 payload rest
    (rs.1, r.2 :: rs.2)

/-- The outcome of `Promise.all`: every value, or a rejection when one of the
promises is rejected. -/
def promiseAll {α : Type} : List (Except Unit α) → Except Unit (List α)
  | [] => .ok []
  | .error () :: _ => .error ()
  | .ok a :: rest =>
    match promiseAll rest with
    | .ok as => .ok (a :: as)
    | .error () => .error ()

/-- The function `notifyUsers(userIds, payload)`. -/
def notifyUsers (env : Env) (s : Store) (userIds : List Int) (payload : NotifyPayload) :
    Store × Except Unit (List (Option Notification)) :=
  match userIds with
  | [] => (s, .ok [])
  | _ =>
    let r := notifyJobs env s payload userIds
    (r.1, promiseAll r.2)

/-! ## Fan-out and routes (`routes/tasks.js`) -/

/-- The authenticated principal `req.user`, decoded from the token. -/
structure AuthUser where
  id : Int
  username : Option String
  email : Option String
  deriving DecidableEq, Repr

structure Actor where
  id : Int
  username : String
  deriving DecidableEq, Repr

/-- The function `resolveActor(req)`. -/
def resolveActor (user : AuthUser) : Actor :=
  { id := user.id,
    username := (orString (orString user.username user.email) (some "Someone")).getD "Someone" }

/-- The function `normalizeStatus(status, fallback)`. -/
def normalizeStatus (status : JsValue) (fallback : String) : String :=
  match status with
  | .string st =>
    let trimmedStatus := jsTrim st
    if trimmedStatus ∈ VALID_STATUSES then trimmedStatus else fallback
  | _ => fallback

/-- Object spread `{...base, ...extra}` on metadata objects: a key of `extra`
replaces the value of the same key of `base` in place, a new key is appended. -/
def Metadata.set (o : Metadata) (kv : String × MetaValue) : Metadata :=
  if o.any (fun e => e.1 == kv.1) then o.map (fun e => if e.1 == kv.1 then (e.1, kv.2) else e)
  else o ++ [kv]

def Metadata.spread (base extra : Metadata) : Metadata := extra.foldl Metadata.set base

/-- The function `notifyTaskParticipants({meta, taskId, actor, type, title,
message, metadata})`. -/
def notifyTaskParticipants (env : Env) (s : Store) (meta : Option TaskMeta)
    (taskId : Option Int) (actor : Actor) (type title message : String)
    (metadata : Metadata) : Store × Except Unit Unit :=
  let taskMeta : Option TaskMeta :=
    match meta with
    | some m => some m
    | none =>
      match taskId with
      | some t => if t ≠ 0 then getTaskMeta s t else none
      | none => none
  match taskMeta with
  | none => (s, .ok ())
  | some taskMeta =>
    let recipients := JsSet.ofArray taskMeta.participantIds
    let recipients := if taskMeta.ownerId ≠ 0 then JsSet.add recipients taskMeta.ownerId
                      else recipients
    let recipients := JsSet.delete recipients actor.id
    if recipients.length = 0 then (s, .ok ())
    else
      let r := notifyUsers env s recipients
        { taskId := some taskMeta.taskId, type := type, title := title, message := message,
          metadata := Metadata.spread
            [("taskId", .number taskMeta.taskId), ("taskTitle", .string taskMeta.title),
             ("actorId", .number actor.id), ("actorName", .string actor.username)]
            metadata }
      (r.1, r.2.map (fun _ => ()))

/-- The body of a response. -/
inductive Body where
  | error (msg : String)
  | task (t : Option TaskPayload)
  | tasks (ts : List TaskPayload)
  | message (msg : String)
  deriving DecidableEq, Repr

/-- What a route handler does with a request: it sends a response with a
status code, or it throws outside its `try` block and sends none. -/
inductive RouteResult where
  | response (status : Nat) (body : Body)
  | uncaught
  deriving DecidableEq, Repr

/-- The body of `POST /` (create a task). -/
structure CreateBody where
  title : JsValue
  description : JsValue
  status : JsValue
  due_date : JsValue

/-- The route `router.post("/")` (the spec's `createTask`). -/
def createTask (env : Env) (s : Store) (user : AuthUser) (body : CreateBody) :
    Store × RouteResult :=
  let userId := user.id
  match body.title with
  | .string title =>
    if jsTrim title = "" then (s, .response 400 (.error "Title is required"))
    else
      let normalizedStatus := normalizeStatus body.status "Pending"
      let normalizedDueDate := if body.due_date.truthy then body.due_date else .null
      let taskPayload : TaskRecord :=
        { id := s.nextTaskId, title := jsTrim title,
          description := if body.description.truthy then body.description else .null,
          status := normalizedStatus, due_date := normalizedDueDate,
          created_at := env.now, updated_at := env.now, user_id := userId }
      let s1 : Store := { s with tasks := s.tasks ++ [taskPayload], nextTaskId := s.nextTaskId + 1 }
      let task := loadTaskForViewer s1 taskPayload.id userId
      (s1, .response 201 (.task task))
  | title =>
    if title.truthy then (s, .uncaught)
    else (s, .response 400 (.error "Title is required"))

/-- The body of `POST /:id/share`. -/
structure ShareBody where
  email : JsValue
  identifier : JsValue
  accessLevel : JsValue

/-- The JavaScript `s.toLowerCase()`, on the letters `A`-`Z`.  No other code
point lower-cases to a letter of `full` or `limited`, so membership in
`VALID_ACCESS_LEVELS` and the value kept are those of the full mapping. -/
def toLowerCase (s : String) : String := String.mk (s.data.map Char.toLower)

/-- The value `identifier || email || ""` of a share request. -/
def shareLookupValue (body : ShareBody) : JsValue :=
  if body.identifier.truthy then body.identifier
  else if body.email.truthy then body.email
  else .string ""

/-- The access level a share request is normalised to. -/
def normalizeAccessLevel (accessLevel : JsValue) : String :=
  match accessLevel with
  | .string a => if toLowerCase a ∈ VALID_ACCESS_LEVELS then toLowerCase a else "limited"
  | _ => "limited"

/-- The query `SELECT id, username, email FROM users WHERE email = ? OR
username = ? LIMIT 1` (the first matching row in table order). -/
def findUser (env : Env) (s : Store) (lookup : String) : Option UserRow :=
  s.users.find? (fun u => env.textEq u.email lookup || env.textEq u.username lookup)

/-- The route `router.post("/:id/share")` (the spec's `shareTask`);
`taskIdParam` is `Number(req.params.id)` when that is an integer. -/
def shareTask (env : Env) (s : Store) (user : AuthUser) (taskIdParam : Option Int)
    (body : ShareBody) : Store × RouteResult :=
  let userId := user.id
  let actor := resolveActor user
  match taskIdParam with
  | none => (s, .response 400 (.error "Invalid task id"))
  | some taskId =>
    match shareLookupValue body with
    | .string rawLookup =>
      let lookup := jsTrim rawLookup
      if lookup = "" then
        (s, .response 400 (.error "Email or username is required to share a task"))
      else
        let normalizedAccessLevel := normalizeAccessLevel body.accessLevel
        match s.tasks.filter (fun t => t.id == taskId) with
        | [] => (s, .response 404 (.error "Task not found"))
        | taskRow :: _ =>
          if taskRow.user_id ≠ userId then
            (s, .response 403 (.error "Only the task owner can share this task"))
          else
            match findUser env s lookup with
            | none => (s, .response 404 (.error "User not found"))
            | some targetUser =>
              if targetUser.id = userId then
                (s, .response 400 (.error "You cannot share a task with yourself"))
              else if (s.participants.filter
                  (fun p => p.task_id == taskId && p.user_id == targetUser.id)).length > 0 then
                (s, .response 400 (.error "Task is already shared with this user"))
              else
                let s1 : Store :=
                  { s with
                    participants := s.participants ++
                      [{ id := s.nextParticipationId, task_id := taskId,
                         user_id := targetUser.id, access_level := normalizedAccessLevel,
                         status := "Pending", invited_by := userId }],
                    nextParticipationId := s.nextParticipationId + 1 }
                let taskMeta := getTaskMeta s1 taskId
                let metaTitle : Option String := orString (taskMeta.map (·.title)) none
                let r := createNotification env s1
                  { userId := targetUser.id, taskId := some taskId, type := "task_shared",
                    title := "Task shared with you",
                    message := actor.username ++ " shared \"" ++ metaTitle.getD "a task" ++
                      "\" with you.",
                    metadata := some
                      [("taskId", .number taskId),
                       ("taskTitle", match metaTitle with
                          | some t => .string t
                          | none => .null),
                       ("actorId", .number actor.id), ("actorName", .string actor.username),
                       ("accessLevel", .string normalizedAccessLevel)] }
                match r.2 with
                | .error () => (r.1, .response 500 (.error "Failed to share task"))
                | .ok _ =>
                  let updatedTask := loadTaskForViewer r.1 taskId userId
                  (r.1, .response 201 (.task updatedTask))
    | _ => (s, .uncaught)

/-- The route `router.put("/:id/progress")` (the spec's `updateProgress`). -/
def updateProgress (env : Env) (s : Store) (user : AuthUser) (taskIdParam : Option Int)
    (status : JsValue) : Store × RouteResult :=
  let userId := user.id
  let actor := resolveActor user
  match taskIdParam with
  | none => (s, .response 400 (.error "Invalid task id"))
  | some taskId =>
    match status with
    | .string status =>
      if status ∉ VALID_STATUSES then (s, .response 400 (.error "Invalid status value"))
      else
        match s.tasks.filter (fun t => t.id == taskId) with
        | [] => (s, .response 404 (.error "Task not found"))
        | _ :: _ =>
          match loadTaskForViewer s taskId userId with
          | none => (s, .response 403 (.error "You do not have access to this task"))
          | some access =>
            if !access.permissions.canUpdateProgress then
              (s, .response 403 (.error "You do not have permission to update progress"))
            else
              let s1 : Store :=
                if access.owner.id = userId then
                  { s with tasks := s.tasks.map fun t =>
                      if t.id = taskId then { t with status := status } else t }
                else
                  { s with participants := s.participants.map fun p =>
                      if p.task_id = taskId ∧ p.user_id = userId then { p with status := status }
                      else p }
              let updatedTask := loadTaskForViewer s1 taskId userId
              let r : Store × Except Unit Unit :=
                match getTaskMeta s1 taskId with
                | some taskMeta =>
                  notifyTaskParticipants env s1 (some taskMeta) none actor "task_progress"
                    "Progress updated"
                    (actor.username ++ " updated progress on \"" ++ taskMeta.title ++
                      "\" to " ++ status ++ ".")
                    [("action", .string "progress"), ("status", .string status)]
                | none => (s1, .ok ())
              match r.2 with
              | .error () => (r.1, .response 500 (.error "Failed to update task progress"))
              | .ok () => (r.1, .response 200 (.task updatedTask))
    | _ => (s, .response 400 (.error "Invalid status value"))

/-- The route `router.get("/")` (the spec's `listTasksForViewer`). -/
def getTasks (s : Store) (user : AuthUser) : Store × RouteResult :=
  (s, .response 200 (.tasks (loadTasksForViewer s user.id none)))

/-- The route `router.get("/:id")` (the spec's `getTask`). -/
def getTask (s : Store) (user : AuthUser) (taskIdParam : Option Int) : Store × RouteResult :=
  match taskIdParam with
  | none => (s, .response 400 (.error "Invalid task id"))
  | some taskId =>
    match loadTaskForViewer s taskId user.id with
    | none => (s, .response 404 (.error "Task not found"))
    | some task => (s, .response 200 (.task (some task)))

/-- The body of `PUT /:id` (update a task). -/
structure UpdateBody where
  title : JsValue
  description : JsValue
  status : JsValue
  due_date : JsValue

/-- What the title check of `router.put("/:id")` does with a supplied title. -/
inductive TitleCheck where
  | accepted
  | rejected
  | throws
  deriving DecidableEq, Repr

/-- The check `!title || !title.trim()` on a title that is not `undefined`:
a falsy or blank title is rejected, and a truthy value that is not a string
has no `trim` and throws a `TypeError`. -/
def checkTitle (title : JsValue) : TitleCheck :=
  match title with
  | .string t => if jsTrim t = "" then .rejected else .accepted
  | v => if v.truthy then .throws else .rejected

/-- The test `VALID_STATUSES.has(status)`. -/
def isValidStatus (status : JsValue) : Bool :=
  match status with
  | .string st => decide (st ∈ VALID_STATUSES)
  | _ => false

/-- The `SET` clause that `router.put("/:id")` builds from the supplied
fields, applied to a task row. -/
def applyUpdates (body : UpdateBody) (t : TaskRecord) : TaskRecord :=
  let t1 : TaskRecord :=
    match body.title with
    | .string title => { t with title := jsTrim title }
    | _ => t
  let t2 : TaskRecord :=
    if body.description = .undefined then t1
    else { t1 with description := if body.description.truthy then body.description else .null }
  let t3 : TaskRecord :=
    match body.status with
    | .string status => { t2 with status := status }
    | _ => t2
  if body.due_date = .undefined then t3
  else { t3 with due_date := if body.due_date.truthy then body.due_date else .null }

/-- The route `router.put("/:id")` (the spec's `updateTask`). -/
def updateTask (env : Env) (s : Store) (user : AuthUser) (taskIdParam : Option Int)
    (body : UpdateBody) : Store × RouteResult :=
  let userId := user.id
  let actor := resolveActor user
  match taskIdParam with
  | none => (s, .response 400 (.error "Invalid task id"))
  | some taskId =>
    match s.tasks.filter (fun t => t.id == taskId) with
    | [] => (s, .response 404 (.error "Task not found"))
    | _ :: _ =>
      match loadTaskForViewer s taskId userId with
      | none => (s, .response 403 (.error "You do not have access to this task"))
      | some access =>
        if !access.permissions.canEdit then
          (s, .response 403 (.error "You do not have permission to edit this task"))
        else if body.title ≠ .undefined ∧ checkTitle body.title = .rejected then
          (s, .response 400 (.error "Title cannot be empty"))
        else if body.title ≠ .undefined ∧ checkTitle body.title = .throws then
          (s, .response 500 (.error "Failed to update task"))
        else if body.status ≠ .undefined ∧ isValidStatus body.status = false then
          (s, .response 400 (.error "Invalid status value"))
        else if body.title = .undefined ∧ body.description = .undefined
            ∧ body.status = .undefined ∧ body.due_date = .undefined then
          (s, .response 400 (.error "No updates provided"))
        else
          let s1 : Store :=
            { s with tasks := s.tasks.map fun t =>
                if t.id = taskId then applyUpdates body t else t }
          let updatedTask := loadTaskForViewer s1 taskId userId
          let r : Store × Except Unit Unit :=
            match getTaskMeta s1 taskId with
            | some taskMeta =>
              notifyTaskParticipants env s1 (some taskMeta) none actor "task_updated"
                "Task updated"
                (actor.username ++ " updated \"" ++ taskMeta.title ++ "\".")
                (Metadata.spread [("action", .string "update")]
                  (match body.status with
                    | .string status => [("status", .string status)]
                    | _ => []))
            | none => (s1, .ok ())
          match r.2 with
          | .error () => (r.1, .response 500 (.error "Failed to update task"))
          | .ok () => (r.1, .response 200 (.task updatedTask))

/-- Modelled from the spec: the effect of `DELETE FROM tasks WHERE id = ?` with
the referential actions of the schema, which is not in the source: the task
row goes, and with it the participation rows and the notifications that
reference it. -/
def deleteCascade (s : Store) (taskId : Int) : Store :=
  { s with
    tasks := s.tasks.filter (fun t => !(t.id == taskId)),
    participants := s.participants.filter (fun p => !(p.task_id == taskId)),
    notifications := s.notifications.filter (fun n => !(n.task_id == some taskId)) }

/-- The route `router.delete("/:id")` (the spec's `deleteTask`). -/
def deleteTask (s : Store) (user : AuthUser) (taskIdParam : Option Int) : Store × RouteResult :=
  let userId := user.id
  match taskIdParam with
  | none => (s, .response 400 (.error "Invalid task id"))
  | some taskId =>
    match s.tasks.filter (fun t => t.id == taskId) with
    | [] => (s, .response 404 (.error "Task not found"))
    | _ :: _ =>
      match loadTaskForViewer s taskId userId with
      | none => (s, .response 403 (.error "You do not have access to this task"))
      | some access =>
        if !access.permissions.canDelete then
          (s, .response 403 (.error "You do not have permission to delete this task"))
        else (deleteCascade s taskId, .response 200 (.message "Task deleted successfully"))

/-! ## Read state of notifications (`services/notificationService.js`) -/

/-- The value of `Number(id)`: an integer, or a value for which
`Number.isInteger` is false (`NaN`, an infinity, a number with a fraction). -/
inductive JsNumber where
  | integer (n : Int)
  | nonInteger
  deriving DecidableEq, Repr

/-- The test `Number.isInteger(id) && id > 0`. -/
def JsNumber.isPositiveInteger : JsNumber → Bool
  | .integer n => decide (0 < n)
  | .nonInteger => false

/-- The integer held by a number that passed `Number.isInteger`. -/
def JsNumber.toInt : JsNumber → Int
  | .integer n => n
  | .nonInteger => 0

/-- The `cleanedIds` of `markAsRead`: `ids.map(Number)` filtered by
`Number.isInteger(id) && id > 0` when `ids` is an array (`some`), and `[]`
otherwise.  The built-in `Number` is the parameter `number`. -/
def cleanIds {α : Type} (number : α → JsNumber) (ids : Option (List α)) : List Int :=
  match ids with
  | some l => ((l.map number).filter JsNumber.isPositiveInteger).map JsNumber.toInt
  | none => []

/-- The function `markAsRead(userId, ids)`: the new store and the unread count
returned. -/
def markAsRead {α : Type} (number : α → JsNumber) (s : Store) (userId : Int)
    (ids : Option (List α)) : Store × Nat :=
  let cleanedIds := cleanIds number ids
  let s1 : Store :=
    if cleanedIds.length > 0 then
      { s with notifications := s.notifications.map fun n =>
          if n.user_id = userId ∧ n.id ∈ cleanedIds then { n with is_read := true } else n }
    else s
  let unreadCount := getUnreadCount s1 userId
  let s2 := emitToUser s1
    { userId := userId, event := "notification:marked-read", notification := none,
      unreadCount := unreadCount, ids := some (.list cleanedIds) }
  (s2, unreadCount)

/-- The function `markAllAsRead(userId)`: the new store and the count
returned, which is the constant `0`. -/
def markAllAsRead (s : Store) (userId : Int) : Store × Nat :=
  let s1 : Store :=
    { s with notifications := s.notifications.map fun n =>
        if n.user_id = userId then { n with is_read := true } else n }
  let unreadCount := 0
  let s2 := emitToUser s1
    { userId := userId, event := "notification:marked-read", notification := none,
      unreadCount := unreadCount, ids := some .all }
  (s2, unreadCount)

/-- The value of `Number(limit)`: an integer, `NaN`, or another number (one
with a fraction, or an infinity). -/
inductive LimitNumber where
  | integer (n : Int)
  | notANumber
  | other
  deriving DecidableEq, Repr

/-- The `limitValue` of `listNotifications`: `Number(limit) || 50`, where an
absent `limit` takes the default `50`. -/
def limitValue (limit : Option LimitNumber) : LimitNumber :=
  match limit with
  | none => .integer 50
  | some (.integer n) => if n = 0 then .integer 50 else .integer n
  | some .notANumber => .integer 50
  | some .other => .other

/-- The rows of `SELECT * FROM notifications WHERE user_id = ? ORDER BY
created_at DESC` (rows created at the same instant keep table order). -/
def notificationsOf (s : Store) (userId : Int) : List NotificationRow :=
  (s.notifications.filter (fun row => row.user_id == userId)).insertionSort
    (fun a b => b.created_at ≤ a.created_at)

/-- The function `listNotifications(userId, limit)`.  The storage accepts a
`LIMIT` that is a non-negative integer and rejects every other one, in which
case the promise is rejected. -/
def listNotifications (s : Store) (userId : Int) (limit : Option LimitNumber) :
    Except Unit (List Notification) :=
  match limitValue limit with
  | .integer n =>
    if 0 ≤ n then .ok (((notificationsOf s userId).take n.toNat).map mapNotification)
    else .error ()
  | _ => .error ()

/-! ## The metadata column as text -/

/-- The function `safelyParseJson(value)`; the built-in `JSON.parse` is the
parameter `parse`, `none` standing for a thrown `SyntaxError`. -/
def safelyParseJson {J : Type} (parse : String → Option J) (null : J) (value : String) : J :=
  match parse value with
  | some v => v
  | none => null

/-- The `metadata` field built by `mapNotification` from the text of the
column: `row.metadata ? safelyParseJson(row.metadata) : null`. -/
def mapMetadata {J : Type} (parse : String → Option J) (null : J) (column : Option String) :
    J :=
  match column with
  | none => null
  | some text => if truthyString text then safelyParseJson parse null text else null

/-- The text that `createNotification` stores for a metadata object:
`metadata ? JSON.stringify(metadata) : null`; an object is truthy, and the
built-in `JSON.stringify` is the parameter `stringify`. -/
def storedMetadata {J : Type} (stringify : J → String) (metadata : Option J) : Option String :=
  match metadata with
  | some m => some (stringify m)
  | none => none

/-! ## JSON texts (the built-ins `JSON.stringify` and `JSON.parse`) -/

/-- A JSON value.  A number is kept as the integer it denotes, or as
`nonInteger` when it denotes none (the rounding of large numbers to binary64
and the sign of `-0` are left aside). -/
inductive Json where
  | null
  | bool (b : Bool)
  | number (n : JsNumber)
  | string (s : String)
  | array (items : List Json)
  | object (members : List (String × Json))

/-- The decimal digit `d` as a character. -/
def digitChar (d : Nat) : Char := Char.ofNat (48 + d)

/-- The decimal digits of `n`, most significant first (`fuel` bounds their
number). -/
def natDigits : Nat → Nat → List Char
  | 0, _ => []
  | fuel + 1, n =>
    if n < 10 then [digitChar n] else natDigits fuel (n / 10) ++ [digitChar (n % 10)]

/-- The text of an integer, as `Number::toString` gives it. -/
def numberText (n : Int) : List Char :=
  if n < 0 then '-' :: natDigits (n.natAbs + 1) n.natAbs
  else natDigits (n.natAbs + 1) n.natAbs

/-- The hexadecimal digit `n`, in lower case. -/
def hexDigit (n : Nat) : Char := if n < 10 then Char.ofNat (48 + n) else Char.ofNat (87 + n)

/-- The characters that `QuoteJSONString` writes for one character. -/
def quoteChar (c : Char) : List Char :=
  if c = '"' then ['\\', '"']
  else if c = '\\' then ['\\', '\\']
  else if c.toNat = 8 then ['\\', 'b']
  else if c.toNat = 12 then ['\\', 'f']
  else if c.toNat = 10 then ['\\', 'n']
  else if c.toNat = 13 then ['\\', 'r']
  else if c.toNat = 9 then ['\\', 't']
  else if c.toNat < 32 then
    ['\\', 'u', '0', '0', hexDigit (c.toNat / 16), hexDigit (c.toNat % 16)]
  else [c]

/-- The abstract operation `QuoteJSONString` on the characters of a string. -/
def quoteJSONString (s : List Char) : List Char :=
  '"' :: (s.flatMap quoteChar ++ ['"'])

/-- The text of a metadata value. -/
def valueText (v : MetaValue) : List Char :=
  match v with
  | .null => ['n', 'u', 'l', 'l']
  | .number n => numberText n
  | .string s => quoteJSONString s.data

/-- The text of one member: the quoted key, a colon, the value. -/
def memberText (kv : String × MetaValue) : List Char :=
  quoteJSONString kv.1.data ++ ':' :: valueText kv.2

/-- The members of an object, separated by commas, and the closing brace. -/
def membersText : Metadata → List Char
  | [] => ['}']
  | [kv] => memberText kv ++ ['}']
  | kv :: rest => memberText kv ++ ',' :: membersText rest

/-- The built-in `JSON.stringify` on a metadata object. -/
def jsonStringify (m : Metadata) : String := String.mk ('{' :: membersText m)

/-- JSON white space. -/
def isWs (c : Char) : Bool := c.toNat = 32 || c.toNat = 9 || c.toNat = 10 || c.toNat = 13

/-- The text after its leading white space. -/
def skipWs : List Char → List Char
  | [] => []
  | c :: cs => if isWs c then skipWs cs else c :: cs

/-- A decimal digit. -/
def isDigit (c : Char) : Bool := 48 ≤ c.toNat && c.toNat ≤ 57

/-- The number written by a list of decimal digits. -/
def digitsValue (ds : List Char) : Nat := ds.foldl (fun acc c => acc * 10 + (c.toNat - 48)) 0

/-- The value of a hexadecimal digit. -/
def hexValue (c : Char) : Option Nat :=
  if isDigit c then some (c.toNat - 48)
  else if 97 ≤ c.toNat ∧ c.toNat ≤ 102 then some (c.toNat - 87)
  else if 65 ≤ c.toNat ∧ c.toNat ≤ 70 then some (c.toNat - 55)
  else none

/-- The code unit written by four hexadecimal digits. -/
def hex4 (a b c d : Char) : Option Nat :=
  match hexValue a, hexValue b, hexValue c, hexValue d with
  | some x, some y, some z, some w => some (((x * 16 + y) * 16 + z) * 16 + w)
  | _, _, _, _ => none

/-- The character of an escape `\e` other than `\u`. -/
def unescape (e : Char) : Option Char :=
  if e = '"' then some '"'
  else if e = '\\' then some '\\'
  else if e = '/' then some '/'
  else if e = 'b' then some (Char.ofNat 8)
  else if e = 'f' then some (Char.ofNat 12)
  else if e = 'n' then some (Char.ofNat 10)
  else if e = 'r' then some (Char.ofNat 13)
  else if e = 't' then some (Char.ofNat 9)
  else none

/-- The code units of a JSON string, read after its opening quote, up to the
closing quote, and the text that follows; an escape `\\uXXXX` gives the code
unit it writes, every other character its code point. -/
def parseUnits : List Char → Option (List Nat × List Char)
  | [] => none
  | c :: cs =>
    if c = '"' then some ([], cs)
    else if c = '\\' then
      match cs with
      | [] => none
      | e :: rest =>
        if e = 'u' then
          match rest with
          | p :: q :: r :: t :: rest2 =>
            match hex4 p q r t with
            | none => none
            | some n => (parseUnits rest2).map fun x => (n :: x.1, x.2)
          | _ => none
        else
          match unescape e with
          | some ch => (parseUnits rest).map fun x => (ch.toNat :: x.1, x.2)
          | none => none
    else if c.toNat < 32 then none
    else (parseUnits cs).map fun x => (c.toNat :: x.1, x.2)

/-- A code unit `0xD800`-`0xDBFF`. -/
def isHighSurrogate (n : Nat) : Bool := 0xD800 ≤ n && n ≤ 0xDBFF

/-- A code unit `0xDC00`-`0xDFFF`. -/
def isLowSurrogate (n : Nat) : Bool := 0xDC00 ≤ n && n ≤ 0xDFFF

/-- The character of a code unit that is not part of a surrogate pair; a
surrogate that is alone, which a string of the model cannot hold, is read as
U+FFFD. -/
def unitChar (n : Nat) : Char :=
  if isHighSurrogate n || isLowSurrogate n then Char.ofNat 0xFFFD else Char.ofNat n

/-- The characters of a list of code units: a high surrogate followed by a low
one is their code point. -/
def decodeUnits : List Nat → List Char
  | [] => []
  | [n] => [unitChar n]
  | n :: m :: rest =>
    if isHighSurrogate n && isLowSurrogate m then
      Char.ofNat (0x10000 + (n - 0xD800) * 0x400 + (m - 0xDC00)) :: decodeUnits rest
    else unitChar n :: decodeUnits (m :: rest)

/-- The characters of a JSON string, read after its opening quote, and the
text that follows its closing quote. -/
def parseStringBody (cs : List Char) : Option (List Char × List Char) :=
  (parseUnits cs).map fun x => (decodeUnits x.1, x.2)

/-- The digits at the head of a text, and the rest of the text. -/
def takeDigits (cs : List Char) : List Char × List Char :=
  (cs.takeWhile isDigit, cs.dropWhile isDigit)

/-- The fraction part `.digits` at the head of a text, if any: its digits and
the rest of the text; `none` when the point is followed by no digit. -/
def parseFraction (cs : List Char) : Option (List Char × List Char) :=
  match cs with
  | c :: rest =>
    if c = '.' then
      if (takeDigits rest).1 = [] then none else some (takeDigits rest)
    else some ([], cs)
  | [] => some ([], cs)

/-- The exponent part at the head of a text, if any: its value and the rest of
the text; `none` when the `e` is followed by no digit. -/
def parseExponent (cs : List Char) : Option (Int × List Char) :=
  match cs with
  | c :: rest =>
    if c = 'e' ∨ c = 'E' then
      match rest with
      | s :: rest2 =>
        if s = '-' then
          if (takeDigits rest2).1 = [] then none
          else some (- (digitsValue (takeDigits rest2).1 : Int), (takeDigits rest2).2)
        else if s = '+' then
          if (takeDigits rest2).1 = [] then none
          else some ((digitsValue (takeDigits rest2).1 : Int), (takeDigits rest2).2)
        else
          if (takeDigits rest).1 = [] then none
          else some ((digitsValue (takeDigits rest).1 : Int), (takeDigits rest).2)
      | [] => none
    else some (0, cs)
  | [] => some (0, cs)

/-- The number with decimal mantissa `mantissa` and decimal exponent `scale`. -/
def scaledNumber (negative : Bool) (mantissa : Nat) (scale : Int) : JsNumber :=
  let sign : Int := if negative then -1 else 1
  if 0 ≤ scale then .integer (sign * (mantissa * 10 ^ scale.toNat : Nat))
  else if mantissa % 10 ^ (-scale).toNat = 0 then
    .integer (sign * (mantissa / 10 ^ (-scale).toNat : Nat))
  else .nonInteger

/-- A JSON number at the head of a text, without its sign. -/
def parseUnsigned (negative : Bool) (cs : List Char) : Option (JsNumber × List Char) :=
  let ip := (takeDigits cs).1
  if ip = [] then none
  else if ip.head? = some '0' ∧ ip.length ≠ 1 then none
  else
    match parseFraction (takeDigits cs).2 with
    | none => none
    | some (fp, rest) =>
      match parseExponent rest with
      | none => none
      | some (e, rest2) =>
        some (scaledNumber negative (digitsValue (ip ++ fp)) (e - fp.length), rest2)

/-- A JSON number at the head of a text. -/
def parseNumber (cs : List Char) : Option (JsNumber × List Char) :=
  match cs with
  | c :: rest => if c = '-' then parseUnsigned true rest else parseUnsigned false cs
  | [] => none

/-- The property definition of `JSON.parse`: a key that is already there keeps
its place and takes the new value, a new key is appended. -/
def Json.setMember (o : List (String × Json)) (key : String) (v : Json) :
    List (String × Json) :=
  if o.any (fun e => e.1 == key) then o.map (fun e => if e.1 == key then (e.1, v) else e)
  else o ++ [(key, v)]

mutual
/-- A JSON value at the head of a text, and the rest of the text; `fuel`
bounds the depth of nesting. -/
def parseValue : Nat → List Char → Option (Json × List Char)
  | 0, _ => none
  | fuel + 1, cs =>
    match skipWs cs with
    | [] => none
    | c :: rest =>
      if c = '"' then
        (parseStringBody rest).map fun x => (Json.string (String.mk x.1), x.2)
      else if c = '{' then
        match skipWs rest with
        | [] => none
        | d :: rest2 =>
          if d = '}' then some (Json.object [], rest2) else parseMembers fuel [] (d :: rest2)
      else if c = '[' then
        match skipWs rest with
        | [] => none
        | d :: rest2 =>
          if d = ']' then some (Json.array [], rest2) else parseItems fuel [] (d :: rest2)
      else if c = 'n' then
        if rest.take 3 = ['u', 'l', 'l'] then some (Json.null, rest.drop 3) else none
      else if c = 't' then
        if rest.take 3 = ['r', 'u', 'e'] then some (Json.bool true, rest.drop 3) else none
      else if c = 'f' then
        if rest.take 4 = ['a', 'l', 's', 'e'] then some (Json.bool false, rest.drop 4)
        else none
      else (parseNumber (c :: rest)).map fun x => (Json.number x.1, x.2)
/-- The members of an object, after the opening brace or a comma, up to the
closing brace. -/
def parseMembers : Nat → List (String × Json) → List Char → Option (Json × List Char)
  | 0, _, _ => none
  | fuel + 1, acc, cs =>
    match skipWs cs with
    | [] => none
    | c :: rest =>
      if c = '"' then
        match parseStringBody rest with
        | none => none
        | some (key, rest1) =>
          match skipWs rest1 with
          | [] => none
          | d :: rest2 =>
            if d = ':' then
              match parseValue fuel rest2 with
              | none => none
              | some (v, rest3) =>
                match skipWs rest3 with
                | [] => none
                | e :: rest4 =>
                  if e = ',' then
                    parseMembers fuel (Json.setMember acc (String.mk key) v) rest4
                  else if e = '}' then
                    some (Json.object (Json.setMember acc (String.mk key) v), rest4)
                  else none
            else none
      else none
/-- The items of an array, after the opening bracket or a comma, up to the
closing bracket. -/
def parseItems : Nat → List Json → List Char → Option (Json × List Char)
  | 0, _, _ => none
  | fuel + 1, acc, cs =>
    match parseValue fuel cs with
    | none => none
    | some (v, rest) =>
      match skipWs rest with
      | [] => none
      | e :: rest2 =>
        if e = ',' then parseItems fuel (acc ++ [v]) rest2
        else if e = ']' then some (Json.array (acc ++ [v]), rest2)
        else none
end

/-- The built-in `JSON.parse`: the value that the whole text denotes, or
`none` for the `SyntaxError` it throws. -/
def jsonParse (text : String) : Option Json :=
  match parseValue (text.data.length + 1) text.data with
  | some (v, rest) => if skipWs rest = [] then some v else none
  | none => none

/-- The JSON value of a metadata value. -/
def MetaValue.toJson (v : MetaValue) : Json :=
  match v with
  | .null => Json.null
  | .number n => Json.number (.integer n)
  | .string s => Json.string s

/-- The JSON value of a metadata object. -/
def Metadata.toJson (m : Metadata) : Json :=
  Json.object (m.map fun kv => (kv.1, kv.2.toJson))

/-- The member list that the successive definitions of `JSON.parse` build from
the members of a metadata object. -/
def parsedMembers (acc : List (String × Json)) (m : Metadata) : List (String × Json) :=
  m.foldl (fun o e => Json.setMember o e.1 e.2.toJson) acc

/-! ## The live channel (`init`) -/

/-- What a connecting socket presents: `socket.handshake.auth?.token` and
`socket.handshake.query?.token`. -/
structure Handshake where
  authToken : Option String
  queryToken : Option String
  deriving DecidableEq, Repr

/-- What happens to a connection that was admitted. -/
inductive ConnectionEvent where
  | joined (userId : Int)
  | sync (unreadCount : Nat)
  deriving DecidableEq, Repr

/-- The outcome of a connection attempt under `init(io)`: the middleware of
`io.use` either refuses the connection with an error message, and then the
`connection` handler does not run, or it sets `socket.data.user`, and the
handler joins the room of the user and emits `notification:sync`.  The
verification `jwt.verify(token, secret)` is the parameter `verify`, `none`
standing for a thrown error. -/
def connect (verify : String → Option AuthUser) (s : Store) (h : Handshake) :
    Except String (List ConnectionEvent) :=
  match orString h.authToken h.queryToken with
  | none => .error "Unauthorized"
  | some token =>
    if !truthyString token then .error "Unauthorized"
    else
      match verify token with
      | none => .error "Unauthorized"
      | some user => .ok [.joined user.id, .sync (getUnreadCount s user.id)]

/-! ## The task service of the front end (`frontend/src/services/api.js`) -/

/-- The state around `taskService`: the contents of `apiCache` and the log of
the requests sent through `tasksApi`. -/
structure ClientState (C : Type) where
  cache : C
  requests : List String

/-- The function `taskService.getAllTasks(useCache)`.  The module
`utils/apiCache` is not part of the source: `cacheGet` is `apiCache.get`
(`none` is `null`), `cacheSet` is `apiCache.set` and `dedupe` is
`requestDeduplicator.dedupe`.  The value `V` is the array of tasks, which is
truthy; `api` is the outcome of `tasksApi.get('/')`, its `data` or a
rejection. -/
def getAllTasks {C V E : Type} (cacheGet : C → String → Option V)
    (cacheSet : C → String → V → Nat → C)
    (dedupe : String → (ClientState C → ClientState C × Except E V) →
      ClientState C → ClientState C × Except E V)
    (api : Except E V) (st : ClientState C) (useCache : Bool) :
    ClientState C × Except E V :=
  let cacheKey := "tasks:all"
  match (if useCache then cacheGet st.cache cacheKey else none) with
  | some cached => (st, .ok cached)
  | none =>
    dedupe cacheKey
      (fun st =>
        let st1 : ClientState C := { st with requests := st.requests ++ ["GET /"] }
        match api with
        | .error e => (st1, .error e)
        | .ok data =>
          let st2 : ClientState C :=
            if useCache then { st1 with cache := cacheSet st1.cache cacheKey data (2 * 60 * 1000) }
            else st1
          (st2, .ok data))
      st

/-- The stand-in for `requestDeduplicator.dedupe` used by the tests of the
repository: `(key, fn) => fn()`. -/
def dedupeRun {C V E : Type} (_key : String)
    (fn : ClientState C → ClientState C × Except E V) (st : ClientState C) :
    ClientState C × Except E V :=
  fn st

/-! ## Concrete inputs and notions used in the statements -/

/-- A participant with the given id and status, for concrete inputs. -/
def sampleParticipant (id : Int) (status : String) : Participant :=
  { id := id, username := "user", email := "user@example.org", accessLevel := "limited",
    status := status }

/-- A task row owned by user 1, for concrete inputs; the two last arguments
are the columns of the viewer's participation brought by the `LEFT JOIN`. -/
def sampleRow (viewer_access_level viewer_status : Option String) : TaskRow :=
  { id := 10, title := "T", description := .null, status := "In Progress", due_date := .null,
    created_at := 0, updated_at := 0, user_id := 1, owner_username := "alice",
    owner_email := "alice@example.org", viewer_access_level := viewer_access_level,
    viewer_status := viewer_status }

/-- The entry of the payload's participant list for the viewer, when the
viewer is not the owner. -/
def viewerEntry (p : TaskPayload) (viewerId : Int) : Option PayloadParticipant :=
  p.participants.find? (fun q => q.id == viewerId)

/-- The status kept in the row's `viewer_status` column when it is a non-empty
string, and `Pending` otherwise. -/
def rowViewerStatus (row : TaskRow) : String :=
  match row.viewer_status with
  | some st => if st = "" then "Pending" else st
  | none => "Pending"

/-- The access level kept in the row's `viewer_access_level` column when it
is a non-empty string, and `null` otherwise. -/
def rowViewerAccessLevel (row : TaskRow) : Option String :=
  match row.viewer_access_level with
  | some a => if a = "" then none else some a
  | none => none

/-- An environment in which the storage accepts every insert and compares
text exactly. -/
def sampleEnv : Env :=
  { now := 100, notificationInsertFails := fun _ => false, textEq := fun a b => a == b }

/-- A store with users alice (1) and bob (2), one task (10) owned by alice,
and a live channel. -/
def sampleStore : Store :=
  { users := [{ id := 1, username := "alice", email := "alice@example.org" },
              { id := 2, username := "bob", email := "bob@example.org" }],
    tasks := [{ id := 10, title := "T", description := .null, status := "Pending",
                due_date := .null, created_at := 50, updated_at := 50, user_id := 1 }],
    participants := [], notifications := [],
    nextTaskId := 11, nextParticipationId := 1, nextNotificationId := 1,
    ioInstance := true, emitted := [] }

def alice : AuthUser := { id := 1, username := some "alice", email := some "alice@example.org" }

def bob : AuthUser := { id := 2, username := some "bob", email := some "bob@example.org" }

/-- A share request that names its target by `identifier` alone. -/
def shareWith (identifier : String) : ShareBody :=
  { email := .undefined, identifier := .string identifier, accessLevel := .undefined }

/-- A create request with a title and nothing else. -/
def createWithTitle (title : String) : CreateBody :=
  { title := .string title, description := .undefined, status := .undefined,
    due_date := .undefined }

/-- A share request at access level `limited`. -/
def shareLimited (identifier : String) : ShareBody :=
  { email := .undefined, identifier := .string identifier, accessLevel := .string "limited" }

/-- The store after the status write of `updateProgress`: the task's status
when `ownerWrite`, else the status of the participation row of (task, user). -/
def progressWrite (s : Store) (taskId userId : Int) (status : String) (ownerWrite : Bool) :
    Store :=
  if ownerWrite then
    { s with tasks := s.tasks.map fun t =>
        if t.id = taskId then { t with status := status } else t }
  else
    { s with participants := s.participants.map fun p =>
        if p.task_id = taskId ∧ p.user_id = userId then { p with status := status } else p }

/-- What the store holds about task `T`: its single row `t`, the single user
row `o` of its owner, and its participation rows `ps`. -/
def TaskSnapshot (s : Store) (T : Int) (t : TaskRecord) (o : UserRow)
    (ps : List ParticipationRow) : Prop :=
  s.tasks.filter (fun t => t.id == T) = [t]
  ∧ s.users.filter (fun u => u.id == t.user_id) = [o]
  ∧ s.participants.filter (fun tp => tp.task_id == T) = ps

/-- The scenario of the specification, step by step: `a` creates a task
(which gets the id `s.nextTaskId`), shares it, participant `b` reports
`Completed`, then owner `a` reports `Completed`. -/
def scenarioCreate (env : Env) (s : Store) (a : AuthUser) (body : CreateBody) :
    Store × RouteResult :=
  createTask env s a body

def scenarioShare (env : Env) (s : Store) (a : AuthUser) (body : CreateBody)
    (share : ShareBody) : Store × RouteResult :=
  shareTask env (scenarioCreate env s a body).1 a (some s.nextTaskId) share

def scenarioParticipantDone (env : Env) (s : Store) (a b : AuthUser) (body : CreateBody)
    (share : ShareBody) : Store × RouteResult :=
  updateProgress env (scenarioShare env s a body share).1 b (some s.nextTaskId)
    (.string "Completed")

def scenarioOwnerDone (env : Env) (s : Store) (a b : AuthUser) (body : CreateBody)
    (share : ShareBody) : Store × RouteResult :=
  updateProgress env (scenarioParticipantDone env s a b body share).1 a (some s.nextTaskId)
    (.string "Completed")

/-- The store after the `UPDATE` of `updateTask`. -/
def updateWrite (s : Store) (taskId : Int) (body : UpdateBody) : Store :=
  { s with tasks := s.tasks.map fun t => if t.id = taskId then applyUpdates body t else t }

/-- The store after the `INSERT` of `shareTask`. -/
def shareWrite (s : Store) (taskId targetId userId : Int) (accessLevel : String) : Store :=
  { s with
    participants := s.participants ++
      [{ id := s.nextParticipationId, task_id := taskId, user_id := targetId,
         access_level := accessLevel, status := "Pending", invited_by := userId }],
    nextParticipationId := s.nextParticipationId + 1 }

/-- A value that is a string and is empty after trimming. -/
def isBlankString (v : JsValue) : Bool :=
  match v with
  | .string x => decide (jsTrim x = "")
  | _ => false

/-- The row of task 10 in `sampleStore` and `sharedStore`. -/
def sampleTask : TaskRecord :=
  { id := 10, title := "T", description := .null, status := "Pending", due_date := .null,
    created_at := 50, updated_at := 50, user_id := 1 }

def carol : AuthUser := { id := 3, username := some "carol", email := some "carol@example.org" }

/-- A store with users alice (1), bob (2) and carol (3), task 10 owned by
alice, and bob taking part in it at the given access level. -/
def sharedStore (accessLevel : String) : Store :=
  { users := [{ id := 1, username := "alice", email := "alice@example.org" },
              { id := 2, username := "bob", email := "bob@example.org" },
              { id := 3, username := "carol", email := "carol@example.org" }],
    tasks := [{ id := 10, title := "T", description := .null, status := "Pending",
                due_date := .null, created_at := 50, updated_at := 50, user_id := 1 }],
    participants := [{ id := 1, task_id := 10, user_id := 2, access_level := accessLevel,
                       status := "Pending", invited_by := 1 }],
    notifications := [],
    nextTaskId := 11, nextParticipationId := 2, nextNotificationId := 1,
    ioInstance := true, emitted := [] }

/-- An environment in which the storage rejects every notification insert. -/
def failingEnv : Env :=
  { now := 100, notificationInsertFails := fun _ => true, textEq := fun a b => a == b }

/-- The users a fan-out for `taskMeta` by `actorId` is addressed to: the
participants, and the owner when its id is non-zero, but not the actor. -/
def isRecipient (taskMeta : TaskMeta) (actorId : Int) (x : Int) : Prop :=
  (x ∈ taskMeta.participantIds ∨ (x = taskMeta.ownerId ∧ taskMeta.ownerId ≠ 0)) ∧ x ≠ actorId

instance (taskMeta : TaskMeta) (actorId x : Int) : Decidable (isRecipient taskMeta actorId x) := by
  unfold isRecipient
  infer_instance

/-- The only difference between two rows is that the read flag may have been
set: every other column is equal, and a row that was read is still read. -/
def onlyMarkedRead (before after : NotificationRow) : Prop :=
  after = { before with is_read := after.is_read }
  ∧ (before.is_read = true → after.is_read = true)

/-- The table `after` keeps every row of `before`, in place and with at most
the read flag set, and may hold further rows behind them. -/
def keepsReadState (before after : List NotificationRow) : Prop :=
  ∃ kept extra : List NotificationRow,
    after = kept ++ extra ∧ List.Forall₂ onlyMarkedRead before kept

/-- A notification row of user `userId` created at `createdAt`, unread. -/
def sampleNotification (id userId : Int) (createdAt : Nat) : NotificationRow :=
  { id := id, user_id := userId, task_id := some 10, type := "task_shared",
    title := "Shared", message := "A task was shared with you", metadata := none,
    is_read := false, created_at := createdAt }

/-- The sample store with three notifications: two of bob, one of alice. -/
def notifiedStore : Store :=
  { sampleStore with
    notifications := [sampleNotification 1 2 60, sampleNotification 2 1 70,
                      sampleNotification 3 2 80],
    nextNotificationId := 4 }

/-- A cache of task lists (here lists of titles) kept as key-value pairs, the
most recent first: its `get`. -/
def sampleCacheGet (c : List (String × List String)) (key : String) : Option (List String) :=
  c.lookup key

/-- The `set` of the sample cache; the time to live plays no part. -/
def sampleCacheSet (c : List (String × List String)) (key : String) (value : List String)
    (_ttl : Nat) : List (String × List String) :=
  (key, value) :: c

/-- A client whose cache holds a task list under `tasks:all`. -/
def warmClient : ClientState (List (String × List String)) :=
  { cache := [("tasks:all", ["Cached Task"])], requests := [] }

/-- A client whose cache is empty. -/
def coldClient : ClientState (List (String × List String)) :=
  { cache := [], requests := [] }

/-- A participants map that lists user 3, and nobody else, under task 10. -/
def mapWithCarolOnly : ParticipantsMap :=
  fun k => if k = 10 then some [sampleParticipant 3 "Pending"] else none

/-- The meta of task 10: owner alice (1), participants bob (2) and carol (3). -/
def sampleMeta : TaskMeta :=
  { taskId := 10, title := "T", ownerId := 1, participantIds := [2, 3] }

/-- A store in which task 10 of alice is shared with bob (2), at access level
`full`, and with carol (3), and the users table has no row for bob. -/
def orphanStore : Store :=
  { users := [{ id := 1, username := "alice", email := "alice@example.org" },
              { id := 3, username := "carol", email := "carol@example.org" }],
    tasks := [{ id := 10, title := "T", description := .null, status := "Pending",
                due_date := .null, created_at := 50, updated_at := 50, user_id := 1 }],
    participants := [{ id := 1, task_id := 10, user_id := 2, access_level := "full",
                       status := "Pending", invited_by := 1 },
                     { id := 2, task_id := 10, user_id := 3, access_level := "limited",
                       status := "Pending", invited_by := 1 }],
    notifications := [],
    nextTaskId := 11, nextParticipationId := 3, nextNotificationId := 1,
    ioInstance := true, emitted := [] }

/-! ## Properties of the progress aggregation -/

theorem calculateOverallProgress_total (ownerStatus : String)
    (participants : List Participant) :
    (calculateOverallProgress ownerStatus (some participants)).totalParticipants
      = participants.length + 1 := by
  simp [calculateOverallProgress]

theorem calculateOverallProgress_completed (ownerStatus : String)
    (participants : List Participant) :
    (calculateOverallProgress ownerStatus (some participants)).completedParticipants
      = (if ownerStatus = "Completed" then 1 else 0)
        + (participants.filter (fun p => p.status = "Completed")).length := by
  simp [calculateOverallProgress]

/-- C1: with 39 participants of whom 23 are completed and a pending owner,
`completed = 23` and `total = 40`, so `100 × completed / total = 57.5`, whose
half-up rounding `floor ((200 × 23 + 40) / (2 × 40))` is 58; the code returns
57, because the binary64 quotient `23 / 40` lies below `0.575` and its
binary64 product by 100 is `57.49999999999999`. -/
theorem calculateOverallProgress_rounds_23_of_40_down :
    (calculateOverallProgress "Pending"
        (some (List.replicate 23 (sampleParticipant 7 "Completed")
          ++ List.replicate 16 (sampleParticipant 8 "Pending")))).totalParticipants = 40
    ∧ (calculateOverallProgress "Pending"
        (some (List.replicate 23 (sampleParticipant 7 "Completed")
          ++ List.replicate 16 (sampleParticipant 8 "Pending")))).completedParticipants = 23
    ∧ (calculateOverallProgress "Pending"
        (some (List.replicate 23 (sampleParticipant 7 "Completed")
          ++ List.replicate 16 (sampleParticipant 8 "Pending")))).overallProgress = 57
    ∧ (200 * 23 + 40) / (2 * 40) = 58 := by
  decide

/-- C2: the payload's `totalParticipants` is the length of its own participant
list plus one, and `calculateOverallProgress` never reports a total of zero:
its defensive branch, the only one that does, is never taken. -/
theorem buildTaskPayload_totalParticipants (row : TaskRow) (participantsMap : ParticipantsMap)
    (viewerId : Int) (ownerStatus : String) (participants : Option (List Participant)) :
    (buildTaskPayload row participantsMap viewerId).totalParticipants
      = (buildTaskPayload row participantsMap viewerId).participants.length + 1
    ∧ (buildTaskPayload row participantsMap viewerId).totalParticipants ≠ 0
    ∧ (calculateOverallProgress ownerStatus participants).totalParticipants ≠ 0 := by
  refine ⟨?_, ?_, ?_⟩
  · simp [buildTaskPayload, calculateOverallProgress]
  · simp [buildTaskPayload, calculateOverallProgress]
  · simp [calculateOverallProgress]

/-- C3: for every task row and every participant list, the one found under the
row's task id in the participants map (the empty list when there is none),
the payload's `completedParticipants` is one for an owner whose status is
`Completed`, else zero, plus the number of participants of that list whose
status is `Completed`; it never exceeds `totalParticipants`, which is the
length of that list plus one.  The same holds of `calculateOverallProgress`
on every owner status and list. -/
theorem buildTaskPayload_completedParticipants (row : TaskRow)
    (participantsMap : ParticipantsMap) (viewerId : Int) (ownerStatus : String)
    (participants : List Participant) :
    (buildTaskPayload row participantsMap viewerId).completedParticipants
      = (if row.status = "Completed" then 1 else 0)
        + (((participantsMap row.id).getD []).filter
            (fun p => p.status = "Completed")).length
    ∧ (buildTaskPayload row participantsMap viewerId).totalParticipants
      = ((participantsMap row.id).getD []).length + 1
    ∧ (buildTaskPayload row participantsMap viewerId).completedParticipants
      ≤ (buildTaskPayload row participantsMap viewerId).totalParticipants
    ∧ (calculateOverallProgress ownerStatus (some participants)).completedParticipants
      = (if ownerStatus = "Completed" then 1 else 0)
        + (participants.filter (fun p => p.status = "Completed")).length
    ∧ (calculateOverallProgress ownerStatus (some participants)).completedParticipants
      ≤ (calculateOverallProgress ownerStatus (some participants)).totalParticipants := by
  have hlen : ∀ l : List Participant,
      (l.filter (fun p => p.status = "Completed")).length ≤ l.length :=
    fun l => List.length_filter_le _ l
  refine ⟨?_, ?_, ?_, ?_, ?_⟩
  · simp [buildTaskPayload, calculateOverallProgress]
  · simp [buildTaskPayload, calculateOverallProgress]
  · have h := hlen ((participantsMap row.id).getD [])
    simp only [buildTaskPayload, calculateOverallProgress]
    simp only [Nat.add_one_ne_zero, if_false]
    split <;> simp only [decide_eq_true_eq] at * <;> omega
  · simp [calculateOverallProgress]
  · have h := hlen participants
    simp only [calculateOverallProgress]
    simp only [Nat.add_one_ne_zero, if_false]
    split <;> simp only [decide_eq_true_eq] at * <;> omega

/-! ## Properties of the per-viewer fields of the payload -/

/-- C4, as the claim states it, fails: for a row whose `viewer_access_level`
is `full` and a participants map without the viewer, the viewer (user 2, not
the owner) has no entry in the participant list and still gets `canEdit`,
while `canUpdateProgress` is false. -/
theorem buildTaskPayload_canEdit_without_entry :
    (buildTaskPayload (sampleRow (some "full") (some "Pending")) (fun _ => none) 2).isOwner
      = false
    ∧ viewerEntry
        (buildTaskPayload (sampleRow (some "full") (some "Pending")) (fun _ => none) 2) 2
      = none
    ∧ (buildTaskPayload (sampleRow (some "full") (some "Pending")) (fun _ => none)
        2).permissions.canEdit = true
    ∧ (buildTaskPayload (sampleRow (some "full") (some "Pending")) (fun _ => none)
        2).permissions.canUpdateProgress = false := by
  decide

/-- C4, amended: `canEdit` holds iff the viewer is the owner or the viewer's
access level is `full`, that level being the one of the viewer's entry in the
participant list when it is a non-empty string and the row's
`viewer_access_level` otherwise; `canDelete` equals `canEdit`;
`canUpdateProgress` holds iff the viewer is the owner or has an entry in the
participant list; `canShare` holds iff the viewer is the owner. -/
theorem buildTaskPayload_permissions (row : TaskRow) (participantsMap : ParticipantsMap)
    (viewerId : Int) :
    ((buildTaskPayload row participantsMap viewerId).permissions.canEdit = true ↔
      (row.user_id = viewerId ∨
        (match viewerEntry (buildTaskPayload row participantsMap viewerId) viewerId with
          | some q => if q.accessLevel = "" then row.viewer_access_level = some "full"
                      else q.accessLevel = "full"
          | none => row.viewer_access_level = some "full")))
    ∧ (buildTaskPayload row participantsMap viewerId).permissions.canDelete
        = (buildTaskPayload row participantsMap viewerId).permissions.canEdit
    ∧ ((buildTaskPayload row participantsMap viewerId).permissions.canUpdateProgress = true ↔
        (row.user_id = viewerId ∨
          ∃ q ∈ (buildTaskPayload row participantsMap viewerId).participants, q.id = viewerId))
    ∧ ((buildTaskPayload row participantsMap viewerId).permissions.canShare = true ↔
        row.user_id = viewerId) := by
  by_cases h : row.user_id = viewerId
  · simp [buildTaskPayload, viewerEntry, h]
  · simp only [buildTaskPayload, viewerEntry, beq_iff_eq, h, decide_False, Bool.false_or,
      Bool.false_eq_true, if_false, false_or, and_true, true_and]
    refine ⟨?_, ?_⟩
    · generalize List.find? (fun q : PayloadParticipant => decide (q.id = viewerId)) _ = e
      have hne : (row.user_id == viewerId) = false := by simpa using h
      rcases e with _ | q
      · rcases hv : row.viewer_access_level with _ | a
        · simp [orString, hne]
        · by_cases ha : a = "" <;> simp [orString, truthyString, hne, ha]
      · by_cases hq : q.accessLevel = ""
        · rcases hv : row.viewer_access_level with _ | a
          · simp [orString, truthyString, hne, hq]
          · by_cases ha : a = "" <;> simp [orString, truthyString, hne, hq, ha]
        · simp [orString, truthyString, hne, hq]
    · have hne : (row.user_id == viewerId) = false := by simpa using h
      simp [hne, List.find?_isSome]

/-- C5, as the claim states it, fails: for a row whose `viewer_status` is
`Completed` and a participants map without the viewer, the viewer (user 2,
not the owner) has no entry in the participant list and `viewerStatus` is
`Completed`, not `Pending`. -/
theorem buildTaskPayload_viewerStatus_not_pending :
    (buildTaskPayload (sampleRow (some "limited") (some "Completed")) (fun _ => none) 2).isOwner
      = false
    ∧ viewerEntry
        (buildTaskPayload (sampleRow (some "limited") (some "Completed")) (fun _ => none) 2) 2
      = none
    ∧ (buildTaskPayload (sampleRow (some "limited") (some "Completed")) (fun _ => none)
        2).viewerStatus = "Completed"
    ∧ (buildTaskPayload (sampleRow (some "limited") (some "Completed")) (fun _ => none)
        2).viewerStatus ≠ "Pending" := by
  decide

/-- C5, amended: `viewerStatus` is the task's own status when the viewer is
the owner; otherwise the status of the viewer's entry in the participant list
when there is one with a non-empty status; otherwise the row's
`viewer_status` when that is a non-empty string; otherwise `Pending`. -/
theorem buildTaskPayload_viewerStatus (row : TaskRow) (participantsMap : ParticipantsMap)
    (viewerId : Int) :
    (buildTaskPayload row participantsMap viewerId).viewerStatus
      = if row.user_id = viewerId then row.status
        else match viewerEntry (buildTaskPayload row participantsMap viewerId) viewerId with
          | some q => if q.status = "" then rowViewerStatus row else q.status
          | none => rowViewerStatus row := by
  by_cases h : row.user_id = viewerId
  · simp [buildTaskPayload, h]
  · have hne : (row.user_id == viewerId) = false := by simpa using h
    simp only [buildTaskPayload, viewerEntry, hne, Bool.false_eq_true, if_false, h]
    generalize List.find? (fun q : PayloadParticipant => q.id == viewerId) _ = e
    rcases e with _ | q
    · rcases hv : row.viewer_status with _ | a
      · simp [orString, truthyString, rowViewerStatus, hv]
      · by_cases ha : a = "" <;> simp [orString, truthyString, rowViewerStatus, hv, ha]
    · by_cases hq : q.status = ""
      · rcases hv : row.viewer_status with _ | a
        · simp [orString, truthyString, rowViewerStatus, hv, hq]
        · by_cases ha : a = "" <;> simp [orString, truthyString, rowViewerStatus, hv, hq, ha]
      · simp [orString, truthyString, hq]

/-- C6, as the claim states it, fails: for a row whose `viewer_access_level`
is `limited` and a participants map without the viewer, the viewer (user 2,
not the owner) has no entry in the participant list and `viewerAccessLevel`
is `limited`, not `null`. -/
theorem buildTaskPayload_viewerAccessLevel_not_null :
    (buildTaskPayload (sampleRow (some "limited") none) (fun _ => none) 2).isOwner = false
    ∧ viewerEntry (buildTaskPayload (sampleRow (some "limited") none) (fun _ => none) 2) 2
      = none
    ∧ (buildTaskPayload (sampleRow (some "limited") none) (fun _ => none) 2).viewerAccessLevel
      = some "limited" := by
  decide

/-- C6, amended: `viewerAccessLevel` is `owner` when the viewer is the owner;
otherwise the access level of the viewer's entry in the participant list when
there is one with a non-empty access level; otherwise the row's
`viewer_access_level` when that is a non-empty string; otherwise `null`. -/
theorem buildTaskPayload_viewerAccessLevel (row : TaskRow)
    (participantsMap : ParticipantsMap) (viewerId : Int) :
    (buildTaskPayload row participantsMap viewerId).viewerAccessLevel
      = if row.user_id = viewerId then some "owner"
        else match viewerEntry (buildTaskPayload row participantsMap viewerId) viewerId with
          | some q => if q.accessLevel = "" then rowViewerAccessLevel row
                      else some q.accessLevel
          | none => rowViewerAccessLevel row := by
  by_cases h : row.user_id = viewerId
  · simp [buildTaskPayload, h]
  · have hne : (row.user_id == viewerId) = false := by simpa using h
    simp only [buildTaskPayload, viewerEntry, hne, Bool.false_eq_true, if_false, h]
    generalize List.find? (fun q : PayloadParticipant => q.id == viewerId) _ = e
    rcases e with _ | q
    · rcases hv : row.viewer_access_level with _ | a
      · simp [orString, truthyString, rowViewerAccessLevel, hv]
      · by_cases ha : a = "" <;> simp [orString, truthyString, rowViewerAccessLevel, hv, ha]
    · by_cases hq : q.accessLevel = ""
      · rcases hv : row.viewer_access_level with _ | a
        · simp [orString, truthyString, rowViewerAccessLevel, hv, hq]
        · by_cases ha : a = "" <;>
            simp [orString, truthyString, rowViewerAccessLevel, hv, hq, ha]
      · simp [orString, truthyString, hq]

/-! ## Properties of the notification fan-out -/

theorem JsSet.mem_add {s : List Int} {x y : Int} : y ∈ JsSet.add s x ↔ y ∈ s ∨ y = x := by
  unfold JsSet.add
  split
  · constructor
    · intro h; exact Or.inl h
    · rintro (h | h)
      · exact h
      · subst h; assumption
  · simp

theorem JsSet.nodup_add {s : List Int} {x : Int} (h : s.Nodup) : (JsSet.add s x).Nodup := by
  unfold JsSet.add
  split
  · exact h
  · rename_i hx
    rw [List.nodup_append]
    refine ⟨h, List.nodup_singleton x, ?_⟩
    intro a ha hb
    simp only [List.mem_singleton] at hb
    subst hb
    exact hx ha

theorem JsSet.foldl_add_spec (xs : List Int) :
    ∀ acc : List Int, acc.Nodup →
      (xs.foldl JsSet.add acc).Nodup ∧ ∀ y, y ∈ xs.foldl JsSet.add acc ↔ y ∈ acc ∨ y ∈ xs := by
  induction xs with
  | nil => intro acc h; simp [h]
  | cons x xs ih =>
    intro acc h
    obtain ⟨hn, hm⟩ := ih (JsSet.add acc x) (JsSet.nodup_add h)
    refine ⟨by simpa using hn, ?_⟩
    intro y
    simp only [List.foldl_cons, hm, JsSet.mem_add, List.mem_cons]
    tauto

theorem JsSet.ofArray_spec (xs : List Int) :
    (JsSet.ofArray xs).Nodup ∧ ∀ y, y ∈ JsSet.ofArray xs ↔ y ∈ xs := by
  obtain ⟨hn, hm⟩ := JsSet.foldl_add_spec xs [] List.nodup_nil
  exact ⟨hn, fun y => by simpa [JsSet.ofArray] using hm y⟩

theorem JsSet.mem_delete {s : List Int} {x y : Int} : y ∈ JsSet.delete s x ↔ y ∈ s ∧ y ≠ x := by
  simp [JsSet.delete]

theorem JsSet.nodup_delete {s : List Int} {x : Int} (h : s.Nodup) : (JsSet.delete s x).Nodup :=
  h.filter _

/-- What `createNotification` changes: nothing when the insert is rejected;
otherwise one row for the recipient is appended, and one event for the
recipient is emitted when the live channel is set. -/
theorem createNotification_effect (env : Env) (s : Store) (args : NotificationArgs) :
    ∃ rows : List NotificationRow, ∃ ems : List Emission,
      (createNotification env s args).1.notifications = s.notifications ++ rows
      ∧ rows.map (·.user_id)
          = [args.userId].filter (fun x => !env.notificationInsertFails x)
      ∧ (createNotification env s args).1.emitted = s.emitted ++ ems
      ∧ ems.map (·.userId)
          = (if s.ioInstance then rows.map (·.user_id) else [])
      ∧ (createNotification env s args).1.ioInstance = s.ioInstance
      ∧ (createNotification env s args).1.users = s.users
      ∧ (createNotification env s args).1.tasks = s.tasks
      ∧ (createNotification env s args).1.participants = s.participants := by
  by_cases hf : env.notificationInsertFails args.userId = true
  · refine ⟨[], [], ?_⟩
    simp [createNotification, hf]
  · by_cases hio : s.ioInstance = true
    · simp only [createNotification, hf, emitToUser, hio]
      exact ⟨[_], [_], rfl, by simp [hf], rfl, by simp, rfl, rfl, rfl, rfl⟩
    · simp only [createNotification, hf, emitToUser, hio]
      exact ⟨[_], [], rfl, by simp [hf], by simp, by simp, rfl, rfl, rfl, rfl⟩

theorem createNotification_participants (env : Env) (s : Store) (args : NotificationArgs) :
    (createNotification env s args).1.participants = s.participants := by
  unfold createNotification emitToUser
  split
  · rfl
  · dsimp only
    split <;> rfl

theorem createNotification_users (env : Env) (s : Store) (args : NotificationArgs) :
    (createNotification env s args).1.users = s.users := by
  unfold createNotification emitToUser
  split
  · rfl
  · dsimp only
    split <;> rfl

theorem createNotification_tasks (env : Env) (s : Store) (args : NotificationArgs) :
    (createNotification env s args).1.tasks = s.tasks := by
  unfold createNotification emitToUser
  split
  · rfl
  · dsimp only
    split <;> rfl

/-- What the jobs of `notifyUsers` change: one row is appended for each
recipient whose insert is accepted, in the order of the recipients, and one
event per such row is emitted when the live channel is set. -/
theorem notifyJobs_effect (env : Env) (payload : NotifyPayload) :
    ∀ (ids : List Int) (s : Store),
      ∃ rows : List NotificationRow, ∃ ems : List Emission,
        (notifyJobs env s payload ids).1.notifications = s.notifications ++ rows
        ∧ rows.map (·.user_id) = ids.filter (fun x => !env.notificationInsertFails x)
        ∧ (notifyJobs env s payload ids).1.emitted = s.emitted ++ ems
        ∧ ems.map (·.userId) = (if s.ioInstance then rows.map (·.user_id) else [])
        ∧ (notifyJobs env s payload ids).1.ioInstance = s.ioInstance
        ∧ (notifyJobs env s payload ids).1.users = s.users
        ∧ (notifyJobs env s payload ids).1.tasks = s.tasks
        ∧ (notifyJobs env s payload ids).1.participants = s.participants := by
  intro ids
  induction ids with
  | nil => intro s; exact ⟨[], [], by simp [notifyJobs]⟩
  | cons x xs ih =>
    intro s
    obtain ⟨r1, e1, hn1, hu1, hem1, heu1, hio1, hus1, ht1, hp1⟩ :=
      createNotification_effect env s
        { userId := x, taskId := payload.taskId, type := payload.type,
          title := payload.title, message := payload.message,
          metadata := some payload.metadata }
    obtain ⟨r2, e2, hn2, hu2, hem2, heu2, hio2, hus2, ht2, hp2⟩ := ih
      (createNotification env s
        { userId := x, taskId := payload.taskId, type := payload.type,
          title := payload.title, message := payload.message,
          metadata := some payload.metadata }).1
    refine ⟨r1 ++ r2, e1 ++ e2, ?_, ?_, ?_, ?_, ?_, ?_, ?_, ?_⟩
    · simp only [notifyJobs, hn2, hn1, List.append_assoc]
    · simp only [List.map_append, hu1, hu2]
      simp only [List.filter_cons, List.filter_nil]
      split <;> simp
    · simp only [notifyJobs, hem2, hem1, List.append_assoc]
    · simp only [List.map_append, heu1, heu2, hio1]
      split <;> simp
    · simp only [notifyJobs, hio2, hio1]
    · simp only [notifyJobs, hus2, hus1]
    · simp only [notifyJobs, ht2, ht1]
    · simp only [notifyJobs, hp2, hp1]

/-- The recipient set built by `notifyTaskParticipants` has no duplicate and
holds exactly the recipients. -/
theorem fanout_set_spec (taskMeta : TaskMeta) (actorId : Int) :
    (JsSet.delete
        (if taskMeta.ownerId ≠ 0 then
          JsSet.add (JsSet.ofArray taskMeta.participantIds) taskMeta.ownerId
         else JsSet.ofArray taskMeta.participantIds) actorId).Nodup
    ∧ ∀ x, x ∈ JsSet.delete
        (if taskMeta.ownerId ≠ 0 then
          JsSet.add (JsSet.ofArray taskMeta.participantIds) taskMeta.ownerId
         else JsSet.ofArray taskMeta.participantIds) actorId ↔
        isRecipient taskMeta actorId x := by
  obtain ⟨hn, hm⟩ := JsSet.ofArray_spec taskMeta.participantIds
  by_cases h0 : taskMeta.ownerId = 0
  · simp only [h0, ne_eq, not_true_eq_false, if_false]
    refine ⟨JsSet.nodup_delete hn, fun x => ?_⟩
    simp [JsSet.mem_delete, hm, isRecipient, h0]
  · simp only [ne_eq, h0, not_false_eq_true, if_true]
    refine ⟨JsSet.nodup_delete (JsSet.nodup_add hn), fun x => ?_⟩
    simp [JsSet.mem_delete, JsSet.mem_add, hm, isRecipient, h0]

/-- The guard `if (taskMeta.ownerId)` leaves out an owner id of `0`, an id
that the storage, whose user ids are auto-increment keys, never assigns. -/
theorem notifyTaskParticipants_guard_on_owner_zero :
    (notifyTaskParticipants sampleEnv sampleStore
        (some { taskId := 10, title := "T", ownerId := 0, participantIds := [] }) none
        { id := 5, username := "eve" } "task_updated" "Task updated" "m" []).1.notifications
      = [] := by
  decide

/-- C8: for a task meta (its owner id being a user id of the storage, so not
`0`) and an actor, `notifyTaskParticipants` hands `notifyUsers` exactly the
set (owner and participant ids) minus the actor, each recipient once and never
the actor, and one notification row per recipient is appended (for each
recipient whose insert the storage accepts: all of them when the storage
accepts every insert), with one event per row when the live channel is set;
when the set is empty the store is returned as it was: no record, no
emission. -/
theorem notifyTaskParticipants_recipients (env : Env) (s : Store) (taskMeta : TaskMeta)
    (taskId : Option Int) (actor : Actor) (type title message : String)
    (metadata : Metadata) (howner : taskMeta.ownerId ≠ 0) :
    ∃ (R : List Int) (payload : NotifyPayload) (rows : List NotificationRow)
      (ems : List Emission),
      R.Nodup
      ∧ (∀ x, x ∈ R ↔
          ((x ∈ taskMeta.participantIds ∨ x = taskMeta.ownerId) ∧ x ≠ actor.id))
      ∧ notifyTaskParticipants env s (some taskMeta) taskId actor type title message metadata
          = (if R = [] then (s, .ok ())
             else ((notifyUsers env s R payload).1,
                   (notifyUsers env s R payload).2.map (fun _ => ())))
      ∧ (notifyTaskParticipants env s (some taskMeta) taskId actor type title message
          metadata).1.notifications = s.notifications ++ rows
      ∧ rows.map (·.user_id) = R.filter (fun x => !env.notificationInsertFails x)
      ∧ ((∀ x, env.notificationInsertFails x = false) → rows.map (·.user_id) = R)
      ∧ (notifyTaskParticipants env s (some taskMeta) taskId actor type title message
          metadata).1.emitted = s.emitted ++ ems
      ∧ ems.map (·.userId) = (if s.ioInstance then rows.map (·.user_id) else [])
      ∧ (R = [] → rows = [] ∧ ems = []) := by
  obtain ⟨hnd, hmem⟩ := fanout_set_spec taskMeta actor.id
  have hmem2 : ∀ x, isRecipient taskMeta actor.id x ↔
      ((x ∈ taskMeta.participantIds ∨ x = taskMeta.ownerId) ∧ x ≠ actor.id) := by
    intro x
    simp [isRecipient, howner]
  simp only [notifyTaskParticipants]
  generalize JsSet.delete
    (if taskMeta.ownerId ≠ 0 then
      JsSet.add (JsSet.ofArray taskMeta.participantIds) taskMeta.ownerId
     else JsSet.ofArray taskMeta.participantIds) actor.id = R at hnd hmem ⊢
  rcases R with _ | ⟨y, ys⟩
  · refine ⟨[],
      { taskId := some taskMeta.taskId, type := type, title := title, message := message,
        metadata := metadata }, [], [], hnd, fun x => (hmem x).trans (hmem2 x), ?_⟩
    simp
  · obtain ⟨rows, ems, hn, hu, hem, heu, -, -, -, -⟩ :=
      notifyJobs_effect env
        { taskId := some taskMeta.taskId, type := type, title := title, message := message,
          metadata := Metadata.spread
            [("taskId", .number taskMeta.taskId), ("taskTitle", .string taskMeta.title),
             ("actorId", .number actor.id), ("actorName", .string actor.username)]
            metadata } (y :: ys) s
    refine ⟨y :: ys,
      { taskId := some taskMeta.taskId, type := type, title := title, message := message,
        metadata := Metadata.spread
          [("taskId", .number taskMeta.taskId), ("taskTitle", .string taskMeta.title),
           ("actorId", .number actor.id), ("actorName", .string actor.username)]
          metadata }, rows, ems, hnd, fun x => (hmem x).trans (hmem2 x), ?_, ?_, hu, ?_, ?_,
      heu, ?_⟩
    · simp
    · simpa [notifyUsers] using hn
    · intro hok
      rw [hu]
      exact List.filter_eq_self.2 (fun x _ => by simp [hok x])
    · simpa [notifyUsers] using hem
    · intro h
      cases h

/-- C8 at concrete inputs: bob (2) acts on task 10 of alice (1), in which bob
and carol (3) take part. -/
theorem notifyTaskParticipants_recipients_witness :
    sampleMeta.ownerId ≠ 0
    ∧ ∃ (R : List Int) (payload : NotifyPayload) (rows : List NotificationRow)
      (ems : List Emission),
      R.Nodup
      ∧ (∀ x, x ∈ R ↔ ((x ∈ sampleMeta.participantIds ∨ x = sampleMeta.ownerId) ∧ x ≠ 2))
      ∧ notifyTaskParticipants sampleEnv sampleStore (some sampleMeta) none
          { id := 2, username := "bob" } "task_updated" "Task updated" "m" []
          = (if R = [] then (sampleStore, .ok ())
             else ((notifyUsers sampleEnv sampleStore R payload).1,
                   (notifyUsers sampleEnv sampleStore R payload).2.map (fun _ => ())))
      ∧ (notifyTaskParticipants sampleEnv sampleStore (some sampleMeta) none
          { id := 2, username := "bob" } "task_updated" "Task updated" "m"
          []).1.notifications = sampleStore.notifications ++ rows
      ∧ rows.map (·.user_id) = R.filter (fun x => !sampleEnv.notificationInsertFails x)
      ∧ ((∀ x, sampleEnv.notificationInsertFails x = false) → rows.map (·.user_id) = R)
      ∧ (notifyTaskParticipants sampleEnv sampleStore (some sampleMeta) none
          { id := 2, username := "bob" } "task_updated" "Task updated" "m"
          []).1.emitted = sampleStore.emitted ++ ems
      ∧ ems.map (·.userId) = (if sampleStore.ioInstance then rows.map (·.user_id) else [])
      ∧ (R = [] → rows = [] ∧ ems = []) :=
  ⟨by decide,
   notifyTaskParticipants_recipients sampleEnv sampleStore sampleMeta none
     { id := 2, username := "bob" } "task_updated" "Task updated" "m" [] (by decide)⟩

/-! ## Properties of sharing -/

/-- C9, as the claim states it, fails: bob, who does not own task 10, shares
it with the identifier `bob`, which resolves to bob himself; the request
fails with status 403 (only the owner can share), not with the self-share
error. -/
theorem shareTask_self_by_non_owner_is_forbidden :
    (findUser sampleEnv sampleStore (jsTrim "bob")).map (·.id) = some bob.id
    ∧ shareTask sampleEnv sampleStore bob (some 10) (shareWith "bob")
      = (sampleStore, .response 403 (.error "Only the task owner can share this task")) := by
  decide

/-- C9, amended: a share request whose identifier resolves to the requesting
user always fails and leaves the store, and so the participation rows,
unchanged: with 404 (task not found) when no task has the id, with 403 when
the requesting user does not own the task, and with the self-share error
(400, "You cannot share a task with yourself") when the requesting user owns
the task. -/
theorem shareTask_self (env : Env) (s : Store) (user : AuthUser) (taskId : Int)
    (body : ShareBody) (raw : String) (target : UserRow)
    (hraw : shareLookupValue body = .string raw) (hne : jsTrim raw ≠ "")
    (hfind : findUser env s (jsTrim raw) = some target) (hself : target.id = user.id) :
    shareTask env s user (some taskId) body
      = (s, match s.tasks.filter (fun t => t.id == taskId) with
            | [] => .response 404 (.error "Task not found")
            | taskRow :: _ =>
              if taskRow.user_id = user.id then
                .response 400 (.error "You cannot share a task with yourself")
              else .response 403 (.error "Only the task owner can share this task")) := by
  simp only [shareTask, hraw, hne, if_false]
  cases hts : s.tasks.filter (fun t => t.id == taskId) with
  | nil => simp only [hts]
  | cons taskRow rest =>
    simp only [hts]
    by_cases ho : taskRow.user_id = user.id
    · simp [ho, hfind, hself]
    · simp [ho]

/-- C9, amended, at a concrete input: alice, who owns task 10, names herself. -/
theorem shareTask_self_witness :
    shareLookupValue (shareWith "alice") = .string "alice" ∧ jsTrim "alice" ≠ ""
    ∧ shareTask sampleEnv sampleStore alice (some 10) (shareWith "alice")
      = (sampleStore, .response 400 (.error "You cannot share a task with yourself")) :=
  ⟨by decide, by decide,
    shareTask_self sampleEnv sampleStore alice 10 (shareWith "alice") "alice"
      { id := 1, username := "alice", email := "alice@example.org" }
      (by decide) (by decide) (by decide) (by decide)⟩

/-- What a successful share (status 201) tells: the request named, by a
non-blank identifier, a user other than the requester; the requester owns the
task; no participation row existed for (task, target); afterwards the
participation rows are the former ones and one new row, and the users and
tasks are as before. -/
theorem shareTask_success_inv (env : Env) (s : Store) (user : AuthUser) (taskId : Int)
    (body : ShareBody) (payload : Body)
    (hsucc : (shareTask env s user (some taskId) body).2 = .response 201 payload) :
    ∃ raw taskRow rest target,
      shareLookupValue body = .string raw ∧ jsTrim raw ≠ ""
      ∧ s.tasks.filter (fun t => t.id == taskId) = taskRow :: rest
      ∧ taskRow.user_id = user.id
      ∧ findUser env s (jsTrim raw) = some target
      ∧ target.id ≠ user.id
      ∧ s.participants.filter (fun p => p.task_id == taskId && p.user_id == target.id) = []
      ∧ (shareTask env s user (some taskId) body).1.participants
          = s.participants ++
              [{ id := s.nextParticipationId, task_id := taskId, user_id := target.id,
                 access_level := normalizeAccessLevel body.accessLevel, status := "Pending",
                 invited_by := user.id }]
      ∧ (shareTask env s user (some taskId) body).1.users = s.users
      ∧ (shareTask env s user (some taskId) body).1.tasks = s.tasks := by
  cases hl : shareLookupValue body with
  | string raw =>
    by_cases hb : jsTrim raw = ""
    · simp [shareTask, hl, hb] at hsucc
    · cases hts : s.tasks.filter (fun t => t.id == taskId) with
      | nil => simp [shareTask, hl, hb, hts] at hsucc
      | cons taskRow rest =>
        by_cases ho : taskRow.user_id = user.id
        · cases hf : findUser env s (jsTrim raw) with
          | none => simp [shareTask, hl, hb, hts, ho, hf] at hsucc
          | some target =>
            by_cases hs : target.id = user.id
            · simp [shareTask, hl, hb, hts, ho, hf, hs] at hsucc
            · cases hex : s.participants.filter
                  (fun p => p.task_id == taskId && p.user_id == target.id) with
              | cons p ps => simp [shareTask, hl, hb, hts, ho, hf, hs, hex] at hsucc
              | nil =>
                refine ⟨raw, taskRow, rest, target, rfl, hb, rfl, ho, hf, hs, hex, ?_⟩
                simp only [shareTask, hl, hb, hts, ho, hf, hs, hex, if_false, ne_eq,
                  not_true_eq_false, List.length_nil, gt_iff_lt, Nat.lt_irrefl]
                refine ⟨?_, ?_, ?_⟩ <;> split <;>
                  simp only [createNotification_participants, createNotification_users,
                    createNotification_tasks]
        · simp [shareTask, hl, hb, hts, ho] at hsucc
  | _ => simp [shareTask, hl] at hsucc

/-- C10: when a share of (task, target) by the owner has succeeded, a second
share of the same task by the owner whose identifier resolves to the same
target fails with the conflict error (400, "Task is already shared with this
user") and changes nothing, and exactly one participation row exists for the
pair. -/
theorem shareTask_twice (env env2 : Env) (s : Store) (user : AuthUser) (taskId : Int)
    (body body2 : ShareBody) (payload : Body) (raw raw2 : String) (target target2 : UserRow)
    (hsucc : (shareTask env s user (some taskId) body).2 = .response 201 payload)
    (hraw : shareLookupValue body = .string raw)
    (hfind : findUser env s (jsTrim raw) = some target)
    (hraw2 : shareLookupValue body2 = .string raw2) (hne2 : jsTrim raw2 ≠ "")
    (hfind2 : findUser env2 (shareTask env s user (some taskId) body).1 (jsTrim raw2)
      = some target2)
    (hsame : target2.id = target.id) :
    shareTask env2 (shareTask env s user (some taskId) body).1 user (some taskId) body2
      = ((shareTask env s user (some taskId) body).1,
          .response 400 (.error "Task is already shared with this user"))
    ∧ ((shareTask env s user (some taskId) body).1.participants.filter
        (fun p => p.task_id == taskId && p.user_id == target.id)).length = 1 := by
  obtain ⟨raw1, taskRow, rest, target1, hl, -, hts, ho, hf, hs, hex, hp, -, ht⟩ :=
    shareTask_success_inv env s user taskId body payload hsucc
  have hr : raw1 = raw := by
    rw [hl] at hraw
    exact JsValue.string.inj hraw
  subst hr
  have ht1 : target1 = target := by
    rw [hf] at hfind
    exact Option.some.inj hfind
  subst ht1
  generalize (shareTask env s user (some taskId) body).1 = s1 at hfind2 hp ht ⊢
  have hcount : s1.participants.filter
      (fun p => p.task_id == taskId && p.user_id == target1.id)
      = [{ id := s.nextParticipationId, task_id := taskId, user_id := target1.id,
           access_level := normalizeAccessLevel body.accessLevel, status := "Pending",
           invited_by := user.id }] := by
    rw [hp, List.filter_append, hex]
    simp
  refine ⟨?_, by rw [hcount]; rfl⟩
  have hs2 : ¬ target2.id = user.id := by rw [hsame]; exact hs
  simp only [shareTask, hraw2, hne2, if_false, ht, hts, ho, ne_eq, not_true_eq_false, hfind2,
    hs2, hsame, hcount]
  simp [hs]

/-- C10 at a concrete input: alice shares task 10 with bob by user name, then
again by e-mail address. -/
theorem shareTask_twice_witness :
    (shareTask sampleEnv sampleStore alice (some 10) (shareWith "bob")).2
      = .response 201 (.task (loadTaskForViewer
          (shareTask sampleEnv sampleStore alice (some 10) (shareWith "bob")).1 10 1))
    ∧ findUser sampleEnv sampleStore (jsTrim "bob")
      = some { id := 2, username := "bob", email := "bob@example.org" }
    ∧ findUser sampleEnv (shareTask sampleEnv sampleStore alice (some 10) (shareWith "bob")).1
        (jsTrim " bob@example.org ")
      = some { id := 2, username := "bob", email := "bob@example.org" }
    ∧ shareTask sampleEnv (shareTask sampleEnv sampleStore alice (some 10) (shareWith "bob")).1
        alice (some 10) (shareWith " bob@example.org ")
      = ((shareTask sampleEnv sampleStore alice (some 10) (shareWith "bob")).1,
          .response 400 (.error "Task is already shared with this user"))
    ∧ ((shareTask sampleEnv sampleStore alice (some 10)
          (shareWith "bob")).1.participants.filter
        (fun p => p.task_id == 10 && p.user_id == 2)).length = 1 :=
  ⟨by decide, by decide, by decide,
    shareTask_twice sampleEnv sampleEnv sampleStore alice 10 (shareWith "bob")
      (shareWith " bob@example.org ") _ "bob" " bob@example.org "
      { id := 2, username := "bob", email := "bob@example.org" }
      { id := 2, username := "bob", email := "bob@example.org" }
      (by decide :
        (shareTask sampleEnv sampleStore alice (some 10) (shareWith "bob")).2
          = .response 201 (.task (loadTaskForViewer
              (shareTask sampleEnv sampleStore alice (some 10) (shareWith "bob")).1 10 1)))
      (by decide) (by decide) (by decide) (by decide) (by decide) (by decide)⟩

/-! ## The scenario: create, share, progress by the participant, progress by the owner -/

theorem taskRowsOf_id (s : Store) (viewerId : Int) (t : TaskRecord) :
    ∀ r ∈ taskRowsOf s viewerId t, r.id = t.id := by
  intro r hr
  simp only [taskRowsOf, List.mem_flatMap] at hr
  obtain ⟨owner, -, hr⟩ := hr
  split at hr
  · split at hr
    · simp only [List.mem_singleton] at hr
      rw [hr]
      rfl
    · simp at hr
  · simp only [List.mem_map] at hr
    obtain ⟨vp, -, rfl⟩ := hr
    rfl

theorem filter_flatMap_taskRowsOf (s : Store) (viewerId T : Int) (ts : List TaskRecord) :
    (ts.flatMap (taskRowsOf s viewerId)).filter (fun r => decide (r.id ∈ [T]))
      = (ts.filter (fun t => t.id == T)).flatMap (taskRowsOf s viewerId) := by
  induction ts with
  | nil => rfl
  | cons t ts ih =>
    simp only [List.flatMap_cons, List.filter_append, ih]
    by_cases h : t.id = T
    · have hall : (taskRowsOf s viewerId t).filter (fun r => decide (r.id ∈ [T]))
          = taskRowsOf s viewerId t := by
        rw [List.filter_eq_self]
        intro r hr
        simp [taskRowsOf_id s viewerId t r hr, h]
      rw [hall]
      simp [List.filter_cons, h]
    · have hnone : (taskRowsOf s viewerId t).filter (fun r => decide (r.id ∈ [T])) = [] := by
        rw [List.filter_eq_nil_iff]
        intro r hr
        simp [taskRowsOf_id s viewerId t r hr, h]
      rw [hnone]
      simp [List.filter_cons, h]

theorem loadTaskRows_single (s : Store) (viewerId T : Int) (t : TaskRecord)
    (h : s.tasks.filter (fun t => t.id == T) = [t]) :
    loadTaskRows s viewerId (some [T])
      = (taskRowsOf s viewerId t).insertionSort (fun a b => b.created_at ≤ a.created_at) := by
  simp only [loadTaskRows, filter_flatMap_taskRowsOf, h, List.flatMap_cons, List.flatMap_nil,
    List.append_nil]

theorem groupByTask_getD (rows : List (Int × Participant)) :
    ∀ (map : ParticipantsMap) (k : Int),
      ((groupByTask rows map) k).getD []
        = (map k).getD [] ++ (rows.filter (fun r => r.1 == k)).map (·.2) := by
  induction rows with
  | nil => intro map k; simp [groupByTask]
  | cons r rows ih =>
    intro map k
    have := ih (fun k => if k = r.1 then some ((map r.1).getD [] ++ [r.2]) else map k) k
    simp only [groupByTask, List.foldl_cons] at this ⊢
    rw [this]
    by_cases hk : k = r.1
    · subst hk
      simp
    · have hk2 : ¬ r.1 = k := fun h => hk h.symm
      simp [hk, hk2]

/-- The participant list that `getTaskParticipants` gives for the one task
it is asked about: its participation rows, joined with their users. -/
theorem getTaskParticipants_single (s : Store) (T : Int) :
    ((getTaskParticipants s (some [T])) T).getD []
      = (s.participants.filter (fun tp => tp.task_id == T)).flatMap fun tp =>
          (s.users.filter (fun u => u.id == tp.user_id)).map fun u => participantOf tp u := by
  simp only [getTaskParticipants, groupByTask_getD, participantRows, Option.getD_none,
    List.nil_append]
  have hfilter : s.participants.filter (fun tp => decide (tp.task_id ∈ [T]))
      = s.participants.filter (fun tp => tp.task_id == T) := by
    congr 1
    funext tp
    by_cases h : tp.task_id = T <;> simp [h]
  rw [hfilter]
  have hkey : ∀ tp ∈ s.participants.filter (fun tp => tp.task_id == T), tp.task_id = T := by
    intro tp htp
    simpa using (List.mem_filter.1 htp).2
  generalize s.participants.filter (fun tp => tp.task_id == T) = ps at hkey
  induction ps with
  | nil => rfl
  | cons q qs ih =>
    have hq : q.task_id = T := hkey q (List.mem_cons_self q qs)
    have ih2 := ih (fun tp htp => hkey tp (List.mem_cons_of_mem q htp))
    simp only [List.flatMap_cons, List.filter_append, List.map_append, ih2]
    congr 1
    simp [List.filter_map, Function.comp_def, hq]

/-- The payload of a task for its owner, when the owner has no participation
row on it. -/
theorem loadTaskForViewer_owner (s : Store) (T : Int) (t : TaskRecord) (o : UserRow)
    (ht : s.tasks.filter (fun t => t.id == T) = [t])
    (ho : s.users.filter (fun u => u.id == t.user_id) = [o])
    (hv : s.participants.filter (fun vp => vp.task_id == T && vp.user_id == t.user_id) = []) :
    loadTaskForViewer s T t.user_id
      = some (buildTaskPayload (joinedRow t o none none) (getTaskParticipants s (some [T]))
          t.user_id) := by
  have hid : t.id = T := by
    have : t ∈ s.tasks.filter (fun t => t.id == T) := by rw [ht]; exact List.mem_singleton_self t
    simpa using (List.mem_filter.1 this).2
  have hrows : loadTaskRows s t.user_id (some [T]) = [joinedRow t o none none] := by
    rw [loadTaskRows_single s t.user_id T t ht]
    simp [taskRowsOf, ho, hid, hv]
  simp [loadTaskForViewer, loadTasksForViewer, hrows, joinedRow, hid]

/-- The payload of a task for a viewer who has exactly one participation row
on it. -/
theorem loadTaskForViewer_participant (s : Store) (T v : Int) (t : TaskRecord) (o : UserRow)
    (vp : ParticipationRow)
    (ht : s.tasks.filter (fun t => t.id == T) = [t])
    (ho : s.users.filter (fun u => u.id == t.user_id) = [o])
    (hv : s.participants.filter (fun vp => vp.task_id == T && vp.user_id == v) = [vp]) :
    loadTaskForViewer s T v
      = some (buildTaskPayload (joinedRow t o (some vp.access_level) (some vp.status))
          (getTaskParticipants s (some [T])) v) := by
  have hid : t.id = T := by
    have : t ∈ s.tasks.filter (fun t => t.id == T) := by rw [ht]; exact List.mem_singleton_self t
    simpa using (List.mem_filter.1 this).2
  have hrows : loadTaskRows s v (some [T])
      = [joinedRow t o (some vp.access_level) (some vp.status)] := by
    rw [loadTaskRows_single s v T t ht]
    simp [taskRowsOf, ho, hid, hv]
  simp [loadTaskForViewer, loadTasksForViewer, hrows, joinedRow, hid]

theorem createNotification_ok (env : Env) (s : Store) (args : NotificationArgs)
    (hok : ∀ x, env.notificationInsertFails x = false) :
    ∃ n, (createNotification env s args).2 = .ok n := by
  simp [createNotification, hok]

theorem notifyJobs_ok (env : Env) (payload : NotifyPayload)
    (hok : ∀ x, env.notificationInsertFails x = false) :
    ∀ (ids : List Int) (s : Store), ∃ ns, promiseAll (notifyJobs env s payload ids).2 = .ok ns := by
  intro ids
  induction ids with
  | nil => intro s; exact ⟨[], rfl⟩
  | cons x xs ih =>
    intro s
    obtain ⟨n, hn⟩ := createNotification_ok env s
      { userId := x, taskId := payload.taskId, type := payload.type,
        title := payload.title, message := payload.message,
        metadata := some payload.metadata } hok
    obtain ⟨ns, hns⟩ := ih (createNotification env s
      { userId := x, taskId := payload.taskId, type := payload.type,
        title := payload.title, message := payload.message,
        metadata := some payload.metadata }).1
    exact ⟨n :: ns, by simp only [notifyJobs, hn, promiseAll, hns]⟩

theorem notifyUsers_frame (env : Env) (s : Store) (ids : List Int) (payload : NotifyPayload) :
    (notifyUsers env s ids payload).1.users = s.users
    ∧ (notifyUsers env s ids payload).1.tasks = s.tasks
    ∧ (notifyUsers env s ids payload).1.participants = s.participants := by
  cases ids with
  | nil => exact ⟨rfl, rfl, rfl⟩
  | cons x xs =>
    obtain ⟨_, _, -, -, -, -, -, hu, ht, hp⟩ := notifyJobs_effect env payload (x :: xs) s
    exact ⟨hu, ht, hp⟩

theorem notifyUsers_ok (env : Env) (s : Store) (ids : List Int) (payload : NotifyPayload)
    (hok : ∀ x, env.notificationInsertFails x = false) :
    ∃ ns, (notifyUsers env s ids payload).2 = .ok ns := by
  cases ids with
  | nil => exact ⟨[], rfl⟩
  | cons x xs => exact notifyJobs_ok env payload hok (x :: xs) s

/-- The steps of `notifyTaskParticipants` once the task meta is known. -/
theorem notifyTaskParticipants_some (env : Env) (s : Store) (taskMeta : TaskMeta)
    (taskId : Option Int) (actor : Actor) (type title message : String)
    (metadata : Metadata) :
    ∃ (R : List Int) (payload : NotifyPayload),
      notifyTaskParticipants env s (some taskMeta) taskId actor type title message metadata
        = if R.length = 0 then (s, .ok ())
          else ((notifyUsers env s R payload).1,
                (notifyUsers env s R payload).2.map (fun _ => ())) :=
  ⟨_, _, rfl⟩

/-- The fan-out leaves users, tasks and participation rows as they are. -/
theorem notifyTaskParticipants_frame (env : Env) (s : Store) (taskMeta : TaskMeta)
    (taskId : Option Int) (actor : Actor) (type title message : String)
    (metadata : Metadata) :
    (notifyTaskParticipants env s (some taskMeta) taskId actor type title message
        metadata).1.users = s.users
    ∧ (notifyTaskParticipants env s (some taskMeta) taskId actor type title message
        metadata).1.tasks = s.tasks
    ∧ (notifyTaskParticipants env s (some taskMeta) taskId actor type title message
        metadata).1.participants = s.participants := by
  obtain ⟨R, payload, h⟩ :=
    notifyTaskParticipants_some env s taskMeta taskId actor type title message metadata
  rw [h]
  split
  · exact ⟨rfl, rfl, rfl⟩
  · exact notifyUsers_frame env s R payload

/-- The fan-out succeeds when the storage accepts every insert. -/
theorem notifyTaskParticipants_ok (env : Env) (s : Store) (taskMeta : TaskMeta)
    (taskId : Option Int) (actor : Actor) (type title message : String)
    (metadata : Metadata) (hok : ∀ x, env.notificationInsertFails x = false) :
    (notifyTaskParticipants env s (some taskMeta) taskId actor type title message
      metadata).2 = .ok () := by
  obtain ⟨R, payload, h⟩ :=
    notifyTaskParticipants_some env s taskMeta taskId actor type title message metadata
  rw [h]
  split
  · rfl
  · obtain ⟨ns, hns⟩ := notifyUsers_ok env s R payload hok
    simp only [hns]
    rfl

/-- A progress update that passes the checks answers 200 with the payload
recomputed after the status write, and changes users, tasks and participation
rows by that write only (when the storage accepts the notification inserts). -/
theorem updateProgress_success (env : Env) (s : Store) (user : AuthUser) (T : Int)
    (status : String) (t : TaskRecord) (rest : List TaskRecord) (access : TaskPayload)
    (hok : ∀ x, env.notificationInsertFails x = false)
    (hvalid : status ∈ VALID_STATUSES)
    (hts : s.tasks.filter (fun t => t.id == T) = t :: rest)
    (hacc : loadTaskForViewer s T user.id = some access)
    (hperm : access.permissions.canUpdateProgress = true) :
    (updateProgress env s user (some T) (.string status)).2
      = .response 200 (.task (loadTaskForViewer
          (progressWrite s T user.id status (access.owner.id == user.id)) T user.id))
    ∧ (updateProgress env s user (some T) (.string status)).1.users = s.users
    ∧ (updateProgress env s user (some T) (.string status)).1.tasks
      = (progressWrite s T user.id status (access.owner.id == user.id)).tasks
    ∧ (updateProgress env s user (some T) (.string status)).1.participants
      = (progressWrite s T user.id status (access.owner.id == user.id)).participants := by
  have hw : (if access.owner.id = user.id then
        ({ s with tasks := s.tasks.map fun t =>
            if t.id = T then { t with status := status } else t } : Store)
      else
        { s with participants := s.participants.map fun p =>
            if p.task_id = T ∧ p.user_id = user.id then { p with status := status } else p })
      = progressWrite s T user.id status (access.owner.id == user.id) := by
    unfold progressWrite
    by_cases h : access.owner.id = user.id <;> simp [h]
  have husers : (progressWrite s T user.id status (access.owner.id == user.id)).users
      = s.users := by
    unfold progressWrite
    split <;> rfl
  simp only [updateProgress, hvalid, not_true_eq_false, if_false, hts, hacc, hperm,
    Bool.not_true, Bool.false_eq_true, hw]
  generalize progressWrite s T user.id status (access.owner.id == user.id) = s1 at husers ⊢
  cases hm : getTaskMeta s1 T with
  | none => exact ⟨rfl, husers, rfl, rfl⟩
  | some taskMeta =>
    simp only []
    obtain ⟨hu, ht, hp⟩ := notifyTaskParticipants_frame env s1 taskMeta none (resolveActor user)
      "task_progress" "Progress updated"
      ((resolveActor user).username ++ " updated progress on \"" ++ taskMeta.title ++
        "\" to " ++ status ++ ".")
      [("action", .string "progress"), ("status", .string status)]
    have hr := notifyTaskParticipants_ok env s1 taskMeta none (resolveActor user)
      "task_progress" "Progress updated"
      ((resolveActor user).username ++ " updated progress on \"" ++ taskMeta.title ++
        "\" to " ++ status ++ ".")
      [("action", .string "progress"), ("status", .string status)] hok
    simp only [hr]
    exact ⟨trivial, hu.trans husers, ht, hp⟩

theorem createNotification_snd (env : Env) (s : Store) (args : NotificationArgs)
    (hok : ∀ x, env.notificationInsertFails x = false) :
    (createNotification env s args).2
      = .ok (getNotificationById
          { s with
            notifications := s.notifications ++
              [{ id := s.nextNotificationId, user_id := args.userId, task_id := args.taskId,
                 type := args.type, title := args.title, message := args.message,
                 metadata := args.metadata, is_read := false, created_at := env.now }],
            nextNotificationId := s.nextNotificationId + 1 }
          s.nextNotificationId) := by
  simp [createNotification, hok]

/-- The aggregate fields of a payload, from the participant list of its task. -/
theorem buildTaskPayload_progress (row : TaskRow) (participantsMap : ParticipantsMap)
    (viewerId : Int) :
    (buildTaskPayload row participantsMap viewerId).totalParticipants
      = ((participantsMap row.id).getD []).length + 1
    ∧ (buildTaskPayload row participantsMap viewerId).completedParticipants
      = (if row.status = "Completed" then 1 else 0)
        + (((participantsMap row.id).getD []).filter (fun p => p.status = "Completed")).length
    ∧ (buildTaskPayload row participantsMap viewerId).overallProgress
      = Math.round ((F64.divNat
          ((if row.status = "Completed" then 1 else 0)
            + (((participantsMap row.id).getD []).filter
                (fun p => p.status = "Completed")).length)
          (((participantsMap row.id).getD []).length + 1)).mulNat 100) := by
  simp [buildTaskPayload, calculateOverallProgress]

theorem filter_task_and_user (ps : List ParticipationRow) (T v : Int) :
    ps.filter (fun vp => vp.task_id == T && vp.user_id == v)
      = (ps.filter (fun tp => tp.task_id == T)).filter (fun tp => tp.user_id == v) := by
  rw [List.filter_filter]
  congr 1
  funext tp
  exact Bool.and_comm _ _

theorem TaskSnapshot.id_eq {s : Store} {T : Int} {t : TaskRecord} {o : UserRow}
    {ps : List ParticipationRow} (h : TaskSnapshot s T t o ps) : t.id = T := by
  have : t ∈ s.tasks.filter (fun t => t.id == T) := by rw [h.1]; exact List.mem_singleton_self t
  simpa using (List.mem_filter.1 this).2

/-- The owner's payload of a task without participants. -/
theorem snapshot_alone (s : Store) (T : Int) (t : TaskRecord) (o : UserRow)
    (h : TaskSnapshot s T t o []) :
    ∃ p, loadTaskForViewer s T t.user_id = some p
      ∧ p.owner.id = t.user_id
      ∧ p.permissions.canUpdateProgress = true
      ∧ p.totalParticipants = 1
      ∧ p.completedParticipants = (if t.status = "Completed" then 1 else 0)
      ∧ p.overallProgress
        = Math.round ((F64.divNat (if t.status = "Completed" then 1 else 0) 1).mulNat 100) := by
  obtain ⟨ht, ho, hp⟩ := h
  have hid := TaskSnapshot.id_eq ⟨ht, ho, hp⟩
  have hv : s.participants.filter (fun vp => vp.task_id == T && vp.user_id == t.user_id) = [] := by
    rw [filter_task_and_user, hp]; rfl
  have hl := getTaskParticipants_single s T
  rw [hp] at hl
  simp only [List.flatMap_nil] at hl
  refine ⟨_, loadTaskForViewer_owner s T t o ht ho hv, ?_, ?_, ?_⟩
  · rfl
  · simp [buildTaskPayload, joinedRow]
  · have hprog := buildTaskPayload_progress (joinedRow t o none none)
      (getTaskParticipants s (some [T])) t.user_id
    have hrow : (joinedRow t o none none).id = T := hid
    have hst : (joinedRow t o none none).status = t.status := rfl
    rw [hrow, hl, hst] at hprog
    simpa using hprog

theorem snapshot_shared_list (s : Store) (T : Int) (t : TaskRecord) (o u : UserRow)
    (q : ParticipationRow) (h : TaskSnapshot s T t o [q])
    (hu : s.users.filter (fun x => x.id == q.user_id) = [u]) :
    (getTaskParticipants s (some [T]) T).getD [] = [participantOf q u] := by
  have hl := getTaskParticipants_single s T
  rw [h.2.2] at hl
  simpa [hu] using hl

/-- The owner's payload of a task shared with one user. -/
theorem snapshot_shared_owner (s : Store) (T : Int) (t : TaskRecord) (o u : UserRow)
    (q : ParticipationRow) (h : TaskSnapshot s T t o [q])
    (hu : s.users.filter (fun x => x.id == q.user_id) = [u]) (hne : q.user_id ≠ t.user_id) :
    ∃ p, loadTaskForViewer s T t.user_id = some p
      ∧ p.owner.id = t.user_id
      ∧ p.permissions.canUpdateProgress = true
      ∧ p.totalParticipants = 2
      ∧ p.completedParticipants
        = (if t.status = "Completed" then 1 else 0) + (if q.status = "Completed" then 1 else 0)
      ∧ p.overallProgress
        = Math.round ((F64.divNat
            ((if t.status = "Completed" then 1 else 0)
              + (if q.status = "Completed" then 1 else 0)) 2).mulNat 100) := by
  have hid := h.id_eq
  have hl := snapshot_shared_list s T t o u q h hu
  obtain ⟨ht, ho, hp⟩ := h
  have hv : s.participants.filter (fun vp => vp.task_id == T && vp.user_id == t.user_id) = [] := by
    rw [filter_task_and_user, hp]
    simp [hne]
  refine ⟨_, loadTaskForViewer_owner s T t o ht ho hv, ?_, ?_, ?_⟩
  · rfl
  · simp [buildTaskPayload, joinedRow]
  · have hprog := buildTaskPayload_progress (joinedRow t o none none)
      (getTaskParticipants s (some [T])) t.user_id
    have hrow : (joinedRow t o none none).id = T := hid
    have hst : (joinedRow t o none none).status = t.status := rfl
    rw [hrow, hl, hst] at hprog
    by_cases hq : q.status = "Completed" <;>
      simpa [participantOf, List.filter_cons, hq] using hprog

/-- The participant's payload of a task shared with that one user. -/
theorem snapshot_shared_participant (s : Store) (T : Int) (t : TaskRecord) (o u : UserRow)
    (q : ParticipationRow) (h : TaskSnapshot s T t o [q])
    (hu : s.users.filter (fun x => x.id == q.user_id) = [u]) (hne : q.user_id ≠ t.user_id) :
    ∃ p, loadTaskForViewer s T q.user_id = some p
      ∧ p.owner.id = t.user_id
      ∧ p.permissions.canUpdateProgress = true
      ∧ (q.access_level = "limited" →
          p.viewerAccessLevel = some "limited" ∧ p.permissions.canEdit = false)
      ∧ p.totalParticipants = 2
      ∧ p.completedParticipants
        = (if t.status = "Completed" then 1 else 0) + (if q.status = "Completed" then 1 else 0)
      ∧ p.overallProgress
        = Math.round ((F64.divNat
            ((if t.status = "Completed" then 1 else 0)
              + (if q.status = "Completed" then 1 else 0)) 2).mulNat 100) := by
  have hid := h.id_eq
  have hl := snapshot_shared_list s T t o u q h hu
  obtain ⟨ht, ho, hp⟩ := h
  have hv : s.participants.filter (fun vp => vp.task_id == T && vp.user_id == q.user_id)
      = [q] := by
    rw [filter_task_and_user, hp]
    simp
  have hne2 : ¬ t.user_id = q.user_id := fun e => hne e.symm
  have hlrow : (getTaskParticipants s (some [T])
      (joinedRow t o (some q.access_level) (some q.status)).id).getD [] = [participantOf q u] := by
    have hrow : (joinedRow t o (some q.access_level) (some q.status)).id = T := hid
    rw [hrow, hl]
  refine ⟨_, loadTaskForViewer_participant s T q.user_id t o q ht ho hv, ?_, ?_, ?_, ?_⟩
  · rfl
  · have hl2 : (getTaskParticipants s (some [T]) t.id).getD [] = [participantOf q u] := by
      rw [hid, hl]
    simp [buildTaskPayload, joinedRow, hl2, participantOf, hne2]
  · intro hlim
    have hl2 : (getTaskParticipants s (some [T]) t.id).getD [] = [participantOf q u] := by
      rw [hid, hl]
    simp [buildTaskPayload, hl2, participantOf, joinedRow, hne2, hlim, orString, truthyString]
  · have hprog := buildTaskPayload_progress (joinedRow t o (some q.access_level) (some q.status))
      (getTaskParticipants s (some [T])) q.user_id
    have hst : (joinedRow t o (some q.access_level) (some q.status)).status = t.status := rfl
    rw [hlrow, hst] at hprog
    by_cases hq : q.status = "Completed" <;>
      simpa [participantOf, List.filter_cons, hq] using hprog

theorem filter_task_map_status (ps : List ParticipationRow) (T : Int)
    (c : ParticipationRow → Prop) [DecidablePred c] (status : String) :
    (ps.map fun p => if c p then { p with status := status } else p).filter
        (fun tp => tp.task_id == T)
      = (ps.filter (fun tp => tp.task_id == T)).map
          (fun p => if c p then { p with status := status } else p) := by
  rw [List.filter_map]
  congr 2
  funext p
  by_cases h : c p <;> simp [h]

theorem filter_id_map_status (ts : List TaskRecord) (T : Int)
    (c : TaskRecord → Prop) [DecidablePred c] (status : String) :
    (ts.map fun t => if c t then { t with status := status } else t).filter
        (fun t => t.id == T)
      = (ts.filter (fun t => t.id == T)).map
          (fun t => if c t then { t with status := status } else t) := by
  rw [List.filter_map]
  congr 2
  funext t
  by_cases h : c t <;> simp [h]

/-- A share request that passes every check answers 201 (when the storage
accepts the notification insert). -/
theorem shareTask_success (env : Env) (s : Store) (user : AuthUser) (T : Int)
    (body : ShareBody) (raw : String) (t : TaskRecord) (rest : List TaskRecord)
    (target : UserRow)
    (hok : ∀ x, env.notificationInsertFails x = false)
    (hraw : shareLookupValue body = .string raw) (hnb : jsTrim raw ≠ "")
    (hts : s.tasks.filter (fun t => t.id == T) = t :: rest) (ho : t.user_id = user.id)
    (hfind : findUser env s (jsTrim raw) = some target) (hns : target.id ≠ user.id)
    (hex : s.participants.filter (fun p => p.task_id == T && p.user_id == target.id) = []) :
    ∃ p, (shareTask env s user (some T) body).2 = .response 201 (.task p) := by
  simp only [shareTask, hraw, hnb, if_false, hts, ho, ne_eq, not_true_eq_false, hfind, hns, hex,
    List.length_nil, gt_iff_lt, Nat.lt_irrefl, createNotification_snd _ _ _ hok]
  exact ⟨_, rfl⟩

/-- C7: in a store where `a` and `b` are two registered users and the id the
new task gets is unused, `a` creates a task with status Pending: the payload
has `totalParticipants = 1` and `overallProgress = 0`.  After `a` shares it
with `b` at `limited`, `b`'s payload has `viewerAccessLevel = "limited"`,
`canEdit = false` and `canUpdateProgress = true`.  After `b` sets the progress
to Completed the payload has `totalParticipants = 2`,
`completedParticipants = 1` and `overallProgress = 50`; after `a` then sets
the status to Completed the payload has `overallProgress = 100`. -/
theorem scenario_create_share_progress (env : Env) (s : Store) (a b : AuthUser)
    (ua ub : UserRow) (body : CreateBody) (share : ShareBody) (title identifier : String)
    (hok : ∀ x, env.notificationInsertFails x = false)
    (hua : s.users.filter (fun u => u.id == a.id) = [ua])
    (hub : s.users.filter (fun u => u.id == b.id) = [ub])
    (hab : a.id ≠ b.id)
    (hfreshT : ∀ t ∈ s.tasks, t.id ≠ s.nextTaskId)
    (hfreshP : ∀ p ∈ s.participants, p.task_id ≠ s.nextTaskId)
    (htitle : body.title = .string title) (hnb : jsTrim title ≠ "")
    (hstatus : normalizeStatus body.status "Pending" = "Pending")
    (hident : shareLookupValue share = .string identifier) (hinb : jsTrim identifier ≠ "")
    (hfind : findUser env s (jsTrim identifier) = some ub)
    (hlevel : share.accessLevel = .string "limited") :
    (∃ p, (scenarioCreate env s a body).2 = .response 201 (.task (some p))
        ∧ p.totalParticipants = 1 ∧ p.overallProgress = 0)
    ∧ (∃ p, (scenarioShare env s a body share).2 = .response 201 (.task p))
    ∧ (∃ p, loadTaskForViewer (scenarioShare env s a body share).1 s.nextTaskId b.id = some p
        ∧ p.viewerAccessLevel = some "limited" ∧ p.permissions.canEdit = false
        ∧ p.permissions.canUpdateProgress = true)
    ∧ (∃ p, (scenarioParticipantDone env s a b body share).2 = .response 200 (.task (some p))
        ∧ p.totalParticipants = 2 ∧ p.completedParticipants = 1 ∧ p.overallProgress = 50)
    ∧ (∃ p, (scenarioOwnerDone env s a b body share).2 = .response 200 (.task (some p))
        ∧ p.overallProgress = 100) := by
  have hubid : ub.id = b.id := by
    have : ub ∈ s.users.filter (fun u => u.id == b.id) := by
      rw [hub]; exact List.mem_singleton_self ub
    simpa using (List.mem_filter.1 this).2
  have hvalid : "Completed" ∈ VALID_STATUSES := by decide
  -- step 1: the task is created
  have hT0 : s.tasks.filter (fun t => t.id == s.nextTaskId) = [] := by
    rw [List.filter_eq_nil_iff]
    intro t ht
    simpa using hfreshT t ht
  have hP0 : s.participants.filter (fun tp => tp.task_id == s.nextTaskId) = [] := by
    rw [List.filter_eq_nil_iff]
    intro q hq
    simpa using hfreshP q hq
  obtain ⟨t1, ht1o, ht1s, hsnap1, husers1, hparts1, hres1⟩ :
      ∃ t, t.user_id = a.id ∧ t.status = "Pending"
        ∧ TaskSnapshot (scenarioCreate env s a body).1 s.nextTaskId t ua []
        ∧ (scenarioCreate env s a body).1.users = s.users
        ∧ (scenarioCreate env s a body).1.participants = s.participants
        ∧ (scenarioCreate env s a body).2
          = .response 201 (.task
              (loadTaskForViewer (scenarioCreate env s a body).1 s.nextTaskId a.id)) := by
    refine ⟨{ id := s.nextTaskId, title := jsTrim title,
              description := if body.description.truthy then body.description else .null,
              status := "Pending",
              due_date := if body.due_date.truthy then body.due_date else .null,
              created_at := env.now, updated_at := env.now, user_id := a.id },
      rfl, rfl, ⟨?_, ?_, ?_⟩, ?_, ?_, ?_⟩
    · simp [scenarioCreate, createTask, htitle, hnb, hstatus, List.filter_append, hT0]
    · simpa [scenarioCreate, createTask, htitle, hnb, hstatus] using hua
    · simpa [scenarioCreate, createTask, htitle, hnb, hstatus] using hP0
    · simp [scenarioCreate, createTask, htitle, hnb, hstatus]
    · simp [scenarioCreate, createTask, htitle, hnb, hstatus]
    · simp [scenarioCreate, createTask, htitle, hnb, hstatus]
  have hr0 : Math.round ((F64.divNat 0 1).mulNat 100) = 0 := by decide
  have hr1 : Math.round ((F64.divNat 1 2).mulNat 100) = 50 := by decide
  have hr2 : Math.round ((F64.divNat 2 2).mulNat 100) = 100 := by decide
  have hpc : ¬ ("Pending" = "Completed") := by decide
  have part1 : ∃ p, (scenarioCreate env s a body).2 = .response 201 (.task (some p))
      ∧ p.totalParticipants = 1 ∧ p.overallProgress = 0 := by
    obtain ⟨p, hp, -, -, htot, -, hov⟩ :=
      snapshot_alone (scenarioCreate env s a body).1 s.nextTaskId t1 ua hsnap1
    rw [ht1o] at hp
    refine ⟨p, by rw [hres1, hp], htot, ?_⟩
    rw [hov, ht1s]
    simpa [hpc] using hr0
  -- step 2: the task is shared with `b`
  simp only [scenarioOwnerDone, scenarioParticipantDone, scenarioShare]
  generalize (scenarioCreate env s a body).1 = s1 at hsnap1 husers1 hparts1 ⊢
  have hfind1 : findUser env s1 (jsTrim identifier) = some ub := by
    simpa [findUser, husers1] using hfind
  have hns : ub.id ≠ a.id := by rw [hubid]; exact fun e => hab e.symm
  have hex1 : s1.participants.filter
      (fun p => p.task_id == s.nextTaskId && p.user_id == ub.id) = [] := by
    rw [filter_task_and_user, hsnap1.2.2]; rfl
  obtain ⟨p2, hp2⟩ := shareTask_success env s1 a s.nextTaskId share identifier t1 [] ub hok
    hident hinb hsnap1.1 ht1o hfind1 hns hex1
  obtain ⟨raw, t1', rest, target, hl, -, -, -, hf, -, -, hparts2, husers2, htasks2⟩ :=
    shareTask_success_inv env s1 a s.nextTaskId share (.task p2) hp2
  have hraw : raw = identifier := by
    rw [hl] at hident
    exact JsValue.string.inj hident
  subst hraw
  have htarget : target = ub := by
    rw [hf] at hfind1
    exact Option.some.inj hfind1
  subst htarget
  have hlim : normalizeAccessLevel share.accessLevel = "limited" := by
    rw [hlevel]; decide
  rw [hlim] at hparts2
  generalize (shareTask env s1 a (some s.nextTaskId) share).1 = s2 at hparts2 husers2 htasks2 ⊢
  have husers2' : s2.users = s.users := husers2.trans husers1
  have hubf : s2.users.filter (fun x => x.id == target.id) = [target] := by
    rw [husers2', hubid]; exact hub
  have hsnap2 : TaskSnapshot s2 s.nextTaskId t1 ua
      [{ id := s1.nextParticipationId, task_id := s.nextTaskId, user_id := target.id,
         access_level := "limited", status := "Pending", invited_by := a.id }] := by
    refine ⟨by rw [htasks2]; exact hsnap1.1, by rw [husers2]; exact hsnap1.2.1, ?_⟩
    rw [hparts2, List.filter_append, hsnap1.2.2]
    simp
  have hqne : target.id ≠ t1.user_id := by rw [ht1o]; exact hns
  obtain ⟨pb, hpb, hpbo, hpbu, hpbl, -, -, -⟩ :=
    snapshot_shared_participant s2 s.nextTaskId t1 ua target _ hsnap2 hubf hqne
  simp only [hubid] at hpb
  have part3 : ∃ p, loadTaskForViewer s2 s.nextTaskId b.id = some p
      ∧ p.viewerAccessLevel = some "limited" ∧ p.permissions.canEdit = false
      ∧ p.permissions.canUpdateProgress = true :=
    ⟨pb, hpb, (hpbl rfl).1, (hpbl rfl).2, hpbu⟩
  refine ⟨part1, ⟨p2, hp2⟩, part3, ?_⟩
  -- step 3: `b` reports Completed
  have hown3 : (pb.owner.id == b.id) = false := by
    rw [hpbo, ht1o]; simpa using hab
  obtain ⟨hres3, husers3, htasks3, hparts3⟩ := updateProgress_success env s2 b s.nextTaskId
    "Completed" t1 [] pb hok hvalid hsnap2.1 hpb hpbu
  rw [hown3] at hres3 htasks3 hparts3
  have hsnapw3 : TaskSnapshot (progressWrite s2 s.nextTaskId b.id "Completed" false)
      s.nextTaskId t1 ua
      [{ id := s1.nextParticipationId, task_id := s.nextTaskId, user_id := target.id,
         access_level := "limited", status := "Completed", invited_by := a.id }] := by
    refine ⟨hsnap2.1, hsnap2.2.1, ?_⟩
    simp only [progressWrite, Bool.false_eq_true, if_false]
    rw [filter_task_map_status, hsnap2.2.2]
    simp [hubid]
  have husersw3 : (progressWrite s2 s.nextTaskId b.id "Completed" false).users.filter
      (fun x => x.id == target.id) = [target] := hubf
  obtain ⟨p3, hp3, -, -, -, htot3, hcomp3, hov3⟩ :=
    snapshot_shared_participant _ s.nextTaskId t1 ua target _ hsnapw3 husersw3 hqne
  simp only [hubid] at hp3
  have part4 : ∃ p, (updateProgress env s2 b (some s.nextTaskId) (.string "Completed")).2
        = .response 200 (.task (some p))
      ∧ p.totalParticipants = 2 ∧ p.completedParticipants = 1 ∧ p.overallProgress = 50 := by
    refine ⟨p3, by rw [hres3, hp3], htot3, ?_, ?_⟩
    · rw [hcomp3, ht1s]; simp [hpc]
    · rw [hov3, ht1s]; simpa [hpc] using hr1
  refine ⟨part4, ?_⟩
  -- step 4: `a` reports Completed
  generalize (updateProgress env s2 b (some s.nextTaskId) (.string "Completed")).1 = s3
    at husers3 htasks3 hparts3 ⊢
  have hsnap3 : TaskSnapshot s3 s.nextTaskId t1 ua
      [{ id := s1.nextParticipationId, task_id := s.nextTaskId, user_id := target.id,
         access_level := "limited", status := "Completed", invited_by := a.id }] := by
    refine ⟨by rw [htasks3]; exact hsnapw3.1, by rw [husers3]; exact hsnap2.2.1, ?_⟩
    rw [hparts3]; exact hsnapw3.2.2
  have hubf3 : s3.users.filter (fun x => x.id == target.id) = [target] := by
    rw [husers3]; exact hubf
  obtain ⟨pa, hpa, hpao, hpau, -, -, -⟩ :=
    snapshot_shared_owner s3 s.nextTaskId t1 ua target _ hsnap3 hubf3 hqne
  rw [ht1o] at hpa
  have hown4 : (pa.owner.id == a.id) = true := by
    rw [hpao, ht1o]; simp
  obtain ⟨hres4, -, -, -⟩ := updateProgress_success env s3 a s.nextTaskId
    "Completed" t1 [] pa hok hvalid hsnap3.1 hpa hpau
  rw [hown4] at hres4
  have hsnapw4 : TaskSnapshot (progressWrite s3 s.nextTaskId a.id "Completed" true)
      s.nextTaskId { t1 with status := "Completed" } ua
      [{ id := s1.nextParticipationId, task_id := s.nextTaskId, user_id := target.id,
         access_level := "limited", status := "Completed", invited_by := a.id }] := by
    refine ⟨?_, hsnap3.2.1, hsnap3.2.2⟩
    simp only [progressWrite, if_true]
    rw [filter_id_map_status, hsnap3.1]
    simp [hsnap3.id_eq]
  have hqne4 : target.id ≠ ({ t1 with status := "Completed" } : TaskRecord).user_id := hqne
  obtain ⟨p4, hp4, -, -, -, -, hov4⟩ :=
    snapshot_shared_owner _ s.nextTaskId { t1 with status := "Completed" } ua target _
      hsnapw4 hubf3 hqne4
  have hp4' : loadTaskForViewer (progressWrite s3 s.nextTaskId a.id "Completed" true)
      s.nextTaskId a.id = some p4 := by
    rw [← ht1o]; exact hp4
  refine ⟨p4, by rw [hres4, hp4'], ?_⟩
  rw [hov4]
  simpa using hr2

/-- C7 at a concrete input: alice creates task 11 and shares it with bob. -/
theorem scenario_create_share_progress_witness :
    (∃ p, (scenarioCreate sampleEnv sampleStore alice (createWithTitle " Report ")).2
          = .response 201 (.task (some p))
        ∧ p.totalParticipants = 1 ∧ p.overallProgress = 0)
    ∧ (∃ p, (scenarioShare sampleEnv sampleStore alice (createWithTitle " Report ")
          (shareLimited "bob")).2 = .response 201 (.task p))
    ∧ (∃ p, loadTaskForViewer (scenarioShare sampleEnv sampleStore alice
          (createWithTitle " Report ") (shareLimited "bob")).1 sampleStore.nextTaskId bob.id
          = some p
        ∧ p.viewerAccessLevel = some "limited" ∧ p.permissions.canEdit = false
        ∧ p.permissions.canUpdateProgress = true)
    ∧ (∃ p, (scenarioParticipantDone sampleEnv sampleStore alice bob
          (createWithTitle " Report ") (shareLimited "bob")).2 = .response 200 (.task (some p))
        ∧ p.totalParticipants = 2 ∧ p.completedParticipants = 1 ∧ p.overallProgress = 50)
    ∧ (∃ p, (scenarioOwnerDone sampleEnv sampleStore alice bob
          (createWithTitle " Report ") (shareLimited "bob")).2 = .response 200 (.task (some p))
        ∧ p.overallProgress = 100) :=
  scenario_create_share_progress sampleEnv sampleStore alice bob
    { id := 1, username := "alice", email := "alice@example.org" }
    { id := 2, username := "bob", email := "bob@example.org" }
    (createWithTitle " Report ") (shareLimited "bob") " Report " "bob"
    (fun _ => rfl) (by decide) (by decide) (by decide) (by decide) (by decide) rfl (by decide)
    (by decide) (by decide) (by decide) (by decide) rfl

/-! ## The percentage stays within 0 and 100 -/

theorem F64.log2Aux_eq (fuel : Nat) : ∀ n : Nat, n ≤ fuel → F64.log2Aux fuel n = Nat.log 2 n := by
  induction fuel with
  | zero =>
    intro n h
    have h0 : n = 0 := by omega
    subst h0
    simp [F64.log2Aux]
  | succ f ih =>
    intro n h
    unfold F64.log2Aux
    split
    · rename_i h2
      rw [ih (n / 2) (by omega), Nat.log_of_one_lt_of_le (by norm_num) h2]
    · rw [Nat.log_of_lt (by omega)]

theorem F64.log2_eq (n : Nat) : F64.log2 n = Nat.log 2 n :=
  F64.log2Aux_eq n n (Nat.le_refl n)

theorem F64.roundHalfEven_le (n d K : Nat) (hd : 0 < d) (h : n ≤ K * d) :
    F64.roundHalfEven n d ≤ K := by
  have hm : n / d ≤ K := Nat.div_le_of_le_mul (by rwa [Nat.mul_comm] at h)
  unfold F64.roundHalfEven
  by_cases hlt : n / d < K
  · simp only
    split
    · omega
    · split
      · omega
      · split <;> omega
  · have hmK : n / d = K := by omega
    have hmod : n % d = 0 := by
      have h1 := Nat.div_add_mod n d
      rw [hmK] at h1
      have h2 : d * K = K * d := Nat.mul_comm d K
      omega
    simp [hmod, hd, hmK]

theorem F64.floorLog2_le_zero (n d : Nat) (h : n ≤ d) : F64.floorLog2 n d ≤ 0 := by
  have hmono := Nat.log_mono_right (b := 2) h
  unfold F64.floorLog2
  simp only [F64.log2_eq]
  split_ifs <;> omega

theorem F64.floorLog2_le_six (n d : Nat) (hn : 0 < n) (h : n ≤ 100 * d) :
    F64.floorLog2 n d ≤ 6 := by
  have hlog : Nat.log 2 n < Nat.log 2 d + 8 := by
    apply Nat.log_lt_of_lt_pow (Nat.pos_iff_ne_zero.1 hn)
    have h1 := Nat.lt_pow_succ_log_self (b := 2) (by norm_num) d
    have h2 : 2 ^ (Nat.log 2 d + 8) = 128 * 2 ^ (Nat.log 2 d).succ := by
      rw [Nat.succ_eq_add_one, pow_add, pow_add]
      norm_num
      ring
    rw [h2]
    omega
  unfold F64.floorLog2
  simp only [F64.log2_eq]
  split_ifs with h0 h1 h2
  · by_contra hcon
    have h7 : ((Nat.log 2 n : Int) - (Nat.log 2 d : Int)).toNat = 7 := by omega
    rw [h7] at h1
    omega
  · omega
  · omega
  · omega

/-- The percentage computed in binary64 from `c` completed of `t` in total
never exceeds 100. -/
theorem Math.round_percentage_le (c t : Nat) (hct : c ≤ t) (ht : 0 < t) :
    Math.round ((F64.divNat c t).mulNat 100) ≤ 100 := by
  by_cases hc : c = 0
  · subst hc
    simp [F64.divNat, F64.ofRat, F64.mulNat, Math.round]
  · have he := F64.floorLog2_le_zero c t hct
    have hq : max (F64.floorLog2 c t - 52) (-1074) ≤ -52 := max_le (by omega) (by omega)
    have hx : F64.divNat c t
        = ⟨F64.roundHalfEven (c * 2 ^ (-(max (F64.floorLog2 c t - 52) (-1074))).toNat) t,
            max (F64.floorLog2 c t - 52) (-1074)⟩ := by
      have hneg : ¬ (0 ≤ max (F64.floorLog2 c t - 52) (-1074)) := by omega
      simp only [F64.divNat, F64.ofRat, hc, if_false, hneg]
    generalize max (F64.floorLog2 c t - 52) (-1074) = q at hq hx
    have hm : F64.roundHalfEven (c * 2 ^ (-q).toNat) t ≤ 2 ^ (-q).toNat :=
      F64.roundHalfEven_le _ _ _ ht (by
        rw [Nat.mul_comm c]
        exact Nat.mul_le_mul_left _ hct)
    generalize F64.roundHalfEven (c * 2 ^ (-q).toNat) t = m at hm hx
    rw [hx]
    have hqneg : ¬ (0 ≤ q) := by omega
    simp only [F64.mulNat, hqneg, if_false]
    by_cases hm0 : m * 100 = 0
    · simp [F64.ofRat, hm0, Math.round]
    · have hpos : 0 < 2 ^ (-q).toNat := Nat.pow_pos (by norm_num)
      have he6 := F64.floorLog2_le_six (m * 100) (2 ^ (-q).toNat) (by omega) (by omega)
      have hq2 : max (F64.floorLog2 (m * 100) (2 ^ (-q).toNat) - 52) (-1074) ≤ -46 :=
        max_le (by omega) (by omega)
      have hneg2 : ¬ (0 ≤ max (F64.floorLog2 (m * 100) (2 ^ (-q).toNat) - 52) (-1074)) := by
        omega
      simp only [F64.ofRat, hm0, if_false, hneg2, Math.round]
      generalize (-(max (F64.floorLog2 (m * 100) (2 ^ (-q).toNat) - 52) (-1074))).toNat = k
      have hpk : 0 < 2 ^ k := Nat.pow_pos (by norm_num)
      have hm2 : F64.roundHalfEven (m * 100 * 2 ^ k) (2 ^ (-q).toNat) ≤ 100 * 2 ^ k :=
        F64.roundHalfEven_le _ _ _ hpos (by
          have : m * 100 * 2 ^ k = (100 * 2 ^ k) * m := by ring
          rw [this]
          exact Nat.mul_le_mul_left _ hm)
      generalize F64.roundHalfEven (m * 100 * 2 ^ k) (2 ^ (-q).toNat) = m2 at hm2
      have hlt : (2 * m2 + 2 ^ k) / (2 * 2 ^ k) < 101 :=
        Nat.div_lt_of_lt_mul (by omega)
      omega

/-- The overall progress of every payload is at most 100. -/
theorem calculateOverallProgress_le_100 (ownerStatus : String)
    (participants : Option (List Participant)) :
    (calculateOverallProgress ownerStatus participants).overallProgress ≤ 100 := by
  have hfl : ∀ l : List Participant,
      (l.filter (fun p => p.status = "Completed")).length ≤ l.length :=
    fun l => List.length_filter_le _ l
  cases participants with
  | none =>
    simp only [calculateOverallProgress]
    simp only [Nat.zero_add, Nat.add_one_ne_zero, if_false]
    exact Math.round_percentage_le _ _ (by split <;> omega) (by omega)
  | some ps =>
    have h := hfl ps
    simp only [calculateOverallProgress]
    simp only [Nat.add_one_ne_zero, if_false]
    exact Math.round_percentage_le _ _ (by split <;> omega) (by omega)

/-! ## Reading one task -/

/-- No payload is loaded for a task id that no task row has. -/
theorem loadTaskForViewer_no_task (s : Store) (T v : Int)
    (h : s.tasks.filter (fun t => t.id == T) = []) : loadTaskForViewer s T v = none := by
  have hrows : loadTaskRows s v (some [T]) = [] := by
    simp only [loadTaskRows, filter_flatMap_taskRowsOf, h, List.flatMap_nil,
      List.insertionSort]
  simp [loadTaskForViewer, loadTasksForViewer, hrows]

/-- No payload is loaded for a viewer who neither owns the task nor has a
participation row on it. -/
theorem loadTaskForViewer_no_access (s : Store) (T v : Int)
    (hown : ∀ t ∈ s.tasks, t.id = T → t.user_id ≠ v)
    (hpart : s.participants.filter (fun vp => vp.task_id == T && vp.user_id == v) = []) :
    loadTaskForViewer s T v = none := by
  have hnil : ∀ t ∈ s.tasks.filter (fun t => t.id == T), taskRowsOf s v t = [] := by
    intro t ht
    obtain ⟨hmem, hid⟩ := List.mem_filter.1 ht
    have hid' : t.id = T := by simpa using hid
    have hne := hown t hmem hid'
    simp [taskRowsOf, hid', hpart, hne]
  have hrows : loadTaskRows s v (some [T]) = [] := by
    simp only [loadTaskRows, filter_flatMap_taskRowsOf]
    have : (s.tasks.filter (fun t => t.id == T)).flatMap (taskRowsOf s v) = [] := by
      rw [List.flatMap_eq_nil_iff]
      exact hnil
    rw [this]
    rfl
  simp [loadTaskForViewer, loadTasksForViewer, hrows]

/-- The part of C11 that holds: `getTask` answers 404 when no task row has
the id. -/
theorem getTask_not_found (s : Store) (user : AuthUser) (T : Int)
    (h : s.tasks.filter (fun t => t.id == T) = []) :
    getTask s user (some T) = (s, .response 404 (.error "Task not found")) := by
  simp [getTask, loadTaskForViewer_no_task s T user.id h]

/-- What `getTask` does for a viewer without access to an existing task: it
answers 404, as for a task that does not exist. -/
theorem getTask_no_access (s : Store) (user : AuthUser) (T : Int)
    (hown : ∀ t ∈ s.tasks, t.id = T → t.user_id ≠ user.id)
    (hpart : s.participants.filter
      (fun vp => vp.task_id == T && vp.user_id == user.id) = []) :
    getTask s user (some T) = (s, .response 404 (.error "Task not found")) := by
  simp [getTask, loadTaskForViewer_no_access s T user.id hown hpart]

/-- C11: task 10 exists and is owned by alice; bob is neither its owner nor a
participant.  `getTask` answers bob with 404 "Task not found", where the claim
says Forbidden; the sibling routes `deleteTask` and `updateProgress` answer
the same viewer with 403. -/
theorem getTask_without_access_is_not_found :
    sampleStore.tasks.filter (fun t => t.id == 10) ≠ []
    ∧ getTask sampleStore bob (some 10)
      = (sampleStore, .response 404 (.error "Task not found"))
    ∧ deleteTask sampleStore bob (some 10)
      = (sampleStore, .response 403 (.error "You do not have access to this task"))
    ∧ updateProgress sampleEnv sampleStore bob (some 10) (.string "Completed")
      = (sampleStore, .response 403 (.error "You do not have access to this task")) := by
  decide

/-! ## A notification that cannot be stored -/

theorem createNotification_rejected (env : Env) (s : Store) (args : NotificationArgs)
    (h : env.notificationInsertFails args.userId = true) :
    createNotification env s args = (s, .error ()) := by
  simp [createNotification, h]

theorem promiseAll_cons_error {α : Type} (r : Except Unit α) (rs : List (Except Unit α))
    (h : promiseAll rs = .error ()) : promiseAll (r :: rs) = .error () := by
  cases r with
  | error e => cases e; rfl
  | ok a => simp only [promiseAll, h]

theorem notifyJobs_error (env : Env) (payload : NotifyPayload) :
    ∀ (ids : List Int) (s : Store), (∃ x ∈ ids, env.notificationInsertFails x = true) →
      promiseAll (notifyJobs env s payload ids).2 = .error () := by
  intro ids
  induction ids with
  | nil => intro s h; obtain ⟨x, hx, -⟩ := h; simp at hx
  | cons y ys ih =>
    intro s h
    by_cases hy : env.notificationInsertFails y = true
    · simp only [notifyJobs]
      rw [createNotification_rejected env s _ hy]
      rfl
    · obtain ⟨x, hx, hfx⟩ := h
      have hxs : x ∈ ys := by
        rcases List.mem_cons.1 hx with rfl | hmem
        · exact absurd hfx hy
        · exact hmem
      simp only [notifyJobs]
      exact promiseAll_cons_error _ _ (ih _ ⟨x, hxs, hfx⟩)

/-- The fan-out is rejected when the storage rejects the insert of one of
its recipients. -/
theorem notifyTaskParticipants_error (env : Env) (s : Store) (taskMeta : TaskMeta)
    (taskId : Option Int) (actor : Actor) (type title message : String)
    (metadata : Metadata) (x : Int) (hx : isRecipient taskMeta actor.id x)
    (hfail : env.notificationInsertFails x = true) :
    (notifyTaskParticipants env s (some taskMeta) taskId actor type title message
      metadata).2 = .error () := by
  obtain ⟨-, hmem⟩ := fanout_set_spec taskMeta actor.id
  simp only [notifyTaskParticipants]
  generalize JsSet.delete
    (if taskMeta.ownerId ≠ 0 then
      JsSet.add (JsSet.ofArray taskMeta.participantIds) taskMeta.ownerId
     else JsSet.ofArray taskMeta.participantIds) actor.id = R at hmem ⊢
  have hxR : x ∈ R := (hmem x).2 hx
  cases R with
  | nil => simp at hxR
  | cons y ys =>
    have herr := notifyJobs_error env
      { taskId := some taskMeta.taskId, type := type, title := title, message := message,
        metadata := Metadata.spread
          [("taskId", .number taskMeta.taskId), ("taskTitle", .string taskMeta.title),
           ("actorId", .number actor.id), ("actorName", .string actor.username)]
          metadata } (y :: ys) s ⟨x, hxR, hfail⟩
    simp only [List.length_cons, Nat.add_one_ne_zero, if_false, notifyUsers, herr]
    rfl

/-- A share whose notification insert is rejected: the participation row is
written and the request is answered 500. -/
theorem shareTask_notification_failure (env : Env) (s : Store) (user : AuthUser) (T : Int)
    (body : ShareBody) (raw : String) (t : TaskRecord) (rest : List TaskRecord)
    (target : UserRow)
    (hraw : shareLookupValue body = .string raw) (hnb : jsTrim raw ≠ "")
    (hts : s.tasks.filter (fun t => t.id == T) = t :: rest) (ho : t.user_id = user.id)
    (hfind : findUser env s (jsTrim raw) = some target) (hns : target.id ≠ user.id)
    (hex : s.participants.filter (fun p => p.task_id == T && p.user_id == target.id) = [])
    (hfail : env.notificationInsertFails target.id = true) :
    shareTask env s user (some T) body
      = (shareWrite s T target.id user.id (normalizeAccessLevel body.accessLevel),
          .response 500 (.error "Failed to share task")) := by
  simp only [shareTask, hraw, hnb, if_false, hts, ho, ne_eq, not_true_eq_false, hfind, hns, hex,
    List.length_nil, gt_iff_lt, Nat.lt_irrefl]
  rw [createNotification_rejected env _ _ hfail]
  rfl

/-- A progress update whose fan-out is rejected: the status write is kept and
the request is answered 500. -/
theorem updateProgress_notification_failure (env : Env) (s : Store) (user : AuthUser)
    (T : Int) (status : String) (t : TaskRecord) (rest : List TaskRecord)
    (access : TaskPayload) (taskMeta : TaskMeta) (x : Int)
    (hvalid : status ∈ VALID_STATUSES)
    (hts : s.tasks.filter (fun t => t.id == T) = t :: rest)
    (hacc : loadTaskForViewer s T user.id = some access)
    (hperm : access.permissions.canUpdateProgress = true)
    (hmeta : getTaskMeta (progressWrite s T user.id status (access.owner.id == user.id)) T
      = some taskMeta)
    (hx : isRecipient taskMeta user.id x) (hfail : env.notificationInsertFails x = true) :
    (updateProgress env s user (some T) (.string status)).2
      = .response 500 (.error "Failed to update task progress")
    ∧ (updateProgress env s user (some T) (.string status)).1.tasks
      = (progressWrite s T user.id status (access.owner.id == user.id)).tasks
    ∧ (updateProgress env s user (some T) (.string status)).1.participants
      = (progressWrite s T user.id status (access.owner.id == user.id)).participants := by
  have hw : (if access.owner.id = user.id then
        ({ s with tasks := s.tasks.map fun t =>
            if t.id = T then { t with status := status } else t } : Store)
      else
        { s with participants := s.participants.map fun p =>
            if p.task_id = T ∧ p.user_id = user.id then { p with status := status } else p })
      = progressWrite s T user.id status (access.owner.id == user.id) := by
    unfold progressWrite
    by_cases h : access.owner.id = user.id <;> simp [h]
  simp only [updateProgress, hvalid, not_true_eq_false, if_false, hts, hacc, hperm,
    Bool.not_true, Bool.false_eq_true, hw, hmeta]
  generalize progressWrite s T user.id status (access.owner.id == user.id) = s1
  obtain ⟨-, ht, hp⟩ := notifyTaskParticipants_frame env s1 taskMeta none (resolveActor user)
    "task_progress" "Progress updated"
    ((resolveActor user).username ++ " updated progress on \"" ++ taskMeta.title ++
      "\" to " ++ status ++ ".")
    [("action", .string "progress"), ("status", .string status)]
  have hr := notifyTaskParticipants_error env s1 taskMeta none (resolveActor user)
    "task_progress" "Progress updated"
    ((resolveActor user).username ++ " updated progress on \"" ++ taskMeta.title ++
      "\" to " ++ status ++ ".")
    [("action", .string "progress"), ("status", .string status)] x hx hfail
  simp only [hr]
  exact ⟨trivial, ht, hp⟩

/-- An update whose fan-out is rejected: the task row is updated and the
request is answered 500. -/
theorem updateTask_notification_failure (env : Env) (s : Store) (user : AuthUser)
    (T : Int) (body : UpdateBody) (t : TaskRecord) (rest : List TaskRecord)
    (access : TaskPayload) (taskMeta : TaskMeta) (x : Int)
    (hts : s.tasks.filter (fun t => t.id == T) = t :: rest)
    (hacc : loadTaskForViewer s T user.id = some access)
    (hedit : access.permissions.canEdit = true)
    (htitle : body.title = .undefined ∨ checkTitle body.title = .accepted)
    (hstatus : body.status = .undefined ∨ isValidStatus body.status = true)
    (hsome : ¬ (body.title = .undefined ∧ body.description = .undefined
      ∧ body.status = .undefined ∧ body.due_date = .undefined))
    (hmeta : getTaskMeta (updateWrite s T body) T = some taskMeta)
    (hx : isRecipient taskMeta user.id x) (hfail : env.notificationInsertFails x = true) :
    (updateTask env s user (some T) body).2 = .response 500 (.error "Failed to update task")
    ∧ (updateTask env s user (some T) body).1.tasks = (updateWrite s T body).tasks
    ∧ (updateTask env s user (some T) body).1.participants = s.participants := by
  have h1 : ¬ (body.title ≠ .undefined ∧ checkTitle body.title = .rejected) := by
    rintro ⟨hne, hrej⟩
    rcases htitle with h | h
    · exact hne h
    · rw [h] at hrej; cases hrej
  have h2 : ¬ (body.title ≠ .undefined ∧ checkTitle body.title = .throws) := by
    rintro ⟨hne, hthr⟩
    rcases htitle with h | h
    · exact hne h
    · rw [h] at hthr; cases hthr
  have h3 : ¬ (body.status ≠ .undefined ∧ isValidStatus body.status = false) := by
    rintro ⟨hne, hinv⟩
    rcases hstatus with h | h
    · exact hne h
    · rw [h] at hinv; cases hinv
  have hw : ({ s with tasks := s.tasks.map fun t =>
      if t.id = T then applyUpdates body t else t } : Store) = updateWrite s T body := rfl
  simp only [updateTask, hts, hacc, hedit, Bool.not_true, Bool.false_eq_true, if_false, h1, h2,
    h3, hsome, hw, hmeta]
  generalize hs1 : updateWrite s T body = s1
  have hp1 : s1.participants = s.participants := by rw [← hs1]; rfl
  generalize (Metadata.spread [("action", MetaValue.string "update")]
    (match body.status with
      | .string status => [("status", MetaValue.string status)]
      | _ => [])) = md
  obtain ⟨-, ht, hp⟩ := notifyTaskParticipants_frame env s1 taskMeta none (resolveActor user)
    "task_updated" "Task updated"
    ((resolveActor user).username ++ " updated \"" ++ taskMeta.title ++ "\".") md
  have hr := notifyTaskParticipants_error env s1 taskMeta none (resolveActor user)
    "task_updated" "Task updated"
    ((resolveActor user).username ++ " updated \"" ++ taskMeta.title ++ "\".") md x hx hfail
  simp only [hr]
  exact ⟨trivial, ht, hp.trans hp1⟩

/-- C12, as the claim states it, fails: when the storage rejects the
notification inserts, alice's progress update of task 10 (shared with bob)
writes the new status and is answered 500; her update of the title writes the
title and is answered 500; her share with carol writes the participation row
and is answered 500. -/
theorem notification_failure_answers_500 :
    ((updateProgress failingEnv (sharedStore "limited") alice (some 10)
        (.string "Completed")).2 = .response 500 (.error "Failed to update task progress")
      ∧ (updateProgress failingEnv (sharedStore "limited") alice (some 10)
        (.string "Completed")).1.tasks.map (·.status) = ["Completed"])
    ∧ ((updateTask failingEnv (sharedStore "limited") alice (some 10)
        { title := .string "New", description := .undefined, status := .undefined,
          due_date := .undefined }).2 = .response 500 (.error "Failed to update task")
      ∧ (updateTask failingEnv (sharedStore "limited") alice (some 10)
        { title := .string "New", description := .undefined, status := .undefined,
          due_date := .undefined }).1.tasks.map (·.title) = ["New"])
    ∧ ((shareTask failingEnv (sharedStore "limited") alice (some 10) (shareWith "carol")).2
        = .response 500 (.error "Failed to share task")
      ∧ (shareTask failingEnv (sharedStore "limited") alice (some 10)
        (shareWith "carol")).1.participants.map (·.user_id) = [2, 3]) := by
  decide

/-- C12, amended: for `shareTask`, `updateProgress` and `updateTask`, whenever
the request passes its checks, so that the primary write is done, and the
storage rejects the notification insert that follows (for the target of a
share; for one of the recipients of the fan-out otherwise), the write stays in
the store and the operation answers its caller with status 500. -/
theorem notification_failure_is_reported :
    (∀ (env : Env) (s : Store) (user : AuthUser) (T : Int) (body : ShareBody) (raw : String)
        (t : TaskRecord) (rest : List TaskRecord) (target : UserRow),
        shareLookupValue body = .string raw → jsTrim raw ≠ "" →
        s.tasks.filter (fun t => t.id == T) = t :: rest → t.user_id = user.id →
        findUser env s (jsTrim raw) = some target → target.id ≠ user.id →
        s.participants.filter (fun p => p.task_id == T && p.user_id == target.id) = [] →
        env.notificationInsertFails target.id = true →
        shareTask env s user (some T) body
          = (shareWrite s T target.id user.id (normalizeAccessLevel body.accessLevel),
              .response 500 (.error "Failed to share task")))
    ∧ (∀ (env : Env) (s : Store) (user : AuthUser) (T : Int) (status : String)
        (t : TaskRecord) (rest : List TaskRecord) (access : TaskPayload)
        (taskMeta : TaskMeta) (x : Int),
        status ∈ VALID_STATUSES →
        s.tasks.filter (fun t => t.id == T) = t :: rest →
        loadTaskForViewer s T user.id = some access →
        access.permissions.canUpdateProgress = true →
        getTaskMeta (progressWrite s T user.id status (access.owner.id == user.id)) T
          = some taskMeta →
        isRecipient taskMeta user.id x → env.notificationInsertFails x = true →
        (updateProgress env s user (some T) (.string status)).2
          = .response 500 (.error "Failed to update task progress")
        ∧ (updateProgress env s user (some T) (.string status)).1.tasks
          = (progressWrite s T user.id status (access.owner.id == user.id)).tasks
        ∧ (updateProgress env s user (some T) (.string status)).1.participants
          = (progressWrite s T user.id status (access.owner.id == user.id)).participants)
    ∧ (∀ (env : Env) (s : Store) (user : AuthUser) (T : Int) (body : UpdateBody)
        (t : TaskRecord) (rest : List TaskRecord) (access : TaskPayload)
        (taskMeta : TaskMeta) (x : Int),
        s.tasks.filter (fun t => t.id == T) = t :: rest →
        loadTaskForViewer s T user.id = some access →
        access.permissions.canEdit = true →
        (body.title = .undefined ∨ checkTitle body.title = .accepted) →
        (body.status = .undefined ∨ isValidStatus body.status = true) →
        ¬ (body.title = .undefined ∧ body.description = .undefined
          ∧ body.status = .undefined ∧ body.due_date = .undefined) →
        getTaskMeta (updateWrite s T body) T = some taskMeta →
        isRecipient taskMeta user.id x → env.notificationInsertFails x = true →
        (updateTask env s user (some T) body).2
          = .response 500 (.error "Failed to update task")
        ∧ (updateTask env s user (some T) body).1.tasks = (updateWrite s T body).tasks
        ∧ (updateTask env s user (some T) body).1.participants = s.participants) :=
  ⟨shareTask_notification_failure, updateProgress_notification_failure,
    updateTask_notification_failure⟩

/-! ## Validation of an update -/

/-- The validation of an update whose title is absent or a string. -/
theorem updateTask_rejects_string_title (env : Env) (s : Store) (user : AuthUser) (T : Int)
    (body : UpdateBody) (t : TaskRecord) (rest : List TaskRecord) (access : TaskPayload)
    (hts : s.tasks.filter (fun t => t.id == T) = t :: rest)
    (hacc : loadTaskForViewer s T user.id = some access)
    (hedit : access.permissions.canEdit = true)
    (hstr : body.title = .undefined ∨ ∃ x, body.title = .string x)
    (hbad : isBlankString body.title = true
      ∨ (body.status ≠ .undefined ∧ isValidStatus body.status = false)
      ∨ (body.title = .undefined ∧ body.description = .undefined
          ∧ body.status = .undefined ∧ body.due_date = .undefined)) :
    updateTask env s user (some T) body
      = (s, .response 400 (.error
          (if isBlankString body.title = true then "Title cannot be empty"
           else if body.status ≠ .undefined ∧ isValidStatus body.status = false then
             "Invalid status value"
           else "No updates provided"))) := by
  simp only [updateTask, hts, hacc, hedit, Bool.not_true, Bool.false_eq_true, if_false]
  rcases hstr with hu | ⟨x, hx⟩
  · have hno : ¬ isBlankString body.title = true := by simp [hu, isBlankString]
    simp only [hu, ne_eq, not_true_eq_false, false_and, if_false]
    have hno' : ¬ isBlankString JsValue.undefined = true := by simp [isBlankString]
    by_cases hst : body.status ≠ .undefined ∧ isValidStatus body.status = false
    · simp only [ne_eq] at hst
      simp [hst, hno']
    · have hall : body.description = .undefined ∧ body.status = .undefined
          ∧ body.due_date = .undefined := by
        rcases hbad with h | h | h
        · exact absurd h hno
        · exact absurd h hst
        · exact h.2
      simp only [ne_eq] at hst
      simp [hst, hall, hno']
  · by_cases hb : jsTrim x = ""
    · simp [hx, checkTitle, isBlankString, hb]
    · have hst : body.status ≠ .undefined ∧ isValidStatus body.status = false := by
        rcases hbad with h | h | h
        · simp [hx, isBlankString, hb] at h
        · exact h
        · rw [hx] at h; cases h.1
      simp only [ne_eq] at hst
      simp [hx, checkTitle, isBlankString, hb, hst]

/-- C13, as the claim states it, fails: alice, owner of task 10, supplies the
title `5`, which is not a string, and the status `Done`, which is not a valid
status; the route throws on `title.trim()` inside its `try` block and answers
500, not a validation error. -/
theorem updateTask_number_title_answers_500 :
    isValidStatus (.string "Done") = false
    ∧ updateTask sampleEnv sampleStore alice (some 10)
        { title := .number 5, description := .undefined, status := .string "Done",
          due_date := .undefined }
      = (sampleStore, .response 500 (.error "Failed to update task")) := by
  decide

/-- C13, amended: for an existing task and a viewer with `canEdit`, an update
whose title is absent or a string is answered 400 (validation error) when the
supplied title is empty after trimming, when the supplied status is not one of
Pending / In Progress / Completed, or when none of title, description, status
and due_date is supplied; a supplied title that is not a string is answered
400 `Title cannot be empty` when it is falsy and 500 when it is truthy,
whatever the status.  In each case the store is returned as it was, so no
`UPDATE` is issued and no notification is created. -/
theorem updateTask_validation (env : Env) (s : Store) (user : AuthUser) (T : Int)
    (body : UpdateBody) (t : TaskRecord) (rest : List TaskRecord) (access : TaskPayload)
    (hts : s.tasks.filter (fun t => t.id == T) = t :: rest)
    (hacc : loadTaskForViewer s T user.id = some access)
    (hedit : access.permissions.canEdit = true) :
    ((body.title = .undefined ∨ ∃ x, body.title = .string x) →
      (isBlankString body.title = true
        ∨ (body.status ≠ .undefined ∧ isValidStatus body.status = false)
        ∨ (body.title = .undefined ∧ body.description = .undefined
            ∧ body.status = .undefined ∧ body.due_date = .undefined)) →
      updateTask env s user (some T) body
        = (s, .response 400 (.error
            (if isBlankString body.title = true then "Title cannot be empty"
             else if body.status ≠ .undefined ∧ isValidStatus body.status = false then
               "Invalid status value"
             else "No updates provided"))))
    ∧ (body.title ≠ .undefined → (∀ x, body.title ≠ .string x) →
        body.title.truthy = false →
        updateTask env s user (some T) body
          = (s, .response 400 (.error "Title cannot be empty")))
    ∧ ((∀ x, body.title ≠ .string x) → body.title.truthy = true →
        updateTask env s user (some T) body
          = (s, .response 500 (.error "Failed to update task"))) := by
  refine ⟨fun hstr hbad =>
    updateTask_rejects_string_title env s user T body t rest access hts hacc hedit hstr hbad,
    ?_, ?_⟩
  · intro hu hns hfalsy
    have hck : checkTitle body.title = .rejected := by
      cases hbt : body.title with
      | string x => exact absurd hbt (hns x)
      | undefined => exact absurd hbt hu
      | null => rfl
      | bool b => rw [hbt] at hfalsy; simp [checkTitle, hfalsy]
      | number n => rw [hbt] at hfalsy; simp [checkTitle, hfalsy]
      | other => rw [hbt] at hfalsy; simp [checkTitle, hfalsy]
    simp [updateTask, hts, hacc, hedit, hu, hck]
  · intro hns htruthy
    have hu : body.title ≠ .undefined := by
      intro h
      rw [h] at htruthy
      simp [JsValue.truthy] at htruthy
    have hck : checkTitle body.title = .throws := by
      cases hbt : body.title with
      | string x => exact absurd hbt (hns x)
      | undefined => exact absurd hbt hu
      | null => rw [hbt] at htruthy; simp [JsValue.truthy] at htruthy
      | bool b => rw [hbt] at htruthy; simp [checkTitle, htruthy]
      | number n => rw [hbt] at htruthy; simp [checkTitle, htruthy]
      | other => rw [hbt] at htruthy; simp [checkTitle, htruthy]
    simp [updateTask, hts, hacc, hedit, hu, hck]

/-- C13 at concrete inputs: alice, owner of task 10, sends a blank title, an
unknown status, an empty update, and the title `5` with an unknown status. -/
theorem updateTask_validation_witness :
    updateTask sampleEnv sampleStore alice (some 10)
        { title := .string "  ", description := .undefined, status := .undefined,
          due_date := .undefined }
      = (sampleStore, .response 400 (.error "Title cannot be empty"))
    ∧ updateTask sampleEnv sampleStore alice (some 10)
        { title := .undefined, description := .undefined, status := .string "Done",
          due_date := .undefined }
      = (sampleStore, .response 400 (.error "Invalid status value"))
    ∧ updateTask sampleEnv sampleStore alice (some 10)
        { title := .undefined, description := .undefined, status := .undefined,
          due_date := .undefined }
      = (sampleStore, .response 400 (.error "No updates provided"))
    ∧ updateTask sampleEnv sampleStore alice (some 10)
        { title := .null, description := .undefined, status := .string "Done",
          due_date := .undefined }
      = (sampleStore, .response 400 (.error "Title cannot be empty"))
    ∧ updateTask sampleEnv sampleStore alice (some 10)
        { title := .number 5, description := .undefined, status := .string "Done",
          due_date := .undefined }
      = (sampleStore, .response 500 (.error "Failed to update task")) :=
  ⟨(updateTask_validation sampleEnv sampleStore alice 10 _ sampleTask []
      ((loadTaskForViewer sampleStore 10 1).getD
        (buildTaskPayload (sampleRow none none) (fun _ => none) 1))
      (by decide) (by decide) (by decide)).1 (Or.inr ⟨"  ", rfl⟩)
      (Or.inl (by decide)),
   (updateTask_validation sampleEnv sampleStore alice 10 _ sampleTask []
      ((loadTaskForViewer sampleStore 10 1).getD
        (buildTaskPayload (sampleRow none none) (fun _ => none) 1))
      (by decide) (by decide) (by decide)).1 (Or.inl rfl)
      (Or.inr (Or.inl ⟨by decide, by decide⟩)),
   (updateTask_validation sampleEnv sampleStore alice 10 _ sampleTask []
      ((loadTaskForViewer sampleStore 10 1).getD
        (buildTaskPayload (sampleRow none none) (fun _ => none) 1))
      (by decide) (by decide) (by decide)).1 (Or.inl rfl)
      (Or.inr (Or.inr ⟨rfl, rfl, rfl, rfl⟩)),
   (updateTask_validation sampleEnv sampleStore alice 10 _ sampleTask []
      ((loadTaskForViewer sampleStore 10 1).getD
        (buildTaskPayload (sampleRow none none) (fun _ => none) 1))
      (by decide) (by decide) (by decide)).2.1 (by decide) (fun x => by simp) (by decide),
   (updateTask_validation sampleEnv sampleStore alice 10 _ sampleTask []
      ((loadTaskForViewer sampleStore 10 1).getD
        (buildTaskPayload (sampleRow none none) (fun _ => none) 1))
      (by decide) (by decide) (by decide)).2.2 (fun x => by simp) (by decide)⟩

/-! ## Creating a task -/

/-- What `createTask` does with a string title that is not blank: it appends
one task row, with the trimmed title and the normalised status, owned by the
requester, and answers 201. -/
theorem createTask_accepted (env : Env) (s : Store) (user : AuthUser) (body : CreateBody)
    (title : String) (htitle : body.title = .string title) (hnb : jsTrim title ≠ "") :
    ∃ record : TaskRecord,
      (createTask env s user body).1.tasks = s.tasks ++ [record]
      ∧ record.id = s.nextTaskId
      ∧ record.title = jsTrim title
      ∧ record.status = normalizeStatus body.status "Pending"
      ∧ record.user_id = user.id
      ∧ (createTask env s user body).2
        = .response 201 (.task (loadTaskForViewer (createTask env s user body).1
            s.nextTaskId user.id)) := by
  refine ⟨{ id := s.nextTaskId, title := jsTrim title,
            description := if body.description.truthy then body.description else .null,
            status := normalizeStatus body.status "Pending",
            due_date := if body.due_date.truthy then body.due_date else .null,
            created_at := env.now, updated_at := env.now, user_id := user.id },
    ?_, rfl, rfl, rfl, rfl, ?_⟩ <;> simp [createTask, htitle, hnb]

/-- C14, as the claim states it, fails: a create request with the status
`Done`, which is outside the three values, is answered 201 and a task with
status Pending is stored. -/
theorem createTask_unknown_status_is_stored_pending :
    isValidStatus (.string "Done") = false
    ∧ (createTask sampleEnv sampleStore alice
          { title := .string "Report", description := .undefined, status := .string "Done",
            due_date := .undefined }).2
        = .response 201 (.task (loadTaskForViewer
            (createTask sampleEnv sampleStore alice
              { title := .string "Report", description := .undefined,
                status := .string "Done", due_date := .undefined }).1 11 1))
    ∧ (createTask sampleEnv sampleStore alice
          { title := .string "Report", description := .undefined, status := .string "Done",
            due_date := .undefined }).1.tasks.map (fun t => (t.id, t.status))
        = [(10, "Pending"), (11, "Pending")] := by
  decide

/-- C14, amended: for a title that is accepted, `createTask` stores status
Pending when no status is supplied; a supplied status never makes it fail: it
stores the trimmed status when the status is a string that is, after trimming,
one of Pending / In Progress / Completed, and Pending for every other supplied
status; in every case one task is created and the answer is 201. -/
theorem createTask_status (env : Env) (s : Store) (user : AuthUser) (title : String)
    (description status due_date : JsValue) (hnb : jsTrim title ≠ "") :
    ∃ record : TaskRecord,
      (createTask env s user
        { title := .string title, description := description, status := status,
          due_date := due_date }).1.tasks = s.tasks ++ [record]
      ∧ record.status
        = (match status with
            | .string st => if jsTrim st ∈ VALID_STATUSES then jsTrim st else "Pending"
            | _ => "Pending")
      ∧ (status = .undefined → record.status = "Pending")
      ∧ ∃ p, (createTask env s user
        { title := .string title, description := description, status := status,
          due_date := due_date }).2 = .response 201 (.task p) := by
  obtain ⟨record, htasks, -, -, hst, -, hres⟩ := createTask_accepted env s user
    { title := .string title, description := description, status := status,
      due_date := due_date } title rfl hnb
  refine ⟨record, htasks, ?_, ?_, ⟨_, hres⟩⟩
  · rw [hst]
    cases status <;> rfl
  · intro h
    rw [hst]
    dsimp only
    rw [h]
    rfl

/-- C14, amended, at a concrete input: alice creates a task with status
` Completed `. -/
theorem createTask_status_witness :
    ∃ record : TaskRecord,
      (createTask sampleEnv sampleStore alice
        { title := .string "Report", description := .undefined,
          status := .string " Completed ", due_date := .undefined }).1.tasks
        = sampleStore.tasks ++ [record]
      ∧ record.status
        = (match JsValue.string " Completed " with
            | .string st => if jsTrim st ∈ VALID_STATUSES then jsTrim st else "Pending"
            | _ => "Pending")
      ∧ (JsValue.string " Completed " = .undefined → record.status = "Pending")
      ∧ ∃ p, (createTask sampleEnv sampleStore alice
        { title := .string "Report", description := .undefined,
          status := .string " Completed ", due_date := .undefined }).2
          = .response 201 (.task p) :=
  createTask_status sampleEnv sampleStore alice "Report" .undefined (.string " Completed ")
    .undefined (by decide)

/-- C15: for every string title, `createTask` answers 400 (validation error,
"Title is required") iff the title is empty after trimming, and then the store
is unchanged; otherwise it answers 201 and appends one task row whose title is
the trimmed title. -/
theorem createTask_title (env : Env) (s : Store) (user : AuthUser) (title : String)
    (description status due_date : JsValue) :
    ((createTask env s user
        { title := .string title, description := description, status := status,
          due_date := due_date }).2 = .response 400 (.error "Title is required")
      ↔ jsTrim title = "")
    ∧ (jsTrim title = "" →
        (createTask env s user
          { title := .string title, description := description, status := status,
            due_date := due_date }).1 = s)
    ∧ (jsTrim title ≠ "" →
        ∃ record : TaskRecord,
          (createTask env s user
            { title := .string title, description := description, status := status,
              due_date := due_date }).1.tasks = s.tasks ++ [record]
          ∧ record.title = jsTrim title
          ∧ ∃ p, (createTask env s user
            { title := .string title, description := description, status := status,
              due_date := due_date }).2 = .response 201 (.task p)) := by
  by_cases hb : jsTrim title = ""
  · refine ⟨?_, ?_, fun h => absurd hb h⟩
    · simp [createTask, hb]
    · intro _
      simp [createTask, hb]
  · obtain ⟨record, htasks, -, htitle, -, -, hres⟩ := createTask_accepted env s user
      { title := .string title, description := description, status := status,
        due_date := due_date } title rfl hb
    refine ⟨?_, fun h => absurd h hb, fun _ => ⟨record, htasks, htitle, _, hres⟩⟩
    rw [hres]
    simp [hb]

/-! ## What a progress update writes -/

theorem taskRowsOf_user_id (s : Store) (viewerId : Int) (t : TaskRecord) :
    ∀ r ∈ taskRowsOf s viewerId t, r.user_id = t.user_id := by
  intro r hr
  simp only [taskRowsOf, List.mem_flatMap] at hr
  obtain ⟨owner, -, hr⟩ := hr
  split at hr
  · split at hr
    · simp only [List.mem_singleton] at hr
      rw [hr]
      rfl
    · simp at hr
  · simp only [List.mem_map] at hr
    obtain ⟨vp, -, rfl⟩ := hr
    rfl

/-- The owner named in a loaded payload is the owner of a task row with the
requested id. -/
theorem loadTaskForViewer_owner_id (s : Store) (T v : Int) (access : TaskPayload)
    (h : loadTaskForViewer s T v = some access) :
    ∃ t ∈ s.tasks, t.id = T ∧ access.owner.id = t.user_id := by
  have hmem : access ∈ loadTasksForViewer s v (some [T]) := by
    simp only [loadTaskForViewer] at h
    exact List.mem_of_mem_head? (by rw [h]; exact rfl)
  simp only [loadTasksForViewer] at hmem
  split at hmem
  · simp at hmem
  · simp only [List.mem_map] at hmem
    obtain ⟨row, hrow, rfl⟩ := hmem
    simp only [loadTaskRows] at hrow
    have hrow2 := (List.perm_insertionSort _ _).mem_iff.1 hrow
    obtain ⟨hrow3, hid⟩ := List.mem_filter.1 hrow2
    obtain ⟨t, ht, hrt⟩ := List.mem_flatMap.1 hrow3
    refine ⟨t, ht, ?_, ?_⟩
    · rw [← taskRowsOf_id s v t row hrt]
      simpa using hid
    · exact taskRowsOf_user_id s v t row hrt

/-- The rows that a progress update leaves in the store are those of its
status write, whatever becomes of the notifications. -/
theorem updateProgress_store (env : Env) (s : Store) (user : AuthUser) (T : Int)
    (status : String) (t : TaskRecord) (rest : List TaskRecord) (access : TaskPayload)
    (hvalid : status ∈ VALID_STATUSES)
    (hts : s.tasks.filter (fun t => t.id == T) = t :: rest)
    (hacc : loadTaskForViewer s T user.id = some access)
    (hperm : access.permissions.canUpdateProgress = true) :
    (updateProgress env s user (some T) (.string status)).1.users = s.users
    ∧ (updateProgress env s user (some T) (.string status)).1.tasks
      = (progressWrite s T user.id status (access.owner.id == user.id)).tasks
    ∧ (updateProgress env s user (some T) (.string status)).1.participants
      = (progressWrite s T user.id status (access.owner.id == user.id)).participants := by
  have hw : (if access.owner.id = user.id then
        ({ s with tasks := s.tasks.map fun t =>
            if t.id = T then { t with status := status } else t } : Store)
      else
        { s with participants := s.participants.map fun p =>
            if p.task_id = T ∧ p.user_id = user.id then { p with status := status } else p })
      = progressWrite s T user.id status (access.owner.id == user.id) := by
    unfold progressWrite
    by_cases h : access.owner.id = user.id <;> simp [h]
  have husers : (progressWrite s T user.id status (access.owner.id == user.id)).users
      = s.users := by
    unfold progressWrite
    split <;> rfl
  simp only [updateProgress, hvalid, not_true_eq_false, if_false, hts, hacc, hperm,
    Bool.not_true, Bool.false_eq_true, hw]
  generalize progressWrite s T user.id status (access.owner.id == user.id) = s1 at husers ⊢
  cases hm : getTaskMeta s1 T with
  | none => exact ⟨husers, rfl, rfl⟩
  | some taskMeta =>
    simp only []
    obtain ⟨hu, ht, hp⟩ := notifyTaskParticipants_frame env s1 taskMeta none (resolveActor user)
      "task_progress" "Progress updated"
      ((resolveActor user).username ++ " updated progress on \"" ++ taskMeta.title ++
        "\" to " ++ status ++ ".")
      [("action", .string "progress"), ("status", .string status)]
    split
    · exact ⟨hu.trans husers, ht, hp⟩
    · exact ⟨hu.trans husers, ht, hp⟩

/-- C16: for a valid status and a viewer with `canUpdateProgress` on an
existing task (the payload's owner is the owner of a task row with that id):
if the viewer is the owner, `updateProgress` sets the status of the task and
leaves every participation row as it was; otherwise it leaves every task row
as it was and sets the status of the participation rows of (task, viewer)
only, every other participation row being unchanged. -/
theorem updateProgress_writes (env : Env) (s : Store) (user : AuthUser) (T : Int)
    (status : String) (t : TaskRecord) (rest : List TaskRecord) (access : TaskPayload)
    (hvalid : status ∈ VALID_STATUSES)
    (hts : s.tasks.filter (fun t => t.id == T) = t :: rest)
    (hacc : loadTaskForViewer s T user.id = some access)
    (hperm : access.permissions.canUpdateProgress = true) :
    (∃ task ∈ s.tasks, task.id = T ∧ access.owner.id = task.user_id)
    ∧ (access.owner.id = user.id →
        (updateProgress env s user (some T) (.string status)).1.tasks
          = s.tasks.map (fun x => if x.id = T then { x with status := status } else x)
        ∧ (updateProgress env s user (some T) (.string status)).1.participants
          = s.participants)
    ∧ (access.owner.id ≠ user.id →
        (updateProgress env s user (some T) (.string status)).1.tasks = s.tasks
        ∧ (updateProgress env s user (some T) (.string status)).1.participants
          = s.participants.map (fun p =>
              if p.task_id = T ∧ p.user_id = user.id then { p with status := status }
              else p)) := by
  obtain ⟨-, ht, hp⟩ := updateProgress_store env s user T status t rest access hvalid hts
    hacc hperm
  refine ⟨loadTaskForViewer_owner_id s T user.id access hacc, ?_, ?_⟩
  · intro ho
    have hb : (access.owner.id == user.id) = true := by simpa using ho
    rw [ht, hp, hb]
    exact ⟨rfl, rfl⟩
  · intro ho
    have hb : (access.owner.id == user.id) = false := by simpa using ho
    rw [ht, hp, hb]
    exact ⟨rfl, rfl⟩

/-- C16 at concrete inputs: on task 10 of alice shared with bob, bob reports
Completed (his participation row changes, the task row does not), and alice
reports In Progress (the task row changes, bob's row does not). -/
theorem updateProgress_writes_witness :
    ((updateProgress sampleEnv (sharedStore "limited") bob (some 10)
        (.string "Completed")).1.tasks = (sharedStore "limited").tasks
      ∧ (updateProgress sampleEnv (sharedStore "limited") bob (some 10)
        (.string "Completed")).1.participants.map (fun p => (p.user_id, p.status))
        = [(2, "Completed")])
    ∧ ((updateProgress sampleEnv (sharedStore "limited") alice (some 10)
        (.string "In Progress")).1.tasks.map (fun x => (x.id, x.status))
        = [(10, "In Progress")]
      ∧ (updateProgress sampleEnv (sharedStore "limited") alice (some 10)
        (.string "In Progress")).1.participants = (sharedStore "limited").participants) := by
  have hb := (updateProgress_writes sampleEnv (sharedStore "limited") bob 10 "Completed"
    sampleTask []
    ((loadTaskForViewer (sharedStore "limited") 10 2).getD
      (buildTaskPayload (sampleRow none none) (fun _ => none) 2))
    (by decide) (by decide) (by decide) (by decide)).2.2 (by decide)
  have ha := (updateProgress_writes sampleEnv (sharedStore "limited") alice 10 "In Progress"
    sampleTask []
    ((loadTaskForViewer (sharedStore "limited") 10 1).getD
      (buildTaskPayload (sampleRow none none) (fun _ => none) 1))
    (by decide) (by decide) (by decide) (by decide)).2.1 (by decide)
  refine ⟨⟨hb.1, ?_⟩, ⟨?_, ha.2⟩⟩
  · rw [hb.2]; decide
  · rw [ha.1]; decide

/-! ## The access level of a share -/

/-- C17: the normalised access level is always `full` or `limited`; it is the
lower-cased input when the input is a string that lower-cases to `full` or to
`limited`, and `limited` for every other input: an absent value, a value that
is not a string, or any other string. -/
theorem normalizeAccessLevel_spec (accessLevel : JsValue) :
    (normalizeAccessLevel accessLevel = "full" ∨ normalizeAccessLevel accessLevel = "limited")
    ∧ (∀ a : String, accessLevel = .string a →
        (toLowerCase a = "full" ∨ toLowerCase a = "limited") →
        normalizeAccessLevel accessLevel = toLowerCase a)
    ∧ (∀ a : String, accessLevel = .string a →
        ¬ (toLowerCase a = "full" ∨ toLowerCase a = "limited") →
        normalizeAccessLevel accessLevel = "limited")
    ∧ ((∀ a : String, accessLevel ≠ .string a) →
        normalizeAccessLevel accessLevel = "limited") := by
  have hmem : ∀ x : String, x ∈ VALID_ACCESS_LEVELS ↔ (x = "full" ∨ x = "limited") := by
    intro x
    simp [VALID_ACCESS_LEVELS]
  refine ⟨?_, ?_, ?_, ?_⟩
  · cases accessLevel with
    | string a =>
      simp only [normalizeAccessLevel]
      split
      · rename_i h
        exact (hmem _).1 h
      · exact Or.inr rfl
    | _ => exact Or.inr rfl
  · intro a ha h
    subst ha
    simp only [normalizeAccessLevel, (hmem _).2 h, if_true]
  · intro a ha h
    subst ha
    have : ¬ toLowerCase a ∈ VALID_ACCESS_LEVELS := fun hm => h ((hmem _).1 hm)
    simp only [normalizeAccessLevel, this, if_false]
  · intro h
    cases accessLevel with
    | string a => exact absurd rfl (h a)
    | _ => rfl

/-! ## What a successful share writes -/

theorem createNotification_notifications (env : Env) (s : Store) (args : NotificationArgs)
    (h : env.notificationInsertFails args.userId = false) :
    (createNotification env s args).1.notifications
      = s.notifications ++
          [{ id := s.nextNotificationId, user_id := args.userId, task_id := args.taskId,
             type := args.type, title := args.title, message := args.message,
             metadata := args.metadata, is_read := false, created_at := env.now }] := by
  simp only [createNotification, h, emitToUser]
  by_cases hio : s.ioInstance = true <;> simp [hio]

/-- C18: a share that is answered 201 was made by the owner of the task and
named a target user; it appends exactly one participation row, for (task,
target), with status Pending, the normalised access level and `invited_by`
the sharing owner, and exactly one notification, of type `task_shared`,
addressed to the target; users and tasks are unchanged. -/
theorem shareTask_success_effect (env : Env) (s : Store) (user : AuthUser) (T : Int)
    (body : ShareBody) (payload : Body)
    (hsucc : (shareTask env s user (some T) body).2 = .response 201 payload) :
    ∃ (raw : String) (taskRow : TaskRecord) (rest : List TaskRecord) (target : UserRow)
      (n : NotificationRow),
      shareLookupValue body = .string raw
      ∧ findUser env s (jsTrim raw) = some target
      ∧ s.tasks.filter (fun t => t.id == T) = taskRow :: rest
      ∧ taskRow.user_id = user.id
      ∧ (shareTask env s user (some T) body).1.participants
          = s.participants ++
              [{ id := s.nextParticipationId, task_id := T, user_id := target.id,
                 access_level := normalizeAccessLevel body.accessLevel, status := "Pending",
                 invited_by := user.id }]
      ∧ (shareTask env s user (some T) body).1.notifications = s.notifications ++ [n]
      ∧ n.user_id = target.id ∧ n.type = "task_shared" ∧ n.task_id = some T
      ∧ n.is_read = false
      ∧ (shareTask env s user (some T) body).1.users = s.users
      ∧ (shareTask env s user (some T) body).1.tasks = s.tasks := by
  obtain ⟨raw, taskRow, rest, target, hl, hb, hts, ho, hf, hs, hex, hp, hu, ht⟩ :=
    shareTask_success_inv env s user T body payload hsucc
  by_cases hfail : env.notificationInsertFails target.id = true
  · have h500 := shareTask_notification_failure env s user T body raw taskRow rest target
      hl hb hts ho hf hs hex hfail
    rw [h500] at hsucc
    cases hsucc
  · have hfail' : env.notificationInsertFails target.id = false := by simpa using hfail
    have hn : ∃ n : NotificationRow,
        (shareTask env s user (some T) body).1.notifications = s.notifications ++ [n]
        ∧ n.user_id = target.id ∧ n.type = "task_shared" ∧ n.task_id = some T
        ∧ n.is_read = false := by
      simp only [shareTask, hl, hb, hts, ho, hf, hs, hex, if_false, ne_eq,
        not_true_eq_false, List.length_nil, gt_iff_lt, Nat.lt_irrefl]
      split <;>
        (rw [createNotification_notifications env _ _ hfail']
         exact ⟨_, rfl, rfl, rfl, rfl, rfl⟩)
    obtain ⟨n, hn1, hn2, hn3, hn4, hn5⟩ := hn
    exact ⟨raw, taskRow, rest, target, n, hl, hf, hts, ho, hp, hn1, hn2, hn3, hn4, hn5, hu, ht⟩

/-- C18 at a concrete input: alice shares task 10 with bob at `full`. -/
theorem shareTask_success_effect_witness :
    ∃ (raw : String) (taskRow : TaskRecord) (rest : List TaskRecord) (target : UserRow)
      (n : NotificationRow),
      shareLookupValue { email := .undefined, identifier := .string "bob",
                         accessLevel := .string "FULL" } = .string raw
      ∧ findUser sampleEnv sampleStore (jsTrim raw) = some target
      ∧ sampleStore.tasks.filter (fun t => t.id == 10) = taskRow :: rest
      ∧ taskRow.user_id = alice.id
      ∧ (shareTask sampleEnv sampleStore alice (some 10)
          { email := .undefined, identifier := .string "bob",
            accessLevel := .string "FULL" }).1.participants
          = sampleStore.participants ++
              [{ id := sampleStore.nextParticipationId, task_id := 10, user_id := target.id,
                 access_level := normalizeAccessLevel (.string "FULL"), status := "Pending",
                 invited_by := alice.id }]
      ∧ (shareTask sampleEnv sampleStore alice (some 10)
          { email := .undefined, identifier := .string "bob",
            accessLevel := .string "FULL" }).1.notifications = sampleStore.notifications ++ [n]
      ∧ n.user_id = target.id ∧ n.type = "task_shared" ∧ n.task_id = some 10
      ∧ n.is_read = false
      ∧ (shareTask sampleEnv sampleStore alice (some 10)
          { email := .undefined, identifier := .string "bob",
            accessLevel := .string "FULL" }).1.users = sampleStore.users
      ∧ (shareTask sampleEnv sampleStore alice (some 10)
          { email := .undefined, identifier := .string "bob",
            accessLevel := .string "FULL" }).1.tasks = sampleStore.tasks :=
  shareTask_success_effect sampleEnv sampleStore alice 10
    { email := .undefined, identifier := .string "bob", accessLevel := .string "FULL" }
    (.task (loadTaskForViewer (shareTask sampleEnv sampleStore alice (some 10)
      { email := .undefined, identifier := .string "bob",
        accessLevel := .string "FULL" }).1 10 1))
    (by decide)

/-! ## Share and delete rights -/

/-- C19, as the claim states it, fails: bob takes part in alice's task 10 at
access level `full`; he is not the owner, his payload has `canShare = false`
but `canDelete = true`, and his `deleteTask` is answered 200 and removes the
task. -/
theorem deleteTask_by_full_participant :
    (loadTaskForViewer (sharedStore "full") 10 2).map
        (fun p => (p.isOwner, p.permissions.canShare, p.permissions.canDelete))
      = some (false, false, true)
    ∧ deleteTask (sharedStore "full") bob (some 10)
      = (deleteCascade (sharedStore "full") 10,
          .response 200 (.message "Task deleted successfully"))
    ∧ (deleteTask (sharedStore "full") bob (some 10)).1.tasks = [] := by
  decide

/-- C19, amended: the owner is the sole holder of share rights, and delete
rights are held by the owner and by the viewers whose access level is `full`.
For every viewer who is not the task's owner the payload has
`canShare = false`, and `canDelete` iff `viewerAccessLevel` is `full`;
`shareTask` by that viewer, with a non-blank identifier, is answered 403 and
leaves the store unchanged; `deleteTask` by a viewer who has no access, or
whose payload has `canDelete = false`, is answered 403 and leaves the store
unchanged. -/
theorem share_and_delete_rights :
    (∀ (row : TaskRow) (participantsMap : ParticipantsMap) (viewerId : Int),
        row.user_id ≠ viewerId →
        (buildTaskPayload row participantsMap viewerId).permissions.canShare = false
        ∧ ((buildTaskPayload row participantsMap viewerId).permissions.canDelete = true ↔
            (buildTaskPayload row participantsMap viewerId).viewerAccessLevel = some "full"))
    ∧ (∀ (env : Env) (s : Store) (user : AuthUser) (T : Int) (body : ShareBody)
        (raw : String) (t : TaskRecord) (rest : List TaskRecord),
        shareLookupValue body = .string raw → jsTrim raw ≠ "" →
        s.tasks.filter (fun t => t.id == T) = t :: rest → t.user_id ≠ user.id →
        shareTask env s user (some T) body
          = (s, .response 403 (.error "Only the task owner can share this task")))
    ∧ (∀ (s : Store) (user : AuthUser) (T : Int) (t : TaskRecord) (rest : List TaskRecord),
        s.tasks.filter (fun t => t.id == T) = t :: rest →
        (loadTaskForViewer s T user.id = none →
          deleteTask s user (some T)
            = (s, .response 403 (.error "You do not have access to this task")))
        ∧ (∀ access, loadTaskForViewer s T user.id = some access →
            access.permissions.canDelete = false →
            deleteTask s user (some T)
              = (s, .response 403
                  (.error "You do not have permission to delete this task")))) := by
  refine ⟨?_, ?_, ?_⟩
  · intro row participantsMap viewerId hne
    have hb : (row.user_id == viewerId) = false := by simpa using hne
    simp [buildTaskPayload, hb]
  · intro env s user T body raw t rest hraw hnb hts ho
    simp [shareTask, hraw, hnb, hts, ho]
  · intro s user T t rest hts
    refine ⟨?_, ?_⟩
    · intro hnone
      simp [deleteTask, hts, hnone]
    · intro access hacc hdel
      simp [deleteTask, hts, hacc, hdel]

/-! ## The ids that `markAsRead` acts on -/

/-- C20: the id list that `markAsRead` acts on and emits holds positive
integers only; when `ids` is an array it is the numeric conversions of exactly
the elements whose conversion is an integer greater than 0, in their original
order, and it is empty when `ids` is not an array.  The rows marked are those
of the user whose id is in that list, and the event emitted carries that
list. -/
theorem markAsRead_cleaned_ids {α : Type} (number : α → JsNumber) (s : Store) (userId : Int)
    (ids : Option (List α)) :
    (∀ k ∈ cleanIds number ids, 0 < k)
    ∧ (∀ k ∈ cleanIds number ids, ∃ l e, ids = some l ∧ e ∈ l ∧ number e = .integer k)
    ∧ (∀ l : List α, ids = some l →
        cleanIds number ids
          = (l.filter (fun e => (number e).isPositiveInteger)).map
              (fun e => (number e).toInt))
    ∧ (ids = none → cleanIds number ids = [])
    ∧ (markAsRead number s userId ids).1.notifications
      = s.notifications.map (fun n =>
          if n.user_id = userId ∧ n.id ∈ cleanIds number ids then { n with is_read := true }
          else n)
    ∧ (s.ioInstance = true →
        (markAsRead number s userId ids).1.emitted
          = s.emitted ++
              [{ userId := userId, event := "notification:marked-read", notification := none,
                 unreadCount := (markAsRead number s userId ids).2,
                 ids := some (.list (cleanIds number ids)) }]) := by
  have hpos : ∀ k ∈ cleanIds number ids, ∃ l e, ids = some l ∧ e ∈ l ∧ number e = .integer k
      ∧ 0 < k := by
    intro k hk
    cases ids with
    | none => simp [cleanIds] at hk
    | some l =>
      simp only [cleanIds, List.mem_map, List.mem_filter] at hk
      obtain ⟨x, ⟨⟨e, he, rfl⟩, hx⟩, rfl⟩ := hk
      cases hn : number e with
      | nonInteger => rw [hn] at hx; simp [JsNumber.isPositiveInteger] at hx
      | integer m =>
        rw [hn] at hx
        exact ⟨l, e, rfl, he, hn, by simpa [JsNumber.isPositiveInteger] using hx⟩
  refine ⟨?_, ?_, ?_, ?_, ?_, ?_⟩
  · intro k hk
    obtain ⟨_, _, _, _, _, h⟩ := hpos k hk
    exact h
  · intro k hk
    obtain ⟨l, e, h1, h2, h3, _⟩ := hpos k hk
    exact ⟨l, e, h1, h2, h3⟩
  · intro l hl
    subst hl
    simp only [cleanIds, List.filter_map, List.map_map]
    rfl
  · intro h
    subst h
    rfl
  · simp only [markAsRead, emitToUser]
    by_cases hlen : (cleanIds number ids).length > 0
    · by_cases hio : s.ioInstance = true <;> simp [hlen, hio]
    · have hnil : cleanIds number ids = [] := by
        cases h : cleanIds number ids with
        | nil => rfl
        | cons a as => rw [h] at hlen; simp at hlen
      by_cases hio : s.ioInstance = true <;> simp [hnil, hio]
  · intro hio
    simp only [markAsRead, emitToUser]
    by_cases hlen : (cleanIds number ids).length > 0 <;> simp [hlen, hio]

/-! ## Read state of notifications -/

theorem emitToUser_notifications (s : Store) (e : Emission) :
    (emitToUser s e).notifications = s.notifications := by
  unfold emitToUser
  split <;> rfl

/-- The rows that `markAsRead` leaves: those of the user whose id is in the
cleaned list are marked, every other row is as it was. -/
theorem markAsRead_rows {α : Type} (number : α → JsNumber) (s : Store) (userId : Int)
    (ids : Option (List α)) :
    (markAsRead number s userId ids).1.notifications
      = s.notifications.map (fun n =>
          if n.user_id = userId ∧ n.id ∈ cleanIds number ids then { n with is_read := true }
          else n) := by
  simp only [markAsRead, emitToUser]
  by_cases hlen : (cleanIds number ids).length > 0
  · by_cases hio : s.ioInstance = true <;> simp [hlen, hio]
  · have hnil : cleanIds number ids = [] := by
      cases h : cleanIds number ids with
      | nil => rfl
      | cons a as => rw [h] at hlen; simp at hlen
    by_cases hio : s.ioInstance = true <;> simp [hnil, hio]

/-- The count that `markAsRead` returns is the unread count of the user in
the store it leaves. -/
theorem markAsRead_count {α : Type} (number : α → JsNumber) (s : Store) (userId : Int)
    (ids : Option (List α)) :
    (markAsRead number s userId ids).2
      = getUnreadCount (markAsRead number s userId ids).1 userId := by
  simp only [markAsRead, getUnreadCount, emitToUser_notifications]

theorem markAsRead_empty {α : Type} (number : α → JsNumber) (s : Store) (userId : Int)
    (ids : Option (List α)) (h : cleanIds number ids = []) :
    (markAsRead number s userId ids).1.notifications = s.notifications
    ∧ (markAsRead number s userId ids).2 = getUnreadCount s userId := by
  simp [markAsRead, getUnreadCount, emitToUser_notifications, h]

/-- C21: `markAsRead(userId, ids)` marks as read exactly the notifications
whose id is in the cleaned id list and whose recipient is `userId`: the rows
it leaves are the former rows, in order, where a row of `userId` with such an
id has its read flag set and nothing else changed, and every other row (of
another user, or with another id) is identical; it returns the unread count
of the user in the store it leaves; when the cleaned list is empty no row
changes and the current unread count of the user is returned. -/
theorem markAsRead_frame {α : Type} (number : α → JsNumber) (s : Store) (userId : Int)
    (ids : Option (List α)) :
    (markAsRead number s userId ids).1.notifications
      = s.notifications.map (fun n =>
          if n.user_id = userId ∧ n.id ∈ cleanIds number ids then { n with is_read := true }
          else n)
    ∧ (∀ n ∈ s.notifications, n.user_id ≠ userId →
        n ∈ (markAsRead number s userId ids).1.notifications)
    ∧ (∀ n ∈ (markAsRead number s userId ids).1.notifications, n.user_id ≠ userId →
        n ∈ s.notifications)
    ∧ (markAsRead number s userId ids).2
      = getUnreadCount (markAsRead number s userId ids).1 userId
    ∧ (cleanIds number ids = [] →
        (markAsRead number s userId ids).1.notifications = s.notifications
        ∧ (markAsRead number s userId ids).2 = getUnreadCount s userId) := by
  have hrows := markAsRead_rows number s userId ids
  refine ⟨hrows, ?_, ?_, markAsRead_count number s userId ids,
    markAsRead_empty number s userId ids⟩
  · intro n hn hne
    rw [hrows, List.mem_map]
    exact ⟨n, hn, by simp [hne]⟩
  · intro n hn hne
    rw [hrows, List.mem_map] at hn
    obtain ⟨m, hm, hmn⟩ := hn
    by_cases hc : m.user_id = userId ∧ m.id ∈ cleanIds number ids
    · rw [if_pos hc] at hmn
      subst hmn
      exact absurd hc.1 hne
    · rw [if_neg hc] at hmn
      subst hmn
      exact hm

theorem markAllAsRead_rows (s : Store) (userId : Int) :
    (markAllAsRead s userId).1.notifications
      = s.notifications.map (fun n =>
          if n.user_id = userId then { n with is_read := true } else n) := by
  simp only [markAllAsRead, emitToUser_notifications]

/-- The rows that `listNotifications` returns come from rows of the user in
the table. -/
theorem listNotifications_mem (s : Store) (userId : Int) (limit : Option LimitNumber)
    (ns : List Notification) (h : listNotifications s userId limit = .ok ns) :
    ∀ n ∈ ns, ∃ row ∈ s.notifications, row.user_id = userId ∧ n = mapNotification row := by
  intro n hn
  simp only [listNotifications] at h
  split at h
  · split at h
    · injection h with h
      subst h
      obtain ⟨row, hrow, rfl⟩ := List.mem_map.1 hn
      have h1 := List.mem_of_mem_take hrow
      have h2 := (List.perm_insertionSort _ _).mem_iff.1 h1
      obtain ⟨h3, h4⟩ := List.mem_filter.1 h2
      exact ⟨row, h3, by simpa using h4, rfl⟩
    · cases h
  · cases h

/-- C22: `markAllAsRead(u)` returns 0; in the store it leaves, the unread
count of `u` is 0, `listNotifications(u)` returns, and every entry it returns,
for every limit, has `isRead = true`; the rows of every other user are left as
they were. -/
theorem markAllAsRead_spec (s : Store) (userId : Int) :
    (markAllAsRead s userId).2 = 0
    ∧ getUnreadCount (markAllAsRead s userId).1 userId = 0
    ∧ (∃ ns : List Notification,
        listNotifications (markAllAsRead s userId).1 userId none = .ok ns
        ∧ ∀ n ∈ ns, n.isRead = true)
    ∧ (∀ (limit : Option LimitNumber) (ns : List Notification),
        listNotifications (markAllAsRead s userId).1 userId limit = .ok ns →
        ∀ n ∈ ns, n.isRead = true)
    ∧ (markAllAsRead s userId).1.notifications
      = s.notifications.map (fun n =>
          if n.user_id = userId then { n with is_read := true } else n)
    ∧ (∀ n ∈ s.notifications, n.user_id ≠ userId →
        n ∈ (markAllAsRead s userId).1.notifications)
    ∧ (∀ n ∈ (markAllAsRead s userId).1.notifications, n.user_id ≠ userId →
        n ∈ s.notifications) := by
  have hrows := markAllAsRead_rows s userId
  have hread : ∀ row ∈ (markAllAsRead s userId).1.notifications, row.user_id = userId →
      row.is_read = true := by
    intro row hrow hu
    rw [hrows, List.mem_map] at hrow
    obtain ⟨m, -, hm⟩ := hrow
    by_cases hc : m.user_id = userId
    · rw [if_pos hc] at hm
      subst hm
      rfl
    · rw [if_neg hc] at hm
      subst hm
      exact absurd hu hc
  have hlist : ∀ (limit : Option LimitNumber) (ns : List Notification),
      listNotifications (markAllAsRead s userId).1 userId limit = .ok ns →
      ∀ n ∈ ns, n.isRead = true := by
    intro limit ns hns n hn
    obtain ⟨row, hrow, hu, rfl⟩ := listNotifications_mem _ userId limit ns hns n hn
    exact hread row hrow hu
  refine ⟨rfl, ?_, ⟨_, rfl, hlist none _ rfl⟩, hlist, hrows, ?_, ?_⟩
  · simp only [getUnreadCount, List.length_eq_zero, List.filter_eq_nil_iff]
    intro row hrow
    by_cases hu : row.user_id = userId
    · simp [hread row hrow hu]
    · simp [hu]
  · intro n hn hne
    rw [hrows, List.mem_map]
    exact ⟨n, hn, by simp [hne]⟩
  · intro n hn hne
    rw [hrows, List.mem_map] at hn
    obtain ⟨m, hm, hmn⟩ := hn
    by_cases hc : m.user_id = userId
    · rw [if_pos hc] at hmn
      subst hmn
      exact absurd hc hne
    · rw [if_neg hc] at hmn
      subst hmn
      exact hm

/-! ## No notification is turned back into an unread one -/

theorem onlyMarkedRead_refl (n : NotificationRow) : onlyMarkedRead n n :=
  ⟨rfl, fun h => h⟩

theorem onlyMarkedRead_set (n : NotificationRow) :
    onlyMarkedRead n { n with is_read := true } :=
  ⟨rfl, fun _ => rfl⟩

theorem keepsReadState_append (rows extra : List NotificationRow) :
    keepsReadState rows (rows ++ extra) :=
  ⟨rows, extra, rfl, List.forall₂_same.2 (fun n _ => onlyMarkedRead_refl n)⟩

theorem keepsReadState_map (rows : List NotificationRow) (p : NotificationRow → Prop)
    [DecidablePred p] :
    keepsReadState rows
      (rows.map (fun n => if p n then { n with is_read := true } else n)) := by
  refine ⟨_, [], (List.append_nil _).symm, ?_⟩
  rw [List.forall₂_map_right_iff]
  refine List.forall₂_same.2 (fun n _ => ?_)
  by_cases h : p n
  · simp only [h, if_true]
    exact onlyMarkedRead_set n
  · simp only [h, if_false]
    exact onlyMarkedRead_refl n

/-- C23: no operation of the notification service turns a read notification
back into an unread one.  After `createNotification`, `notifyUsers`,
`markAsRead` and `markAllAsRead` the table holds every row it held before, in
place, equal in every column but the read flag, and read when it was read
before; the rows that are new come behind them. -/
theorem notification_service_keeps_read_state {α : Type} (env : Env) (s : Store) :
    (∀ args : NotificationArgs,
        keepsReadState s.notifications (createNotification env s args).1.notifications)
    ∧ (∀ (userIds : List Int) (payload : NotifyPayload),
        keepsReadState s.notifications (notifyUsers env s userIds payload).1.notifications)
    ∧ (∀ (number : α → JsNumber) (userId : Int) (ids : Option (List α)),
        keepsReadState s.notifications (markAsRead number s userId ids).1.notifications)
    ∧ (∀ userId : Int,
        keepsReadState s.notifications (markAllAsRead s userId).1.notifications) := by
  refine ⟨?_, ?_, ?_, ?_⟩
  · intro args
    obtain ⟨rows, _, h, -⟩ := createNotification_effect env s args
    rw [h]
    exact keepsReadState_append _ _
  · intro userIds payload
    cases userIds with
    | nil => simpa [notifyUsers] using keepsReadState_append s.notifications []
    | cons x xs =>
      obtain ⟨rows, _, h, -⟩ := notifyJobs_effect env payload (x :: xs) s
      simp only [notifyUsers]
      rw [h]
      exact keepsReadState_append _ _
  · intro number userId ids
    rw [markAsRead_rows]
    exact keepsReadState_map _ _
  · intro userId
    rw [markAllAsRead_rows]
    exact keepsReadState_map _ _

/-! ## The list of notifications of a user -/

theorem notificationsOf_sorted (s : Store) (userId : Int) :
    (notificationsOf s userId).Pairwise (fun a b => b.created_at ≤ a.created_at) := by
  haveI : IsTotal NotificationRow (fun a b => b.created_at ≤ a.created_at) :=
    ⟨fun a b => le_total b.created_at a.created_at⟩
  haveI : IsTrans NotificationRow (fun a b => b.created_at ≤ a.created_at) :=
    ⟨fun _ _ _ hab hbc => le_trans hbc hab⟩
  exact List.sorted_insertionSort _ _

/-- What `listNotifications` returns under a limit that the storage accepts. -/
theorem listNotifications_take (s : Store) (userId : Int) (n : Nat) :
    (((notificationsOf s userId).take n).map mapNotification).length ≤ n
    ∧ (∀ x ∈ ((notificationsOf s userId).take n).map mapNotification, x.userId = userId)
    ∧ (((notificationsOf s userId).take n).map mapNotification).Pairwise
        (fun a b => b.createdAt ≤ a.createdAt) := by
  refine ⟨?_, ?_, ?_⟩
  · rw [List.length_map, List.length_take]
    exact Nat.min_le_left _ _
  · intro x hx
    obtain ⟨row, hrow, rfl⟩ := List.mem_map.1 hx
    have h1 := List.mem_of_mem_take hrow
    have h2 := (List.perm_insertionSort _ _).mem_iff.1 h1
    simpa [mapNotification] using (List.mem_filter.1 h2).2
  · rw [List.pairwise_map]
    exact (notificationsOf_sorted s userId).sublist (List.take_sublist _ _)

/-- A limit of 0 is replaced by 50: the one notification of alice is returned
although the limit asked for is 0. -/
theorem listNotifications_limit_zero_returns_a_row :
    listNotifications notifiedStore 1 (some (.integer 0))
      = .ok [mapNotification (sampleNotification 2 1 70)]
    ∧ ¬ ([mapNotification (sampleNotification 2 1 70)].length ≤ 0) :=
  ⟨rfl, by decide⟩

/-- C24 (amended): `listNotifications` returns at most `limit` notifications
when `Number(limit)` is a positive integer, and at most 50 when the limit is
absent, 0 or not a number; whatever the limit, the notifications returned are
all addressed to the user and ordered most recent first. -/
theorem listNotifications_spec (s : Store) (userId : Int) :
    (∀ n : Int, 0 < n →
        ∃ ns, listNotifications s userId (some (.integer n)) = .ok ns
          ∧ ns.length ≤ n.toNat)
    ∧ (∀ limit : Option LimitNumber,
        limit = none ∨ limit = some (.integer 0) ∨ limit = some .notANumber →
        ∃ ns, listNotifications s userId limit = .ok ns ∧ ns.length ≤ 50)
    ∧ (∀ (limit : Option LimitNumber) (ns : List Notification),
        listNotifications s userId limit = .ok ns →
        (∀ x ∈ ns, x.userId = userId)
        ∧ ns.Pairwise (fun a b => b.createdAt ≤ a.createdAt)) := by
  refine ⟨?_, ?_, ?_⟩
  · intro n hn
    have h0 : n ≠ 0 := ne_of_gt hn
    refine ⟨_, ?_, (listNotifications_take s userId n.toNat).1⟩
    simp [listNotifications, limitValue, h0, le_of_lt hn]
  · intro limit hl
    refine ⟨_, ?_, (listNotifications_take s userId 50).1⟩
    rcases hl with rfl | rfl | rfl <;> simp [listNotifications, limitValue]
  · intro limit ns h
    simp only [listNotifications] at h
    split at h
    · split at h
      · injection h with h
        subst h
        exact ⟨(listNotifications_take s userId _).2.1, (listNotifications_take s userId _).2.2⟩
      · cases h
    · cases h

/-! ## Reading back the text of a metadata object -/

theorem toNat_ofNat_of_lt (n : Nat) (h : n < 0xD800) : (Char.ofNat n).toNat = n := by
  have hv : n.isValidChar := Or.inl h
  simp only [Char.ofNat, hv, dite_true]
  rfl

theorem char_eq_of_toNat_eq {c d : Char} (h : c.toNat = d.toNat) : c = d := by
  rw [← Char.ofNat_toNat c, ← Char.ofNat_toNat d, h]

theorem char_not_surrogate (c : Char) :
    isHighSurrogate c.toNat = false ∧ isLowSurrogate c.toNat = false := by
  have hv : c.toNat.isValidChar := c.valid
  simp only [isHighSurrogate, isLowSurrogate, Bool.and_eq_false_iff, decide_eq_false_iff_not,
    not_le]
  rcases hv with h | ⟨h, -⟩ <;> constructor <;> omega

theorem unitChar_toNat (c : Char) : unitChar c.toNat = c := by
  simp [unitChar, char_not_surrogate c]

theorem decodeUnits_map_toNat (s : List Char) : decodeUnits (s.map Char.toNat) = s := by
  induction s with
  | nil => rfl
  | cons c cs ih =>
    cases cs with
    | nil => simp [decodeUnits, unitChar_toNat]
    | cons d ds =>
      simp only [List.map_cons] at ih ⊢
      simp only [decodeUnits, (char_not_surrogate c).1, Bool.false_and, Bool.false_eq_true,
        if_false, unitChar_toNat, ih]

theorem hex4_control : ∀ n, n < 32 →
    hex4 '0' '0' (hexDigit (n / 16)) (hexDigit (n % 16)) = some n := by
  decide

theorem parseUnits_quoteChar (c : Char) (tail : List Char) :
    parseUnits (quoteChar c ++ tail)
      = (parseUnits tail).map fun x => (c.toNat :: x.1, x.2) := by
  unfold quoteChar
  split
  · rename_i h; subst h; rw [parseUnits.eq_def]; simp [unescape]
  split
  · rename_i h; subst h; rw [parseUnits.eq_def]; simp [unescape]
  split
  · rename_i h; rw [parseUnits.eq_def]; simp [unescape, h]
  split
  · rename_i h; rw [parseUnits.eq_def]; simp [unescape, h]
  split
  · rename_i h; rw [parseUnits.eq_def]; simp [unescape, h]
  split
  · rename_i h; rw [parseUnits.eq_def]; simp [unescape, h]
  split
  · rename_i h; rw [parseUnits.eq_def]; simp [unescape, h]
  split
  · rename_i h
    rw [parseUnits.eq_def]
    simp [hex4_control _ h]
  · rename_i h1 h2 _ _ _ _ _ h8
    rw [parseUnits.eq_def]
    simp [h1, h2, h8]

theorem parseUnits_quoted (s : List Char) (tail : List Char) :
    parseUnits (s.flatMap quoteChar ++ '"' :: tail) = some (s.map Char.toNat, tail) := by
  induction s with
  | nil =>
    rw [parseUnits.eq_def]
    simp
  | cons c cs ih =>
    simp only [List.flatMap_cons, List.append_assoc, parseUnits_quoteChar, ih, Option.map_some',
      List.map_cons]

/-- A string that `JSON.stringify` quoted is read back by `JSON.parse`. -/
theorem parseStringBody_quoted (s : List Char) (tail : List Char) :
    parseStringBody (s.flatMap quoteChar ++ '"' :: tail) = some (s, tail) := by
  simp [parseStringBody, parseUnits_quoted, decodeUnits_map_toNat]

theorem digitChar_toNat (d : Nat) (h : d < 10) : (digitChar d).toNat = 48 + d :=
  toNat_ofNat_of_lt _ (by omega)

theorem isDigit_digitChar (d : Nat) (h : d < 10) : isDigit (digitChar d) = true := by
  simp [isDigit, digitChar_toNat d h]
  omega

theorem natDigits_isDigit : ∀ (fuel n : Nat), ∀ c ∈ natDigits fuel n, isDigit c = true := by
  intro fuel
  induction fuel with
  | zero => intro n c hc; simp [natDigits] at hc
  | succ fuel ih =>
    intro n c hc
    simp only [natDigits] at hc
    split at hc
    · rename_i h
      simp only [List.mem_singleton] at hc
      subst hc
      exact isDigit_digitChar n h
    · rcases List.mem_append.1 hc with h | h
      · exact ih _ c h
      · simp only [List.mem_singleton] at h
        subst h
        exact isDigit_digitChar _ (Nat.mod_lt _ (by decide))

theorem digitsValue_append_single (l : List Char) (c : Char) :
    digitsValue (l ++ [c]) = digitsValue l * 10 + (c.toNat - 48) := by
  simp [digitsValue, List.foldl_append]

theorem digitsValue_natDigits : ∀ (fuel n : Nat), n < fuel →
    digitsValue (natDigits fuel n) = n := by
  intro fuel
  induction fuel with
  | zero => intro n h; omega
  | succ fuel ih =>
    intro n h
    simp only [natDigits]
    split
    · rename_i h10
      simp [digitsValue, digitChar_toNat n h10]
    · rename_i h10
      have hlt : n / 10 < fuel := by omega
      rw [digitsValue_append_single, ih _ hlt, digitChar_toNat _ (Nat.mod_lt _ (by decide))]
      omega

theorem natDigits_ne_nil : ∀ (fuel n : Nat), n < fuel → natDigits fuel n ≠ [] := by
  intro fuel
  induction fuel with
  | zero => intro n h; omega
  | succ fuel ih =>
    intro n h
    simp only [natDigits]
    split <;> simp

theorem natDigits_head : ∀ (fuel n : Nat), 0 < n → n < fuel →
    (natDigits fuel n).head? ≠ some '0' := by
  intro fuel
  induction fuel with
  | zero => intro n _ h; omega
  | succ fuel ih =>
    intro n hpos h
    simp only [natDigits]
    split
    · rename_i h10
      simp only [List.head?_cons, ne_eq, Option.some.injEq]
      intro hc
      have := congrArg Char.toNat hc
      rw [digitChar_toNat n h10] at this
      have h0 : ('0' : Char).toNat = 48 := by decide
      omega
    · rename_i h10
      have hlt : n / 10 < fuel := by omega
      have hp : 0 < n / 10 := by omega
      have hne := natDigits_ne_nil fuel (n / 10) hlt
      have := ih (n / 10) hp hlt
      cases hd : natDigits fuel (n / 10) with
      | nil => exact absurd hd hne
      | cons a as =>
        rw [hd] at this
        simpa using this

theorem natDigits_leading_zero (n : Nat) :
    ¬ ((natDigits (n + 1) n).head? = some '0' ∧ (natDigits (n + 1) n).length ≠ 1) := by
  rintro ⟨h0, hlen⟩
  by_cases hn : n = 0
  · subst hn
    simp [natDigits] at hlen
  · exact natDigits_head (n + 1) n (by omega) (by omega) h0

theorem takeDigits_append (ds : List Char) (sep : Char) (tail : List Char)
    (hds : ∀ c ∈ ds, isDigit c = true) (hsep : isDigit sep = false) :
    takeDigits (ds ++ sep :: tail) = (ds, sep :: tail) := by
  induction ds with
  | nil => simp [takeDigits, hsep]
  | cons d ds ih =>
    have hd : isDigit d = true := hds d (List.mem_cons_self d ds)
    have := ih (fun c hc => hds c (List.mem_cons_of_mem d hc))
    simp only [takeDigits, Prod.mk.injEq] at this ⊢
    simp [hd, this]

/-- An unsigned integer written by `natDigits` and followed by a comma or a
closing brace is read back. -/
theorem parseUnsigned_natDigits (negative : Bool) (n : Nat) (sep : Char) (tail : List Char)
    (hsep : sep = ',' ∨ sep = '}') :
    parseUnsigned negative (natDigits (n + 1) n ++ sep :: tail)
      = some (.integer ((if negative then -1 else 1) * (n : Int)), sep :: tail) := by
  have hsepd : isDigit sep = false := by rcases hsep with rfl | rfl <;> decide
  have htake := takeDigits_append (natDigits (n + 1) n) sep tail
    (natDigits_isDigit (n + 1) n) hsepd
  have hne := natDigits_ne_nil (n + 1) n (by omega)
  have hlz := natDigits_leading_zero n
  have hfrac : parseFraction (sep :: tail) = some ([], sep :: tail) := by
    rcases hsep with rfl | rfl <;> simp [parseFraction]
  have hexp : parseExponent (sep :: tail) = some (0, sep :: tail) := by
    rcases hsep with rfl | rfl <;> simp [parseExponent]
  simp only [parseUnsigned, htake, hne, if_false, hlz, hfrac, hexp, List.append_nil,
    List.length_nil, Nat.cast_zero, sub_self, digitsValue_natDigits (n + 1) n (by omega)]
  simp [scaledNumber]

theorem isDigit_ne_minus (c : Char) (h : isDigit c = true) : c ≠ '-' := by
  rintro rfl
  exact absurd h (by decide)

/-- An integer written by `numberText` and followed by a comma or a closing
brace is read back. -/
theorem parseNumber_numberText (n : Int) (sep : Char) (tail : List Char)
    (hsep : sep = ',' ∨ sep = '}') :
    parseNumber (numberText n ++ sep :: tail) = some (.integer n, sep :: tail) := by
  unfold numberText
  split
  · rename_i hneg
    simp only [List.cons_append, parseNumber, if_true]
    rw [parseUnsigned_natDigits true n.natAbs sep tail hsep]
    simp only [if_true, Option.some.injEq, Prod.mk.injEq, and_true, JsNumber.integer.injEq]
    omega
  · rename_i hneg
    have hne := natDigits_ne_nil (n.natAbs + 1) n.natAbs (by omega)
    have hall := natDigits_isDigit (n.natAbs + 1) n.natAbs
    have hr := parseUnsigned_natDigits false n.natAbs sep tail hsep
    cases hd : natDigits (n.natAbs + 1) n.natAbs with
    | nil => exact absurd hd hne
    | cons d ds =>
      rw [hd] at hall hr
      have hdm : d ≠ '-' := isDigit_ne_minus d (hall d (List.mem_cons_self d ds))
      simp only [List.cons_append, parseNumber, hdm, if_false]
      simp only [List.cons_append] at hr
      rw [hr]
      simp only [Bool.false_eq_true, if_false, one_mul, Option.some.injEq, Prod.mk.injEq,
        and_true, JsNumber.integer.injEq]
      omega

theorem skipWs_cons (c : Char) (cs : List Char) (h : isWs c = false) :
    skipWs (c :: cs) = c :: cs := by
  simp [skipWs, h]

theorem number_head (c : Char) (h : c = '-' ∨ isDigit c = true) :
    isWs c = false ∧ c ≠ '"' ∧ c ≠ '{' ∧ c ≠ '[' ∧ c ≠ 'n' ∧ c ≠ 't' ∧ c ≠ 'f' := by
  refine ⟨?_, ?_, ?_, ?_, ?_, ?_, ?_⟩
  · rcases h with rfl | h
    · decide
    · simp only [isDigit, Bool.and_eq_true, decide_eq_true_eq] at h
      simp only [isWs, Bool.or_eq_false_iff, decide_eq_false_iff_not]
      omega
  all_goals
    rintro rfl
    revert h
    decide

theorem numberText_head (n : Int) :
    ∃ c rest, numberText n = c :: rest ∧ (c = '-' ∨ isDigit c = true) := by
  unfold numberText
  split
  · exact ⟨_, _, rfl, Or.inl rfl⟩
  · have hne := natDigits_ne_nil (n.natAbs + 1) n.natAbs (by omega)
    have hall := natDigits_isDigit (n.natAbs + 1) n.natAbs
    cases hd : natDigits (n.natAbs + 1) n.natAbs with
    | nil => exact absurd hd hne
    | cons d ds =>
      rw [hd] at hall
      exact ⟨d, ds, rfl, Or.inr (hall d (List.mem_cons_self d ds))⟩

/-- The text of a metadata value, followed by a comma or a closing brace, is
read back as the value. -/
theorem parseValue_valueText (fuel : Nat) (v : MetaValue) (sep : Char) (tail : List Char)
    (hsep : sep = ',' ∨ sep = '}') :
    parseValue (fuel + 1) (valueText v ++ sep :: tail) = some (v.toJson, sep :: tail) := by
  cases v with
  | null =>
    simp [valueText, parseValue, skipWs, isWs, MetaValue.toJson]
  | number n =>
    obtain ⟨c, rest, hc, hhead⟩ := numberText_head n
    obtain ⟨hws, h1, h2, h3, h4, h5, h6⟩ := number_head c hhead
    have hnum := parseNumber_numberText n sep tail hsep
    simp only [valueText, hc, List.cons_append] at hnum ⊢
    simp only [parseValue, skipWs_cons c _ hws, h1, h2, h3, h4, h5, h6, if_false, hnum,
      Option.map_some', MetaValue.toJson]
  | string str =>
    have hq : isWs '"' = false := by decide
    simp only [valueText, quoteJSONString, List.cons_append, List.append_assoc,
      List.singleton_append, parseValue, skipWs_cons _ _ hq, if_true, parseStringBody_quoted,
      Option.map_some', MetaValue.toJson, List.nil_append]

/-- One member of an object is read and set. -/
theorem parseMembers_memberText (fuel : Nat) (acc : List (String × Json))
    (kv : String × MetaValue) (sep : Char) (rest : List Char) (hsep : sep = ',' ∨ sep = '}') :
    parseMembers (fuel + 2) acc (memberText kv ++ sep :: rest)
      = if sep = ',' then parseMembers (fuel + 1) (Json.setMember acc kv.1 kv.2.toJson) rest
        else some (Json.object (Json.setMember acc kv.1 kv.2.toJson), rest) := by
  have hq : isWs '"' = false := by decide
  have hcolon : isWs ':' = false := by decide
  have hs : isWs sep = false := by rcases hsep with rfl | rfl <;> decide
  have hv := parseValue_valueText fuel kv.2 sep rest hsep
  simp only [memberText, quoteJSONString, List.cons_append, List.append_assoc,
    List.singleton_append, List.nil_append]
  rw [parseMembers]
  simp only [skipWs_cons _ _ hq, if_true, parseStringBody_quoted, skipWs_cons _ _ hcolon, hv,
    skipWs_cons _ _ hs]
  rcases hsep with rfl | rfl <;> simp

theorem parseMembers_membersText : ∀ (m : Metadata) (kv : String × MetaValue) (fuel : Nat)
    (acc : List (String × Json)) (tail : List Char), m.length + 2 ≤ fuel →
    parseMembers fuel acc (membersText (kv :: m) ++ tail)
      = some (Json.object (parsedMembers acc (kv :: m)), tail) := by
  intro m
  induction m with
  | nil =>
    intro kv fuel acc tail hfuel
    obtain ⟨f, rfl⟩ : ∃ f, fuel = f + 2 := ⟨fuel - 2, by simp at hfuel; omega⟩
    simp only [membersText, List.append_assoc, List.singleton_append]
    rw [parseMembers_memberText f acc kv '}' tail (Or.inr rfl)]
    simp [parsedMembers]
  | cons kv2 m ih =>
    intro kv fuel acc tail hfuel
    obtain ⟨f, rfl⟩ : ∃ f, fuel = f + 2 := ⟨fuel - 2, by simp at hfuel; omega⟩
    simp only [membersText, List.append_assoc, List.cons_append]
    rw [parseMembers_memberText f acc kv ',' _ (Or.inl rfl)]
    simp only [if_true]
    have := ih kv2 (f + 1) (Json.setMember acc kv.1 kv.2.toJson) tail
      (by simp only [List.length_cons] at hfuel; omega)
    simp only [membersText, List.append_assoc, List.cons_append] at this
    rw [this]
    simp [parsedMembers]

theorem membersText_length (m : Metadata) : m.length ≤ (membersText m).length := by
  induction m with
  | nil => simp
  | cons kv m ih =>
    cases m with
    | nil => simp [membersText, memberText, quoteJSONString]
    | cons kv2 m =>
      simp only [membersText, List.length_append, List.length_cons] at ih ⊢
      omega

/-- `JSON.parse` reads the text that `JSON.stringify` writes for a metadata
object as the object that its members define. -/
theorem jsonParse_jsonStringify (m : Metadata) :
    jsonParse (jsonStringify m) = some (Json.object (parsedMembers [] m)) := by
  have hb : isWs '{' = false := by decide
  have hq : isWs '"' = false := by decide
  cases m with
  | nil =>
    simp [jsonParse, jsonStringify, membersText, parseValue, skipWs, isWs, parsedMembers]
  | cons kv m =>
    have hlen := membersText_length (kv :: m)
    have hm := parseMembers_membersText m kv ((membersText (kv :: m)).length + 1) [] []
      (by simp only [List.length_cons] at hlen; omega)
    simp only [List.append_nil] at hm
    obtain ⟨rest, hrest⟩ : ∃ rest, membersText (kv :: m) = '"' :: rest := by
      cases m with
      | nil => exact ⟨_, rfl⟩
      | cons kv2 m => exact ⟨_, rfl⟩
    rw [hrest] at hm
    simp only [jsonParse, jsonStringify, List.length_cons, parseValue, skipWs_cons _ _ hb,
      hrest, skipWs_cons _ _ hq]
    simp only [List.length_cons] at hm
    simp [hm, skipWs]

theorem setMember_fresh (o : List (String × Json)) (key : String) (v : Json)
    (h : key ∉ o.map (·.1)) : Json.setMember o key v = o ++ [(key, v)] := by
  have : o.any (fun e => e.1 == key) = false := by
    rw [List.any_eq_false]
    intro e he heq
    apply h
    simp only [beq_iff_eq] at heq
    exact List.mem_map.2 ⟨e, he, heq⟩
  simp [Json.setMember, this]

theorem parsedMembers_nodup : ∀ (m : Metadata) (acc : List (String × Json)),
    (acc.map (·.1) ++ m.map (·.1)).Nodup →
    parsedMembers acc m = acc ++ m.map fun kv => (kv.1, kv.2.toJson) := by
  intro m
  induction m with
  | nil => intro acc _; simp [parsedMembers]
  | cons kv m ih =>
    intro acc hnd
    have hfresh : kv.1 ∉ acc.map (·.1) := by
      intro hmem
      have := List.nodup_append.1 hnd
      exact this.2.2 hmem (List.mem_cons_self _ _)
    have hnd2 : ((acc ++ [(kv.1, kv.2.toJson)]).map (·.1) ++ m.map (·.1)).Nodup := by
      simpa using hnd
    have := ih (acc ++ [(kv.1, kv.2.toJson)]) hnd2
    simp only [parsedMembers, List.foldl_cons, setMember_fresh acc kv.1 kv.2.toJson hfresh]
      at this ⊢
    rw [this]
    simp

/-- A metadata object, whose keys are distinct, is read back from its text. -/
theorem jsonParse_jsonStringify_object (m : Metadata) (hkeys : (m.map (·.1)).Nodup) :
    jsonParse (jsonStringify m) = some (Metadata.toJson m) := by
  rw [jsonParse_jsonStringify, parsedMembers_nodup m [] (by simpa using hkeys)]
  simp [Metadata.toJson]

/-! ## The metadata column -/

/-- C25: `mapNotification` does not raise on the metadata column.  Whatever
the parser does, the metadata it returns is `null` when the column is absent,
empty or not parseable, and the parsed value when the text parses.  With
`JSON.stringify` and `JSON.parse`, an absent metadata is stored as `NULL` and
read back as `null`, and the text stored for a metadata object is read back as
the object that its members define: the object itself, the keys of an object
being distinct. -/
theorem mapMetadata_spec {J : Type} (parse : String → Option J) (null : J) :
    mapMetadata parse null none = null
    ∧ mapMetadata parse null (some "") = null
    ∧ (∀ text : String, parse text = none → mapMetadata parse null (some text) = null)
    ∧ (∀ (text : String) (v : J), text ≠ "" → parse text = some v →
        mapMetadata parse null (some text) = v)
    ∧ mapMetadata jsonParse Json.null (storedMetadata jsonStringify none) = Json.null
    ∧ (∀ m : Metadata,
        mapMetadata jsonParse Json.null (storedMetadata jsonStringify (some m))
          = Json.object (parsedMembers [] m))
    ∧ (∀ m : Metadata, (m.map (·.1)).Nodup →
        mapMetadata jsonParse Json.null (storedMetadata jsonStringify (some m))
          = Metadata.toJson m) := by
  have hparsed : ∀ {K : Type} (p : String → Option K) (nul : K) (text : String) (v : K),
      text ≠ "" → p text = some v → mapMetadata p nul (some text) = v := by
    intro K p nul text v hne hp
    simp [mapMetadata, truthyString, hne, safelyParseJson, hp]
  have hne : ∀ m : Metadata, jsonStringify m ≠ "" := by
    intro m h
    have := congrArg String.data h
    simp [jsonStringify] at this
  refine ⟨rfl, ?_, ?_, hparsed parse null, rfl, ?_, ?_⟩
  · simp [mapMetadata, truthyString]
  · intro text hp
    simp only [mapMetadata, safelyParseJson, hp]
    split <;> rfl
  · intro m
    exact hparsed jsonParse Json.null _ _ (hne m) (jsonParse_jsonStringify m)
  · intro m hkeys
    exact hparsed jsonParse Json.null _ _ (hne m) (jsonParse_jsonStringify_object m hkeys)

/-! ## Admission to the live channel -/

/-- C26: a connection is joined to the room of a user, and is sent the sync
event, only when it presented a non-empty token that verification accepted,
and then the room is the one of the user the token was verified for; a
connection without a token, or whose tokens verification rejects, is refused
with `Unauthorized` and reaches neither step; there is no third outcome. -/
theorem connect_requires_verified_token (verify : String → Option AuthUser) (s : Store)
    (h : Handshake) :
    (∀ events : List ConnectionEvent, connect verify s h = .ok events →
        ∃ (token : String) (user : AuthUser),
          (h.authToken = some token ∨ h.queryToken = some token) ∧ token ≠ ""
          ∧ verify token = some user
          ∧ events = [.joined user.id, .sync (getUnreadCount s user.id)])
    ∧ ((h.authToken = none ∨ h.authToken = some "") →
        (h.queryToken = none ∨ h.queryToken = some "") →
        connect verify s h = .error "Unauthorized")
    ∧ ((∀ token : String, h.authToken = some token ∨ h.queryToken = some token →
          verify token = none) →
        connect verify s h = .error "Unauthorized")
    ∧ ((∃ events : List ConnectionEvent, connect verify s h = .ok events)
        ∨ connect verify s h = .error "Unauthorized") := by
  obtain ⟨a, q⟩ := h
  refine ⟨?_, ?_, ?_, ?_⟩
  rotate_right
  · simp only [connect]
    split
    · exact Or.inr rfl
    · split
      · exact Or.inr rfl
      · split
        · exact Or.inr rfl
        · exact Or.inl ⟨_, rfl⟩
  · intro events hev
    simp only [connect] at hev
    split at hev
    · cases hev
    · rename_i token htok
      split at hev
      · cases hev
      · rename_i hne
        have hne2 : token ≠ "" := by
          intro h0
          apply hne
          simp [truthyString, h0]
        split at hev
        · cases hev
        · rename_i user hv
          injection hev with hev
          refine ⟨token, user, ?_, hne2, hv, hev.symm⟩
          cases a with
          | none => exact Or.inr (by simpa [orString] using htok)
          | some x =>
            by_cases hx : truthyString x = true
            · exact Or.inl (by simpa [orString, hx] using htok)
            · exact Or.inr (by simpa [orString, hx] using htok)
  · intro ha hq
    rcases ha with ha | ha <;> rcases hq with hq | hq <;> simp only at ha hq <;> subst ha <;>
      subst hq <;> simp [connect, orString, truthyString]
  · intro hrej
    simp only [connect]
    split
    · rfl
    · rename_i token htok
      split
      · rfl
      · have hmem : a = some token ∨ q = some token := by
          cases a with
          | none => exact Or.inr (by simpa [orString] using htok)
          | some x =>
            by_cases hx : truthyString x = true
            · exact Or.inl (by simpa [orString, hx] using htok)
            · exact Or.inr (by simpa [orString, hx] using htok)
        rw [hrej token hmem]

/-! ## The participants of a list of tasks -/

theorem groupByTask_apply (rows : List (Int × Participant)) :
    ∀ (map : ParticipantsMap) (k : Int),
      groupByTask rows map k
        = if (rows.filter (fun r => r.1 == k)).isEmpty then map k
          else some ((map k).getD [] ++ (rows.filter (fun r => r.1 == k)).map (·.2)) := by
  induction rows with
  | nil => intro map k; simp [groupByTask]
  | cons r rows ih =>
    intro map k
    have := ih (fun k => if k = r.1 then some ((map r.1).getD [] ++ [r.2]) else map k) k
    simp only [groupByTask, List.foldl_cons] at this ⊢
    rw [this]
    by_cases hk : k = r.1
    · subst hk
      by_cases he : (rows.filter (fun x => x.1 == r.1)).isEmpty = true
      · have he2 : rows.filter (fun x => x.1 == r.1) = [] := by simpa using he
        simp [he2]
      · simp [he]
    · have hk2 : (r.1 == k) = false := by simpa using fun h : r.1 = k => hk h.symm
      have hf : (r :: rows).filter (fun x => x.1 == k) = rows.filter (fun x => x.1 == k) := by
        simp [List.filter_cons, hk2]
      rw [hf]
      simp [hk]

/-- C27: `getTaskParticipants` returns the empty mapping, whatever the store
holds, when the list of task ids is absent or empty.  Otherwise the list under
a task id is exactly the fetched rows of that task id, each once and in fetch
order, and a task id without a fetched row has no entry: every fetched row is
in the list of its own task id, and no entry is an empty list. -/
theorem getTaskParticipants_groups (s : Store) :
    getTaskParticipants s none = (fun _ => none)
    ∧ getTaskParticipants s (some []) = (fun _ => none)
    ∧ (∀ (ids : List Int) (k : Int), ids ≠ [] →
        getTaskParticipants s (some ids) k
          = if ((participantRows s ids).filter (fun r => r.1 == k)).isEmpty then none
            else some (((participantRows s ids).filter (fun r => r.1 == k)).map (·.2)))
    ∧ (∀ (ids : List Int), ids ≠ [] → ∀ r ∈ participantRows s ids,
        ∃ l, getTaskParticipants s (some ids) r.1 = some l ∧ r.2 ∈ l)
    ∧ (∀ (ids : Option (List Int)) (k : Int) (l : List Participant),
        getTaskParticipants s ids k = some l → l ≠ []) := by
  have hmain : ∀ (ids : List Int) (k : Int), ids ≠ [] →
      getTaskParticipants s (some ids) k
        = if ((participantRows s ids).filter (fun r => r.1 == k)).isEmpty then none
          else some (((participantRows s ids).filter (fun r => r.1 == k)).map (·.2)) := by
    intro ids k hne
    cases ids with
    | nil => exact absurd rfl hne
    | cons x xs =>
      simp only [getTaskParticipants, groupByTask_apply, Option.getD_none, List.nil_append]
  refine ⟨rfl, rfl, hmain, ?_, ?_⟩
  · intro ids hne r hr
    have hmem : r ∈ (participantRows s ids).filter (fun x => x.1 == r.1) :=
      List.mem_filter.2 ⟨hr, by simp⟩
    have hnonempty : ((participantRows s ids).filter (fun x => x.1 == r.1)).isEmpty = false := by
      cases hf : (participantRows s ids).filter (fun x => x.1 == r.1) with
      | nil => rw [hf] at hmem; simp at hmem
      | cons _ _ => rfl
    refine ⟨_, ?_, List.mem_map.2 ⟨r, hmem, rfl⟩⟩
    rw [hmain ids r.1 hne, hnonempty]
    rfl
  · intro ids k l hl
    cases ids with
    | none => simp [getTaskParticipants] at hl
    | some ids =>
      cases ids with
      | nil => simp [getTaskParticipants] at hl
      | cons x xs =>
        rw [hmain (x :: xs) k (by simp)] at hl
        split at hl
        · cases hl
        · rename_i hne
          injection hl with hl
          subst hl
          intro h0
          apply hne
          simpa using h0

/-! ## The task list of the front end -/

/-- C28: with caching enabled, `getAllTasks` returns the value cached under
`tasks:all` whenever the cache holds one, and sends no request (the client
state is unchanged); with no cached value, and a deduplicator that runs the
request it is given, it sends one request and returns the data of the
response, which it caches under `tasks:all` for two minutes, or the rejection
of the request. -/
theorem getAllTasks_cached_or_fetched {C V E : Type} (cacheGet : C → String → Option V)
    (cacheSet : C → String → V → Nat → C)
    (dedupe : String → (ClientState C → ClientState C × Except E V) →
      ClientState C → ClientState C × Except E V)
    (api : Except E V) (st : ClientState C)
    (hdedupe : ∀ fn st1, dedupe "tasks:all" fn st1 = fn st1) :
    (∀ cached : V, cacheGet st.cache "tasks:all" = some cached →
        getAllTasks cacheGet cacheSet dedupe api st true = (st, .ok cached))
    ∧ (cacheGet st.cache "tasks:all" = none →
        (getAllTasks cacheGet cacheSet dedupe api st true).2 = api
        ∧ (getAllTasks cacheGet cacheSet dedupe api st true).1.requests
            = st.requests ++ ["GET /"]
        ∧ (∀ data : V, api = .ok data →
            (getAllTasks cacheGet cacheSet dedupe api st true).1.cache
              = cacheSet st.cache "tasks:all" data 120000)) := by
  refine ⟨?_, ?_⟩
  · intro cached hc
    simp [getAllTasks, hc]
  · intro hc
    cases api with
    | error e =>
      simp [getAllTasks, hc, hdedupe]
    | ok data =>
      simp [getAllTasks, hc, hdedupe]

/-- C28 at concrete inputs: a client whose cache holds a list returns it and
sends nothing; a client with an empty cache sends one request and returns the
list of the response. -/
theorem getAllTasks_cached_or_fetched_witness :
    (∀ (fn : ClientState (List (String × List String)) →
          ClientState (List (String × List String)) × Except String (List String))
        (st1 : ClientState (List (String × List String))),
        dedupeRun "tasks:all" fn st1 = fn st1)
    ∧ (getAllTasks sampleCacheGet sampleCacheSet dedupeRun
          (.ok ["Test Task"] : Except String (List String)) warmClient true).2
        = .ok ["Cached Task"]
    ∧ (getAllTasks sampleCacheGet sampleCacheSet dedupeRun
          (.ok ["Test Task"] : Except String (List String)) warmClient true).1.requests = []
    ∧ (getAllTasks sampleCacheGet sampleCacheSet dedupeRun
          (.ok ["Test Task"] : Except String (List String)) coldClient true).2
        = .ok ["Test Task"]
    ∧ (getAllTasks sampleCacheGet sampleCacheSet dedupeRun
          (.ok ["Test Task"] : Except String (List String)) coldClient true).1.requests
        = ["GET /"] :=
  ⟨fun _ _ => rfl,
   congrArg Prod.snd
     ((getAllTasks_cached_or_fetched sampleCacheGet sampleCacheSet dedupeRun
        (.ok ["Test Task"] : Except String (List String)) warmClient
        (fun _ _ => rfl)).1 ["Cached Task"] (by decide)),
   congrArg (fun r => r.1.requests)
     ((getAllTasks_cached_or_fetched sampleCacheGet sampleCacheSet dedupeRun
        (.ok ["Test Task"] : Except String (List String)) warmClient
        (fun _ _ => rfl)).1 ["Cached Task"] (by decide)),
   ((getAllTasks_cached_or_fetched sampleCacheGet sampleCacheSet dedupeRun
        (.ok ["Test Task"] : Except String (List String)) coldClient
        (fun _ _ => rfl)).2 (by decide)).1,
   ((getAllTasks_cached_or_fetched sampleCacheGet sampleCacheSet dedupeRun
        (.ok ["Test Task"] : Except String (List String)) coldClient
        (fun _ _ => rfl)).2 (by decide)).2.1⟩

/-! ## Consistency of the permission levels -/

/-- C29: the permissions are not consistent across levels.  For a row whose
`viewer_access_level` is `full` and a participants map that lists user 3 only
under the task, viewer 2 gets `canEdit` and `canDelete` but not
`canUpdateProgress`: the first two read the access level with its fallback to
the row, the third reads the participants map only.  In a store where the
participation of bob at level `full` has no users row to join, the viewer
payload of bob is of that kind, and `updateProgress` by bob is answered 403
while `updateTask` by bob is answered 200 and renames the task. -/
theorem buildTaskPayload_canDelete_without_canUpdateProgress :
    (buildTaskPayload (sampleRow (some "full") (some "Pending")) mapWithCarolOnly
        2).permissions
      = { canEdit := true, canDelete := true, canUpdateProgress := false, canShare := false }
    ∧ (loadTaskForViewer orphanStore 10 2).map (·.permissions)
      = some { canEdit := true, canDelete := true, canUpdateProgress := false,
               canShare := false }
    ∧ (updateProgress sampleEnv orphanStore bob (some 10) (.string "Completed")).2
      = .response 403 (.error "You do not have permission to update progress")
    ∧ (updateProgress sampleEnv orphanStore bob (some 10) (.string "Completed")).1
      = orphanStore
    ∧ (match (updateTask sampleEnv orphanStore bob (some 10)
          { title := .string "New", description := .undefined, status := .undefined,
            due_date := .undefined }).2 with
        | .response status _ => status
        | .uncaught => 0) = 200
    ∧ (updateTask sampleEnv orphanStore bob (some 10)
          { title := .string "New", description := .undefined, status := .undefined,
            due_date := .undefined }).1.tasks.map (·.title) = ["New"] := by
  refine ⟨by decide, by decide, by decide, by decide, by decide, by decide⟩

/-- How the permission levels relate: `canDelete` equals `canEdit`; `canShare`
implies `canEdit` and `canUpdateProgress`; and `canEdit` comes without
`canUpdateProgress` exactly when the viewer is not the owner, the participants
map has no entry for the viewer under the task, and the row's
`viewer_access_level` is `full`: in every other case `canEdit` implies
`canUpdateProgress`. -/
theorem buildTaskPayload_permission_levels (row : TaskRow) (participantsMap : ParticipantsMap)
    (viewerId : Int) :
    (buildTaskPayload row participantsMap viewerId).permissions.canDelete
      = (buildTaskPayload row participantsMap viewerId).permissions.canEdit
    ∧ ((buildTaskPayload row participantsMap viewerId).permissions.canShare = true →
        (buildTaskPayload row participantsMap viewerId).permissions.canEdit = true
        ∧ (buildTaskPayload row participantsMap viewerId).permissions.canUpdateProgress = true)
    ∧ (((buildTaskPayload row participantsMap viewerId).permissions.canEdit = true
        ∧ (buildTaskPayload row participantsMap viewerId).permissions.canUpdateProgress = false)
      ↔ (row.user_id ≠ viewerId
          ∧ (∀ q ∈ (participantsMap row.id).getD [], q.id ≠ viewerId)
          ∧ row.viewer_access_level = some "full")) := by
  by_cases h : row.user_id = viewerId
  · simp [buildTaskPayload, h]
  · have hne : (row.user_id == viewerId) = false := by simpa using h
    refine ⟨rfl, ?_, ?_⟩
    · simp [buildTaskPayload, hne]
    · simp only [buildTaskPayload, hne, Bool.false_or, Bool.false_eq_true, if_false, ne_eq, h,
        not_false_eq_true, true_and]
      cases hf : List.find? (fun q : PayloadParticipant => q.id == viewerId)
          (((participantsMap row.id).getD []).map fun participant =>
            ({ id := participant.id, username := participant.username,
               email := participant.email, accessLevel := participant.accessLevel,
               status := participant.status,
               isCurrentUser := participant.id == viewerId } : PayloadParticipant)) with
      | none =>
        have hall : ∀ q ∈ (participantsMap row.id).getD [], q.id ≠ viewerId := by
          intro q hq
          have := List.find?_eq_none.1 hf
            { id := q.id, username := q.username, email := q.email,
              accessLevel := q.accessLevel, status := q.status,
              isCurrentUser := q.id == viewerId }
            (List.mem_map.2 ⟨q, hq, rfl⟩)
          simpa using this
        rcases hv : row.viewer_access_level with _ | a
        · simp [orString]
        · by_cases ha : a = ""
          · subst ha
            simp [orString, truthyString]
          · by_cases hfull : a = "full"
            · subst hfull
              simpa [orString, truthyString] using hall
            · simp [orString, truthyString, ha, hfull]
      | some q =>
        have hq := List.find?_some hf
        have hmem := List.mem_of_find?_eq_some hf
        obtain ⟨p, hp, hpq⟩ := List.mem_map.1 hmem
        have hid : p.id = viewerId := by
          subst hpq
          simpa using hq
        simp only [Option.isSome_some, Bool.true_eq_false, and_false, false_iff, not_and]
        intro hall
        exact absurd hid (hall p hp)

/-! ## What a share tells a user who is not the owner -/

/-- C30: for an existing task and a requesting user who is not its owner, a
share with a non-blank identifier is answered 403 `Only the task owner can
share this task` and writes nothing, whatever the identifier, the access
level, the users table and the participation table are: two runs on the same
tasks table by the same user give the same answer, whether or not the
identifier names an existing user or one the task is already shared with. -/
theorem shareTask_non_owner_learns_nothing (env env2 : Env) (s s2 : Store) (user : AuthUser)
    (T : Int) (body body2 : ShareBody) (raw raw2 : String) (t : TaskRecord)
    (rest : List TaskRecord)
    (hraw : shareLookupValue body = .string raw) (hnb : jsTrim raw ≠ "")
    (hraw2 : shareLookupValue body2 = .string raw2) (hnb2 : jsTrim raw2 ≠ "")
    (htasks : s2.tasks = s.tasks)
    (hts : s.tasks.filter (fun t => t.id == T) = t :: rest) (ho : t.user_id ≠ user.id) :
    (shareTask env s user (some T) body).2
      = .response 403 (.error "Only the task owner can share this task")
    ∧ (shareTask env2 s2 user (some T) body2).2 = (shareTask env s user (some T) body).2
    ∧ (shareTask env s user (some T) body).1 = s
    ∧ (shareTask env2 s2 user (some T) body2).1 = s2 := by
  have hts2 : s2.tasks.filter (fun t => t.id == T) = t :: rest := by rw [htasks]; exact hts
  have h1 : shareTask env s user (some T) body
      = (s, .response 403 (.error "Only the task owner can share this task")) := by
    simp [shareTask, hraw, hnb, hts, ho]
  have h2 : shareTask env2 s2 user (some T) body2
      = (s2, .response 403 (.error "Only the task owner can share this task")) := by
    simp [shareTask, hraw2, hnb2, hts2, ho]
  rw [h1, h2]
  exact ⟨rfl, rfl, rfl, rfl⟩

/-- C30 at concrete inputs: bob, who does not own task 10, names alice, who
exists, and then a user who does not exist, on a store where the task is
shared with nobody and on one where it is shared with bob; the answers are the
same. -/
theorem shareTask_non_owner_learns_nothing_witness :
    (shareTask sampleEnv sampleStore bob (some 10) (shareWith "alice")).2
      = .response 403 (.error "Only the task owner can share this task")
    ∧ (shareTask sampleEnv (sharedStore "full") bob (some 10) (shareWith "nobody")).2
      = (shareTask sampleEnv sampleStore bob (some 10) (shareWith "alice")).2
    ∧ (shareTask sampleEnv sampleStore bob (some 10) (shareWith "alice")).1 = sampleStore
    ∧ (shareTask sampleEnv (sharedStore "full") bob (some 10) (shareWith "nobody")).1
      = sharedStore "full" :=
  shareTask_non_owner_learns_nothing sampleEnv sampleEnv sampleStore (sharedStore "full") bob 10
    (shareWith "alice") (shareWith "nobody") "alice" "nobody" sampleTask []
    (by decide) (by decide) (by decide) (by decide) (by decide) (by decide) (by decide)

end TaskManagement
